import Mathlib

/-!
# picoclaw: WhatsApp channel adapter and web admin server

A shallow embedding of `pkg/channels/whatsapp.go` and of the handlers of
`pkg/webui/server.go` that the adapter shares state with, followed by theorems
about them.

Conventions of the embedding

* Go `string` is `String`; a `*string` of a protobuf message is `Option String`
  (`none` is the nil pointer).
* Go `map[string]string` is an association list with unique keys, written
  through `mapSet` and read through `mapGet`.
* A method that logs, calls the base channel or touches files returns what it
  did next to its result: the log lines, the call handed to the base channel,
  the new state.
* What the operating system, the whatsmeow and go-qrcode libraries and the
  packages `utils` and `config` decide is a parameter (`Lib`, `StartEnv`,
  `Transport`, `DiskEnv`, the error of `SaveConfig`), so every theorem holds
  for all of their behaviours.
* The identity handlers work on a `Disk`: the files of the workspace by path,
  each holding the JSON document of an identity, other bytes, or nothing that
  can be read.
-/

namespace Picoclaw

/-! ## Go maps with string keys -/

/-- Assignment `m[k] = v` on a map with string keys. -/
def mapSet {α : Type} : List (String × α) → String → α → List (String × α)
  | [], k, v => [(k, v)]
  | p :: m, k, v => if p.1 = k then (k, v) :: m else p :: mapSet m k v

/-- Lookup `m[k]` on a map with string keys; `none` when the key is absent. -/
def mapGet {α : Type} (m : List (String × α)) (k : String) : Option α :=
  (m.find? (fun p => p.1 == k)).map (fun p => p.2)

/-! ## Logging -/

/-- One call of `logger.InfoC`, `logger.InfoCF` or `logger.ErrorCF`. -/
structure LogLine where
  level : String
  component : String
  message : String
  fields : List (String × String)
deriving DecidableEq, Repr

/-- The line written by `logger.InfoC(component, message)`. -/
def InfoC (component message : String) : LogLine :=
  { level := "INFO", component := component, message := message, fields := [] }

/-- The line written by `logger.InfoCF(component, message, fields)`. -/
def InfoCF (component message : String) (fields : List (String × String)) : LogLine :=
  { level := "INFO", component := component, message := message, fields := fields }

/-- The line written by `logger.ErrorCF(component, message, fields)`. -/
def ErrorCF (component message : String) (fields : List (String × String)) : LogLine :=
  { level := "ERROR", component := component, message := message, fields := fields }

/-! ## whatsmeow data -/

/-- A WhatsApp address, `types.JID`. -/
structure JID where
  User : String
  Server : String
  Device : Nat
deriving DecidableEq, Repr

/-- The fields of `types.MessageInfo` read by the adapter. `Timestamp` holds the
value of `evt.Info.Timestamp.Unix()`. -/
structure MessageInfo where
  ID : String
  Sender : JID
  Chat : JID
  IsFromMe : Bool
  PushName : String
  Timestamp : Int
deriving DecidableEq, Repr

/-- The protobuf message `waProto.ExtendedTextMessage`, field `Text`. -/
structure ExtendedTextMessage where
  Text : Option String
deriving DecidableEq, Repr

/-- The protobuf message `waProto.Message`, the two fields the adapter reads. -/
structure Message where
  Conversation : Option String
  ExtendedTextMessage : Option ExtendedTextMessage
deriving DecidableEq, Repr

/-- The event `events.Message`. -/
structure MessageEvent where
  Info : MessageInfo
  Message : Message
deriving DecidableEq, Repr

/-- The values `handleEvent` switches on; `other` is any value of another type. -/
inductive Event where
  | Message (v : MessageEvent)
  | Connected
  | Disconnected
  | LoggedOut
  | other
deriving DecidableEq, Repr

/-- Behaviour of code outside the two source files, taken as a parameter:
`utils.Truncate`, `types.JID.String`, `types.ParseJID` (with the text of its
error), and `qrcode.New(code, qrcode.Medium)` followed by `ToSmallString(false)`
(the text of the error when `qrcode.New` returns one). -/
structure Lib where
  Truncate : String → Nat → String
  jidString : JID → String
  ParseJID : String → Except String JID
  qrSmallString : String → Except String String

/-- The rendering `fmt.Sprintf("%d", n)` of an integer. -/
def sprintfD (n : Int) : String := toString n

/-! ## Inbound path of the WhatsApp adapter -/

/-- The arguments of one call `c.HandleMessage(senderID, chatID, content, media,
metadata)` of the base channel. -/
structure HandleCall where
  senderID : String
  chatID : String
  content : String
  media : List String
  metadata : List (String × String)
deriving DecidableEq, Repr

/-- The text `handleMessage` extracts from a message: the conversation field
when its pointer is not nil, otherwise the extended text when both of its
pointers are not nil, otherwise the zero value. -/
def messageContent (m : Message) : String :=
  match m.Conversation with
  | some s => s
  | none =>
    match m.ExtendedTextMessage with
    | some e =>
      match e.Text with
      | some t => t
      | none => ""
    | none => ""

/-- The metadata map `handleMessage` builds. -/
def messageMetadata (info : MessageInfo) : List (String × String) :=
  let metadata := mapSet (mapSet [] "message_id" info.ID) "timestamp" (sprintfD info.Timestamp)
  if info.PushName ≠ "" then mapSet metadata "user_name" info.PushName else metadata

/-- `WhatsAppChannel.handleMessage`: the log lines written and the call made to
the base channel, if any. -/
def handleMessage (lib : Lib) (evt : MessageEvent) : List LogLine × Option HandleCall :=
  if evt.Info.IsFromMe then ([], none)
  else
    let content := messageContent evt.Message
    if content = "" then ([], none)
    else
      let senderID := lib.jidString evt.Info.Sender
      let chatID := lib.jidString evt.Info.Chat
      ([InfoCF "whatsapp" "Message received"
          [("sender", senderID), ("content", lib.Truncate content 50)]],
       some { senderID := senderID, chatID := chatID, content := content, media := [],
              metadata := messageMetadata evt.Info })

/-- `WhatsAppChannel.handleEvent`: dispatch on the event's type. Only a message
event reaches the base channel; the other three known events write one log line
and a value of any other type matches no case. -/
def handleEvent (lib : Lib) (evt : Event) : List LogLine × Option HandleCall :=
  match evt with
  | .Message v => handleMessage lib v
  | .Connected => ([InfoC "whatsapp" "Connected to WhatsApp"], none)
  | .Disconnected => ([InfoC "whatsapp" "Disconnected from WhatsApp"], none)
  | .LoggedOut => ([InfoC "whatsapp" "Logged out from WhatsApp"], none)
  | .other => ([], none)

/-! ## path/filepath on a Unix system

The adapter and the web server name the QR files with `filepath.Join` and
`filepath.Dir`. Their documented behaviour is modelled on the characters of the
path: `Clean` replaces runs of separators by one, drops `.` elements, drops an
inner `..` together with the element before it, drops `..` at the start of a
rooted path, and turns the empty result into `.`. -/

/-- The elements of a path between its separators (`strings.Split(path, "/")`). -/
def splitSlash : List Char → List (List Char)
  | [] => [[]]
  | c :: cs =>
    if c = '/' then [] :: splitSlash cs
    else
      match splitSlash cs with
      | [] => [[c]]
      | w :: ws => (c :: w) :: ws

/-- The elements joined by single separators. -/
def joinSlash : List (List Char) → List Char
  | [] => []
  | [w] => w
  | w :: ws => w ++ '/' :: joinSlash ws

/-- One element read by `Clean`; `stack` holds the elements kept so far, the
last one first. -/
def cleanStep (rooted : Bool) (stack : List (List Char)) (el : List Char) : List (List Char) :=
  if el = [] ∨ el = ['.'] then stack
  else if el = ['.', '.'] then
    match stack with
    | [] => if rooted then [] else [el]
    | top :: below => if top = ['.', '.'] then el :: stack else below
  else el :: stack

/-- Whether a path starts with the separator. -/
def isRooted (path : List Char) : Bool :=
  match path with
  | c :: _ => c == '/'
  | [] => false

/-- The elements `Clean` keeps, in path order. -/
def cleanElems (rooted : Bool) (path : List Char) : List (List Char) :=
  ((splitSlash path).foldl (cleanStep rooted) []).reverse

/-- The path written from its kept elements. -/
def renderPath (rooted : Bool) (elems : List (List Char)) : List Char :=
  let out := (if rooted then ['/'] else []) ++ joinSlash elems
  if out = [] then ['.'] else out

/-- `filepath.Clean` on characters. -/
def cleanChars (path : List Char) : List Char :=
  renderPath (isRooted path) (cleanElems (isRooted path) path)

/-- `filepath.Clean`. -/
def Clean (path : String) : String := String.mk (cleanChars path.data)

/-- `filepath.Join`: empty leading elements are skipped, the rest is joined by
separators and cleaned; the result is empty when every element is. -/
def Join : List String → String
  | [] => ""
  | e :: rest =>
    if e = "" then Join rest
    else Clean (String.mk (joinSlash ((e :: rest).map String.data)))

/-- The path up to and including its last separator. -/
def upToLastSlash : List Char → List Char
  | [] => []
  | c :: cs => if '/' ∈ c :: cs then c :: upToLastSlash cs else []

/-- `filepath.Dir`. -/
def Dir (path : String) : String := Clean (String.mk (upToLastSlash path.data))

/-- A path element that `Clean` keeps as it is: not empty, without separator,
neither `.` nor `..`. -/
def PlainElem (x : List Char) : Prop :=
  x ≠ [] ∧ '/' ∉ x ∧ x ≠ ['.'] ∧ x ≠ ['.', '.']

/-- The elements `Clean` leaves in a path: `..` elements first (none in a rooted
path), plain elements after them. -/
def NormalElems (rooted : Bool) (elems : List (List Char)) : Prop :=
  ∃ (n : Nat) (plain : List (List Char)),
    elems = List.replicate n ['.', '.'] ++ plain ∧ (∀ x ∈ plain, PlainElem x) ∧
      (rooted = true → n = 0)

/-- The stack of `Clean`, last element first: plain elements above `..` elements. -/
def NormalStack (rooted : Bool) (stack : List (List Char)) : Prop :=
  ∃ (n : Nat) (plain : List (List Char)),
    stack = plain ++ List.replicate n ['.', '.'] ∧ (∀ x ∈ plain, PlainElem x) ∧
      (rooted = true → n = 0)

/-- `Join` of two elements on characters. -/
def joinTwo (dir name : List Char) : List Char :=
  if dir = [] then cleanChars name else cleanChars (dir ++ '/' :: name)

/-! ## Files of the workspace -/

/-- The regular files by path, with their contents. -/
abbrev Files := List (String × String)

/-- `os.ReadFile`; `none` stands for any error. -/
def ReadFile (fs : Files) (path : String) : Option String := mapGet fs path

/-- `os.WriteFile` with its error dropped, as the adapter calls it: the file
holds `data` afterwards when the write succeeds and nothing changes when it
fails. `writable` says for which paths the write succeeds. -/
def WriteFile (writable : String → Bool) (fs : Files) (path data : String) : Files :=
  if writable path then mapSet fs path data else fs

/-! ## Configuration -/

/-- Modelled from the spec: package `config` is not among the source files. The
fields `enabled` and `allow_from` of one channel's configuration, as the
handlers of the web server and `NewWhatsAppChannel` use them
(`FlexibleStringSlice` is a `[]string`). -/
structure ChannelConfig where
  Enabled : Bool
  AllowFrom : List String
deriving DecidableEq, Repr

/-- Modelled from the spec: `channels.{telegram,discord,whatsapp,feishu,slack}`. -/
structure ChannelsConfig where
  Telegram : ChannelConfig
  Discord : ChannelConfig
  WhatsApp : ChannelConfig
  Feishu : ChannelConfig
  Slack : ChannelConfig
deriving DecidableEq, Repr

/-- Modelled from the spec: `config.Config`, reduced to the channel section and
the value that `WorkspacePath()` returns (`workspace_path`). -/
structure Config where
  Channels : ChannelsConfig
  WorkspacePath : String
deriving DecidableEq, Repr

/-! ## Base channel -/

/-- Modelled from the spec: `bus.InboundMessage` without `received_at`. -/
structure InboundMessage where
  channel_id : String
  sender_id : String
  chat_id : String
  content : String
  attachments : List String
  metadata : List (String × String)
deriving DecidableEq, Repr

/-- The fields of `bus.OutboundMessage` read by `Send`. -/
structure OutboundMessage where
  Channel : String
  ChatID : String
  Content : String
deriving DecidableEq, Repr

/-- Modelled from the spec: `BaseChannel` (base.go is not among the source
files) holds the adapter's name, its allow-list and the running flag; the bus
handle is left out, what is published is returned by `HandleMessage`. -/
structure BaseChannel where
  name : String
  allowList : List String
  running : Bool
deriving DecidableEq, Repr

/-- Modelled from the spec: `NewBaseChannel(name, config, bus, allowList)` stores
the allow-list it is given; a new channel is not running. -/
def NewBaseChannel (name : String) (allowList : List String) : BaseChannel :=
  { name := name, allowList := allowList, running := false }

/-- Modelled from the spec: `BaseChannel.setRunning` writes the running flag. -/
def BaseChannel.setRunning (b : BaseChannel) (running : Bool) : BaseChannel :=
  { b with running := running }

/-- Modelled from the spec: `running()` reads the running flag. -/
def BaseChannel.IsRunning (b : BaseChannel) : Bool := b.running

/-- Modelled from the spec: the allow-list filter; the empty list allows all. -/
def BaseChannel.IsAllowed (b : BaseChannel) (senderID : String) : Bool :=
  b.allowList.isEmpty || b.allowList.contains senderID

/-- Modelled from the spec: `BaseChannel.HandleMessage` (1) rejects a sender
absent from a non-empty allow-list, (2) rejects empty content without
attachments, (3) cuts the content for its log line only, the payload is
preserved, (4) publishes an `InboundMessage` with `channel_id = name`. The
result is the message published, if any; the log lines, whose texts the spec
does not give, are left out. -/
def BaseChannel.HandleMessage (b : BaseChannel) (call : HandleCall) : Option InboundMessage :=
  if ¬ b.IsAllowed call.senderID then none
  else if call.content = "" ∧ call.media = [] then none
  else
    some { channel_id := b.name, sender_id := call.senderID, chat_id := call.chatID,
           content := call.content, attachments := call.media, metadata := call.metadata }

/-! ## The WhatsApp adapter -/

/-- What the adapter reads of a `whatsmeow.Client`: `client.Store.ID` and
whether the connection is up. -/
structure Client where
  StoreID : Option JID
  connected : Bool
deriving DecidableEq, Repr

/-- The device-store database, `sqlstore.Container`. -/
structure Container where
  closed : Bool
deriving DecidableEq, Repr

/-- The struct `WhatsAppChannel`; `client` and `container` are nil until `Start`
sets them. -/
structure WhatsAppChannel where
  base : BaseChannel
  client : Option Client
  config : ChannelConfig
  container : Option Container
  dbPath : String
deriving DecidableEq, Repr

/-- `NewWhatsAppChannel`: the base channel receives the allow-list the
configuration holds at this moment. -/
def NewWhatsAppChannel (cfg : Config) : WhatsAppChannel :=
  let whatsappCfg := cfg.Channels.WhatsApp
  { base := NewBaseChannel "whatsapp" whatsappCfg.AllowFrom
    client := none
    config := whatsappCfg
    container := none
    dbPath := Join [cfg.WorkspacePath, "whatsapp.db"] }

/-- One value received from the channel returned by `client.GetQRChannel`. -/
structure QRChannelItem where
  Event : String
  Code : String
deriving DecidableEq, Repr

/-- What the operating system and whatsmeow answer during one call of `Start`:
the error of each fallible call (`none` is a nil error), the id of the stored
device, the items the QR channel delivers before it is closed, and the paths
`os.WriteFile` can write. -/
structure StartEnv where
  mkdirAllErr : Option String
  sqlstoreNewErr : Option String
  getFirstDeviceErr : Option String
  deviceID : Option JID
  getQRChannelErr : Option String
  connectErr : Option String
  qrItems : List QRChannelItem
  writable : String → Bool

/-- The body of `for evt := range qrChan` in `Start`, run over the items the
channel delivers: the files afterwards and the log lines. -/
def qrLoop (lib : Lib) (writable : String → Bool) (dbPath : String) :
    List QRChannelItem → Files → Files × List LogLine
  | [], fs => (fs, [])
  | evt :: rest, fs =>
    if evt.Event = "code" then
      match lib.qrSmallString evt.Code with
      | .error e =>
        let r := qrLoop lib writable dbPath rest fs
        (r.1, [ErrorCF "whatsapp" "Failed to generate QR code" [("error", e)],
               InfoC "whatsapp" ("QR Code string: " ++ evt.Code)] ++ r.2)
      | .ok qrString =>
        let workspace := Dir dbPath
        let qrFilePath := Join [workspace, "whatsapp_qr.txt"]
        let fs1 := WriteFile writable fs qrFilePath qrString
        let qrCodePath := Join [workspace, "whatsapp_qr_code.txt"]
        let fs2 := WriteFile writable fs1 qrCodePath evt.Code
        let r := qrLoop lib writable dbPath rest fs2
        (r.1, [InfoC "whatsapp" ("\n" ++ qrString), InfoC "whatsapp" ""] ++ r.2)
    else
      let r := qrLoop lib writable dbPath rest fs
      (r.1, [InfoCF "whatsapp" "QR channel result" [("event", evt.Event)]] ++ r.2)

/-- The lines `Start` logs before it reads the QR channel. -/
def qrBanner : List LogLine :=
  [InfoC "whatsapp" "",
   InfoC "whatsapp" "═══════════════════════════════════════════════════════════════",
   InfoC "whatsapp" "  Scan the QR code below with WhatsApp to link your device:",
   InfoC "whatsapp" "  1. Open WhatsApp on your phone",
   InfoC "whatsapp" "  2. Tap Settings → Linked Devices → Link a Device",
   InfoC "whatsapp" "  3. Scan the QR code below",
   InfoC "whatsapp" "═══════════════════════════════════════════════════════════════",
   InfoC "whatsapp" ""]

/-- What a call of `Start` leaves behind: the error returned (`none` is nil),
the adapter, the files and the log lines. -/
structure StartResult where
  err : Option String
  chan : WhatsAppChannel
  files : Files
  logs : List LogLine

/-- `WhatsAppChannel.Start`. -/
def WhatsAppChannel.Start (lib : Lib) (env : StartEnv) (c : WhatsAppChannel) (fs : Files) :
    StartResult :=
  let log0 := [InfoC "whatsapp" "Starting WhatsApp channel..."]
  match env.mkdirAllErr with
  | some e =>
    { err := some ("failed to create database directory: " ++ e), chan := c, files := fs,
      logs := log0 }
  | none =>
  match env.sqlstoreNewErr with
  | some e => { err := some ("failed to create database: " ++ e), chan := c, files := fs, logs := log0 }
  | none =>
  let c1 := { c with container := some { closed := false } }
  match env.getFirstDeviceErr with
  | some e => { err := some ("failed to get device: " ++ e), chan := c1, files := fs, logs := log0 }
  | none =>
  let c2 := { c1 with client := some { StoreID := env.deviceID, connected := false } }
  match env.deviceID with
  | none =>
    match env.getQRChannelErr with
    | some e =>
      { err := some ("failed to get QR channel: " ++ e), chan := c2, files := fs, logs := log0 }
    | none =>
    match env.connectErr with
    | some e => { err := some ("failed to connect: " ++ e), chan := c2, files := fs, logs := log0 }
    | none =>
      let c3 := { c2 with client := some { StoreID := env.deviceID, connected := true } }
      let r := qrLoop lib env.writable c.dbPath env.qrItems fs
      { err := none
        chan := { c3 with base := c3.base.setRunning true }
        files := r.1
        logs := log0 ++ qrBanner ++ r.2 ++ [InfoC "whatsapp" "WhatsApp connected successfully"] }
  | some _ =>
    match env.connectErr with
    | some e => { err := some ("failed to connect: " ++ e), chan := c2, files := fs, logs := log0 }
    | none =>
      let c3 := { c2 with client := some { StoreID := env.deviceID, connected := true } }
      { err := none
        chan := { c3 with base := c3.base.setRunning true }
        files := fs
        logs := log0 ++ [InfoC "whatsapp" "WhatsApp connected successfully"] }

/-- `WhatsAppChannel.Stop`; `closeErr` is the error of `container.Close()`. The
method always returns nil. -/
def WhatsAppChannel.Stop (closeErr : Option String) (c : WhatsAppChannel) :
    WhatsAppChannel × List LogLine :=
  let log0 := [InfoC "whatsapp" "Stopping WhatsApp channel..."]
  let c1 : WhatsAppChannel :=
    match c.client with
    | some cl => { c with client := some { cl with connected := false } }
    | none => c
  let r : WhatsAppChannel × List LogLine :=
    match c1.container with
    | some _ =>
      match closeErr with
      | some e =>
        ({ c1 with container := some { closed := false } },
         [ErrorCF "whatsapp" "Failed to close database" [("error", e)]])
      | none => ({ c1 with container := some { closed := true } }, [])
    | none => (c1, [])
  ({ r.1 with base := r.1.base.setRunning false }, log0 ++ r.2)

/-- The answer of `client.SendMessage` for a recipient and a message: its error,
`none` when the message was sent. -/
abbrev Transport := JID → Message → Option String

/-- What a call of `Send` did: the error returned (`none` is nil), the messages
handed to `client.SendMessage`, and the log lines. -/
structure SendResult where
  err : Option String
  handed : List (JID × Message)
  logs : List LogLine
deriving DecidableEq, Repr

/-- `WhatsAppChannel.Send`. -/
def WhatsAppChannel.Send (lib : Lib) (tr : Transport) (c : WhatsAppChannel)
    (msg : OutboundMessage) : SendResult :=
  match c.client with
  | none => { err := some "whatsapp client not connected", handed := [], logs := [] }
  | some _ =>
    match lib.ParseJID msg.ChatID with
    | .error e => { err := some ("invalid chat ID: " ++ e), handed := [], logs := [] }
    | .ok jid =>
      let m : Message := { Conversation := some msg.Content, ExtendedTextMessage := none }
      match tr jid m with
      | some e => { err := some ("failed to send message: " ++ e), handed := [(jid, m)], logs := [] }
      | none =>
        { err := none, handed := [(jid, m)],
          logs := [InfoCF "whatsapp" "Sent message" [("chat_id", msg.ChatID)]] }

/-! ## The adapter as a state machine -/

/-- The adapter together with the workspace files it writes and the messages
its base channel has published on the bus, oldest first. -/
structure World where
  chan : WhatsAppChannel
  files : Files
  bus : List InboundMessage

/-- The calls an adapter receives: the three methods of its contract, each with
what its surroundings answer, and an event delivered by whatsmeow. -/
inductive Action where
  | start (env : StartEnv)
  | stop (closeErr : Option String)
  | send (tr : Transport) (msg : OutboundMessage)
  | deliver (evt : Event)

/-- One call: the state afterwards and whether the call returned without an
error (a delivered event returns nothing and counts as such). -/
def step (lib : Lib) (w : World) : Action → World × Bool
  | .start env =>
    let r := w.chan.Start lib env w.files
    ({ w with chan := r.chan, files := r.files }, r.err.isNone)
  | .stop closeErr => ({ w with chan := (w.chan.Stop closeErr).1 }, true)
  | .send tr msg => (w, (w.chan.Send lib tr msg).err.isNone)
  | .deliver evt =>
    match (handleEvent lib evt).2 with
    | none => (w, true)
    | some call =>
      match w.chan.base.HandleMessage call with
      | none => (w, true)
      | some m => ({ w with bus := w.bus ++ [m] }, true)

/-- A sequence of calls: the final state and the calls with their outcomes. -/
def run (lib : Lib) : World → List Action → World × List (Action × Bool)
  | w, [] => (w, [])
  | w, a :: rest =>
    let r := step lib w a
    let q := run lib r.1 rest
    (q.1, (a, r.2) :: q.2)

/-- On a history of calls: some `Start` returned success and no `Stop` was
called after it. -/
def startedSinceStop (history : List (Action × Bool)) : Bool :=
  history.foldl
    (fun acc p =>
      match p.1 with
      | .start _ => acc || p.2
      | .stop _ => false
      | _ => acc)
    false

/-! ## The web admin server -/

/-- The struct `LogEntry`; `Timestamp` holds the reading of `time.Now()`. -/
structure LogEntry where
  Timestamp : Nat
  Level : String
  Component : String
  Message : String
deriving DecidableEq, Repr

/-- The fields of `Server` that its handlers read and write. -/
structure Server where
  config : Config
  configPath : String
  logBuffer : List LogEntry
  maxLogBuffer : Nat
deriving DecidableEq, Repr

/-- What a handler writes to its `http.ResponseWriter`: the plain text of
`http.Error` or the fields of an encoded JSON object. -/
inductive ResponseBody where
  | text (s : String)
  | json (fields : List (String × String))
deriving DecidableEq, Repr

/-- A response: status code and body. -/
structure Response where
  Status : Nat
  Body : ResponseBody
deriving DecidableEq, Repr

/-- The JSON body of `POST /api/channels/whitelist`. -/
structure WhitelistRequest where
  Channel : String
  Action : String
  UserID : String
deriving DecidableEq, Repr

/-- A request to a handler that decodes a JSON body of type `β`: the HTTP method
and what `json.NewDecoder(r.Body).Decode` yields (the text of its error when the
body does not decode). -/
structure Request (β : Type) where
  Method : String
  Body : Except String β

/-- What a configuration handler did: its response, the server afterwards, and
the configurations it passed to `config.SaveConfig`. -/
structure HandlerResult where
  resp : Response
  server : Server
  saveCalls : List Config
deriving DecidableEq, Repr

/-- The `add` branch of `apiManageWhitelist`: append unless already present. -/
def whitelistAdd (allowList : List String) (userID : String) : List String :=
  if allowList.any (fun id => id == userID) then allowList else allowList ++ [userID]

/-- The `remove` branch of `apiManageWhitelist`: keep the entries that differ. -/
def whitelistRemove (allowList : List String) (userID : String) : List String :=
  allowList.filter (fun id => id != userID)

/-- The edit `apiManageWhitelist` applies to the list it selected; an action
other than `add` and `remove` leaves it as it is. -/
def whitelistEdit (action : String) (allowList : List String) (userID : String) : List String :=
  if action = "add" then whitelistAdd allowList userID
  else if action = "remove" then whitelistRemove allowList userID
  else allowList

/-- The `switch req.Channel` of `apiManageWhitelist` with the edit applied
through the selected pointer; `none` is the default case. -/
def editAllowFrom (ch : ChannelsConfig) (channel : String) (f : List String → List String) :
    Option ChannelsConfig :=
  if channel = "telegram" then
    some { ch with Telegram := { ch.Telegram with AllowFrom := f ch.Telegram.AllowFrom } }
  else if channel = "discord" then
    some { ch with Discord := { ch.Discord with AllowFrom := f ch.Discord.AllowFrom } }
  else if channel = "whatsapp" then
    some { ch with WhatsApp := { ch.WhatsApp with AllowFrom := f ch.WhatsApp.AllowFrom } }
  else if channel = "feishu" then
    some { ch with Feishu := { ch.Feishu with AllowFrom := f ch.Feishu.AllowFrom } }
  else if channel = "slack" then
    some { ch with Slack := { ch.Slack with AllowFrom := f ch.Slack.AllowFrom } }
  else none

/-- The body of a successful configuration handler. -/
def statusOk : Response := { Status := 200, Body := .json [("status", "ok")] }

/-- `Server.apiManageWhitelist`; `saveErr` is the error `config.SaveConfig`
returns for a path and a configuration (`none` is nil). -/
def Server.apiManageWhitelist (saveErr : String → Config → Option String) (s : Server)
    (r : Request WhitelistRequest) : HandlerResult :=
  if r.Method ≠ "POST" then
    { resp := { Status := 405, Body := .text "Method not allowed" }, server := s, saveCalls := [] }
  else
    match r.Body with
    | .error e => { resp := { Status := 400, Body := .text e }, server := s, saveCalls := [] }
    | .ok req =>
      match editAllowFrom s.config.Channels req.Channel
          (fun l => whitelistEdit req.Action l req.UserID) with
      | none =>
        { resp := { Status := 400, Body := .text "Unknown channel" }, server := s, saveCalls := [] }
      | some ch =>
        let s1 := { s with config := { s.config with Channels := ch } }
        match saveErr s.configPath s1.config with
        | some e =>
          { resp := { Status := 500, Body := .text e }, server := s1, saveCalls := [s1.config] }
        | none => { resp := statusOk, server := s1, saveCalls := [s1.config] }

/-- `Server.apiWhatsAppQR`: the fields of the JSON object it answers with. -/
def Server.apiWhatsAppQR (s : Server) (fs : Files) : List (String × String) :=
  let workspace := s.config.WorkspacePath
  let qrFilePath := Join [workspace, "whatsapp_qr.txt"]
  let qrCodePath := Join [workspace, "whatsapp_qr_code.txt"]
  match ReadFile fs qrFilePath with
  | none =>
    [("status", "pending"),
     ("message",
       "Waiting for QR code. Make sure WhatsApp channel is enabled and gateway is running."),
     ("qr_code", "")]
  | some qrData =>
    let rawCode := (ReadFile fs qrCodePath).getD ""
    [("status", "waiting"), ("message", "QR code ready - scan with WhatsApp"),
     ("qr_code", qrData), ("raw_code", rawCode)]

/-! ## Gateway: the admin server next to a running adapter -/

/-- The web server and the WhatsApp adapter of one process. The adapter holds
the slice header it received from `NewWhatsAppChannel`; `apiManageWhitelist`
assigns a new slice to the field of the configuration (the result of `append`,
or a list built by `make`) and writes no element the adapter's slice covers. -/
structure Gateway where
  server : Server
  world : World

/-- A gateway whose adapter was built from the server's configuration. -/
def Gateway.boot (s : Server) (fs : Files) : Gateway :=
  { server := s, world := { chan := NewWhatsAppChannel s.config, files := fs, bus := [] } }

/-- An allow-list request handled by the server of the gateway. -/
def Gateway.manageWhitelist (saveErr : String → Config → Option String) (g : Gateway)
    (r : Request WhitelistRequest) : Gateway × Response :=
  let h := g.server.apiManageWhitelist saveErr r
  ({ g with server := h.server }, h.resp)

/-- A call received by the adapter of the gateway. -/
def Gateway.act (lib : Lib) (g : Gateway) (a : Action) : Gateway :=
  { g with world := (step lib g.world a).1 }

/-- The gateway after a restart: the adapter is built anew from the server's
current configuration. -/
def Gateway.rebuild (g : Gateway) : Gateway := Gateway.boot g.server g.world.files

/-- The rendering and the raw string of the last code item of a QR channel that
go-qrcode could render; `none` when there is no such item. -/
def lastRendered (lib : Lib) : List QRChannelItem → Option (String × String)
  | [] => none
  | it :: rest =>
    match lastRendered lib rest with
    | some r => some r
    | none =>
      if it.Event = "code" then
        match lib.qrSmallString it.Code with
        | .ok qrString => some (qrString, it.Code)
        | .error _ => none
      else none

/-- What the adapter publishes for one message event in its current state. -/
def World.publishes (lib : Lib) (w : World) (evt : MessageEvent) : Option InboundMessage :=
  match (handleMessage lib evt).2 with
  | none => none
  | some call => w.chan.base.HandleMessage call

/-! ## The web admin server: log buffer and configuration handlers -/

/-- `NewServer`: the fields of the server the handlers use; the templates, the
agent, the provider and the HTTP routes are left out. -/
def NewServer (cfg : Config) (configPath : String) : Server :=
  { config := cfg, configPath := configPath, logBuffer := [], maxLogBuffer := 100 }

/-- `Server.AddLogEntry`; `now` is the reading of `time.Now()`. -/
def Server.AddLogEntry (s : Server) (now : Nat) (level component message : String) : Server :=
  let entry : LogEntry :=
    { Timestamp := now, Level := level, Component := component, Message := message }
  let logBuffer := s.logBuffer ++ [entry]
  if logBuffer.length > s.maxLogBuffer then
    { s with logBuffer := logBuffer.drop (logBuffer.length - s.maxLogBuffer) }
  else { s with logBuffer := logBuffer }

/-- A sequence of `AddLogEntry` calls, each given by the entry it builds. -/
def Server.addLogEntries (s : Server) (calls : List LogEntry) : Server :=
  calls.foldl (fun t e => t.AddLogEntry e.Timestamp e.Level e.Component e.Message) s

/-- The configuration of the channel with the given name; `none` for a name
outside the five channels. -/
def ChannelsConfig.get? (ch : ChannelsConfig) (name : String) : Option ChannelConfig :=
  if name = "telegram" then some ch.Telegram
  else if name = "discord" then some ch.Discord
  else if name = "whatsapp" then some ch.WhatsApp
  else if name = "feishu" then some ch.Feishu
  else if name = "slack" then some ch.Slack
  else none

/-- The JSON body of `POST /api/channels/toggle`. -/
structure ToggleRequest where
  Channel : String
  Enabled : Bool
deriving DecidableEq, Repr

/-- The `switch req.Channel` of `apiToggleChannel`; `none` is the default case. -/
def setEnabled (ch : ChannelsConfig) (channel : String) (enabled : Bool) :
    Option ChannelsConfig :=
  if channel = "telegram" then some { ch with Telegram := { ch.Telegram with Enabled := enabled } }
  else if channel = "discord" then
    some { ch with Discord := { ch.Discord with Enabled := enabled } }
  else if channel = "whatsapp" then
    some { ch with WhatsApp := { ch.WhatsApp with Enabled := enabled } }
  else if channel = "feishu" then some { ch with Feishu := { ch.Feishu with Enabled := enabled } }
  else if channel = "slack" then some { ch with Slack := { ch.Slack with Enabled := enabled } }
  else none

/-- `Server.apiToggleChannel`; `saveErr` is the error `config.SaveConfig`
returns for a path and a configuration (`none` is nil). -/
def Server.apiToggleChannel (saveErr : String → Config → Option String) (s : Server)
    (r : Request ToggleRequest) : HandlerResult :=
  if r.Method ≠ "POST" then
    { resp := { Status := 405, Body := .text "Method not allowed" }, server := s, saveCalls := [] }
  else
    match r.Body with
    | .error e => { resp := { Status := 400, Body := .text e }, server := s, saveCalls := [] }
    | .ok req =>
      match setEnabled s.config.Channels req.Channel req.Enabled with
      | none =>
        { resp := { Status := 400, Body := .text "Unknown channel" }, server := s, saveCalls := [] }
      | some ch =>
        let s1 := { s with config := { s.config with Channels := ch } }
        match saveErr s.configPath s1.config with
        | some e =>
          { resp := { Status := 500, Body := .text e }, server := s1, saveCalls := [s1.config] }
        | none => { resp := statusOk, server := s1, saveCalls := [s1.config] }

/-- `Server.apiSaveConfig`: the decoded configuration is saved first and becomes
the configuration of the server only after that. -/
def Server.apiSaveConfig (saveErr : String → Config → Option String) (s : Server)
    (r : Request Config) : HandlerResult :=
  if r.Method ≠ "POST" then
    { resp := { Status := 405, Body := .text "Method not allowed" }, server := s, saveCalls := [] }
  else
    match r.Body with
    | .error e => { resp := { Status := 400, Body := .text e }, server := s, saveCalls := [] }
    | .ok newConfig =>
      match saveErr s.configPath newConfig with
      | some e =>
        { resp := { Status := 500, Body := .text e }, server := s, saveCalls := [newConfig] }
      | none =>
        { resp := statusOk, server := { s with config := newConfig }, saveCalls := [newConfig] }

/-- `Server.apiGetConfig`: the configuration that is encoded into the response. -/
def Server.apiGetConfig (s : Server) : Config := s.config

/-- The allow-list the server holds for the channel with the given name. -/
def Server.allowFrom? (s : Server) (name : String) : Option (List String) :=
  (s.config.Channels.get? name).map (fun c => c.AllowFrom)

/-- The enabled flag the server holds for the channel with the given name. -/
def Server.enabled? (s : Server) (name : String) : Option Bool :=
  (s.config.Channels.get? name).map (fun c => c.Enabled)

/-! ## The web admin server: identities -/

/-- The struct `BotIdentity`; the two times are readings of the clock. -/
structure BotIdentity where
  ID : String
  Name : String
  Description : String
  Icon : String
  Category : String
  IsActive : Bool
  IsDefault : Bool
  CreatedAt : Nat
  UpdatedAt : Nat
  AgentMD : String
  IdentityMD : String
  SoulMD : String
  UserMD : String
deriving DecidableEq, Repr

/-- What a file of the workspace holds, as far as the identity handlers can
tell: the JSON document of an identity (what `json.MarshalIndent` writes and
`json.Unmarshal` reads back), other bytes that do not decode into an identity,
or a file that `os.ReadFile` cannot read. -/
inductive FileData where
  | bytes (s : String)
  | identityJSON (i : BotIdentity)
  | unreadable
deriving DecidableEq, Repr

/-- The regular files of the workspace by cleaned path. -/
abbrev Disk := List (String × FileData)

/-- What the operating system and `encoding/json` answer to an identity
handler: the error of `os.WriteFile` for a path (`none` is nil), whether
`os.ReadDir` fails for a directory, and the text of the error of
`json.Unmarshal` for bytes that are not an identity document. -/
structure DiskEnv where
  writeErr : String → Option String
  readDirFails : String → Bool
  jsonErr : String → String

/-- `os.ReadFile` on the disk; `none` stands for any error. -/
def diskRead (d : Disk) (path : String) : Option FileData :=
  match mapGet d path with
  | some .unreadable => none
  | some data => some data
  | none => none

/-- `os.WriteFile` with its error dropped, as the identity handlers call it for
identity files. -/
def diskWrite (env : DiskEnv) (d : Disk) (path : String) (data : FileData) : Disk :=
  match env.writeErr path with
  | none => mapSet d path data
  | some _ => d

/-- `json.Unmarshal` into a `BotIdentity`. -/
def Unmarshal (env : DiskEnv) : FileData → Except String BotIdentity
  | .identityJSON i => .ok i
  | .bytes s => .error (env.jsonErr s)
  | .unreadable => .error (env.jsonErr "")

/-- The rest of `l` after the leading `lead`, when `l` starts with it. -/
def stripLead : List Char → List Char → Option (List Char)
  | [], l => some l
  | _ :: _, [] => none
  | a :: lead, b :: l => if a = b then stripLead lead l else none

/-- The name of the file at `path` when it lies directly in the directory `dir`
(a cleaned path other than the root). -/
def childName (dir path : List Char) : Option (List Char) :=
  match stripLead (dir ++ ['/']) path with
  | some name => if name ≠ [] ∧ '/' ∉ name then some name else none
  | none => none

/-- `os.ReadDir`: the names of the regular files of a directory, each once.
Entries that are directories are left out (the handlers skip them: their
extension differs or `os.ReadFile` fails on them), and the entries come in the
order of the disk, which the handlers do not depend on. -/
def ReadDir (d : Disk) (dir : String) : List String :=
  (d.filterMap (fun e => (childName dir.data e.1.data).map String.mk)).dedup

/-- The scan of `filepath.Ext` from the end of the path: `rev` is what remains
of the reversed path, `acc` what was passed. -/
def extScan : List Char → List Char → List Char
  | [], _ => []
  | c :: rev, acc =>
    if c = '/' then [] else if c = '.' then '.' :: acc else extScan rev (c :: acc)

/-- `filepath.Ext`: the suffix from the last dot of the last element. -/
def Ext (path : String) : String := String.mk (extScan path.data.reverse [])

/-- The JSON body of the identity requests that carry an id. -/
structure IDRequest where
  ID : String
deriving DecidableEq, Repr

/-- The error answer of an identity handler. -/
def statusError (error : String) : Response :=
  { Status := 200, Body := .json [("status", "error"), ("error", error)] }

/-- The body of the loop of `apiActivateIdentity` for one `.json` file: when the
file holds an identity with another id that is active, it is written back
inactive (the error of the write is dropped); otherwise nothing happens. -/
def deactivateFile (env : DiskEnv) (reqID filePath : String) (d : Disk) : Disk :=
  match diskRead d filePath with
  | none => d
  | some fileData =>
    match Unmarshal env fileData with
    | .error _ => d
    | .ok otherIdentity =>
      if otherIdentity.ID ≠ reqID ∧ otherIdentity.IsActive = true then
        diskWrite env d filePath (.identityJSON { otherIdentity with IsActive := false })
      else d

/-- The loop `for _, file := range files` of `apiActivateIdentity` over the
names of the directory. -/
def deactivateOthers (env : DiskEnv) (identitiesDir reqID : String) :
    List String → Disk → Disk
  | [], d => d
  | name :: rest, d =>
    if Ext name = ".json" then
      deactivateOthers env identitiesDir reqID rest
        (deactivateFile env reqID (Join [identitiesDir, name]) d)
    else deactivateOthers env identitiesDir reqID rest d

/-- The identity stored in the file `name` of the directory `dir`, when that
file holds an identity document. -/
def storedIdentity (d : Disk) (dir name : String) : Option BotIdentity :=
  match diskRead d (Join [dir, name]) with
  | some (.identityJSON i) => some i
  | _ => none

/-- The naming of the stored identities that `apiSaveIdentity` keeps to: the
identity with id `x` is in the file `x.json` of the directory. -/
def NamedById (d : Disk) (dir : String) : Prop :=
  ∀ name i, name.data ≠ [] → '/' ∉ name.data → Ext name = ".json" →
    storedIdentity d dir name = some i → name = i.ID ++ ".json"

/-- Every `.json` file of the directory can be written. -/
def IdentityFilesWritable (env : DiskEnv) (dir : String) : Prop :=
  ∀ name : String, name.data ≠ [] → '/' ∉ name.data → Ext name = ".json" →
    env.writeErr (Join [dir, name]) = none

/-- What the loop of `apiActivateIdentity` makes of the content of one file. -/
def deactivated (reqID : String) : Option FileData → Option FileData
  | some (.identityJSON i) =>
    if i.ID ≠ reqID ∧ i.IsActive = true then some (.identityJSON { i with IsActive := false })
    else some (.identityJSON i)
  | x => x

/-- The answer `ok` of `apiActivateIdentity`. -/
def activatedOk : Response :=
  { Status := 200,
    Body := .json [("status", "ok"), ("message", "Identity activated successfully")] }

/-- The four writes of the persona files at the end of `apiActivateIdentity`,
each checked: the answer and the disk when the first failing write returns, or
after all four. -/
def writePersona (env : DiskEnv) (workspace : String) (identity : BotIdentity) (d : Disk) :
    Response × Disk :=
  match env.writeErr (Join [workspace, "AGENT.md"]) with
  | some e => (statusError ("Failed to write AGENT.md: " ++ e), d)
  | none =>
    let d1 := mapSet d (Join [workspace, "AGENT.md"]) (.bytes identity.AgentMD)
    match env.writeErr (Join [workspace, "IDENTITY.md"]) with
    | some e => (statusError ("Failed to write IDENTITY.md: " ++ e), d1)
    | none =>
      let d2 := mapSet d1 (Join [workspace, "IDENTITY.md"]) (.bytes identity.IdentityMD)
      match env.writeErr (Join [workspace, "SOUL.md"]) with
      | some e => (statusError ("Failed to write SOUL.md: " ++ e), d2)
      | none =>
        let d3 := mapSet d2 (Join [workspace, "SOUL.md"]) (.bytes identity.SoulMD)
        match env.writeErr (Join [workspace, "USER.md"]) with
        | some e => (statusError ("Failed to write USER.md: " ++ e), d3)
        | none =>
          (activatedOk, mapSet d3 (Join [workspace, "USER.md"]) (.bytes identity.UserMD))

/-- `Server.apiActivateIdentity`: the answer and the disk afterwards. -/
def Server.apiActivateIdentity (env : DiskEnv) (s : Server) (d : Disk) (r : Request IDRequest) :
    Response × Disk :=
  if r.Method ≠ "POST" then ({ Status := 405, Body := .text "Method not allowed" }, d)
  else
    match r.Body with
    | .error _ => (statusError "Invalid request", d)
    | .ok req =>
      let workspace := s.config.WorkspacePath
      let identitiesDir := Join [workspace, "identities"]
      let identityPath := Join [identitiesDir, req.ID ++ ".json"]
      match diskRead d identityPath with
      | none => (statusError "Identity not found", d)
      | some data =>
        match Unmarshal env data with
        | .error e => (statusError e, d)
        | .ok identity =>
          let files := if env.readDirFails identitiesDir then [] else ReadDir d identitiesDir
          let d1 := deactivateOthers env identitiesDir req.ID files d
          let identity1 := { identity with IsActive := true }
          let d2 := diskWrite env d1 identityPath (.identityJSON identity1)
          writePersona env workspace identity1 d2

/-! ## The web admin server: saving, listing and deleting identities -/

/-- What the operating system, the clock and `encoding/json` answer to the
handlers that save, list and delete identities, on top of `DiskEnv`: the errors
of `os.MkdirAll` and `os.Remove` for a path (`none` is nil), the readings
`time.Now().Unix()` and `time.Now()`, and the text `json.MarshalIndent` writes
for an identity (what `os.ReadFile` returns for a file holding that document). -/
structure IdentityEnv extends DiskEnv where
  mkdirErr : String → Option String
  removeErr : String → Option String
  unixNow : Int
  now : Nat
  marshalText : BotIdentity → String

/-- The answers of the identity handlers: an answer without an identity in it,
`status ok` with the saved identity, or `status ok` with the list of the
identities. -/
inductive IdentityResponse where
  | plain (r : Response)
  | identity (i : BotIdentity)
  | identities (l : List BotIdentity)
deriving DecidableEq, Repr

/-- The answer `405 Method not allowed` of `http.Error`. -/
def methodNotAllowed : Response := { Status := 405, Body := .text "Method not allowed" }

/-- `Server.apiSaveIdentity`: the answer and the disk afterwards. An identity
without id gets the id `identity_<unix time>` and its creation time; the
identity is stored as the request carries it otherwise, its active flag
included. The calls of `time.Now()` are one reading of the clock, and the error
branch of `json.MarshalIndent` is left out: encoding a `BotIdentity` does not
fail. -/
def Server.apiSaveIdentity (env : IdentityEnv) (s : Server) (d : Disk)
    (r : Request BotIdentity) : IdentityResponse × Disk :=
  if r.Method ≠ "POST" then (.plain methodNotAllowed, d)
  else
    match r.Body with
    | .error e => (.plain (statusError ("Invalid request: " ++ e)), d)
    | .ok identity =>
      let workspace := s.config.WorkspacePath
      let identitiesDir := Join [workspace, "identities"]
      match env.mkdirErr identitiesDir with
      | some e => (.plain (statusError e), d)
      | none =>
        let identity1 :=
          if identity.ID = "" then
            { identity with ID := "identity_" ++ sprintfD env.unixNow, CreatedAt := env.now }
          else identity
        let identity2 := { identity1 with UpdatedAt := env.now }
        let identityPath := Join [identitiesDir, identity2.ID ++ ".json"]
        match env.writeErr identityPath with
        | some e => (.plain (statusError e), d)
        | none => (.identity identity2, mapSet d identityPath (.identityJSON identity2))

/-- The text `os.ReadFile` returns for a file, with the error dropped as
`createDefaultIdentity` does: the empty text when the file cannot be read. -/
def fileText (env : IdentityEnv) (d : Disk) (path : String) : String :=
  match diskRead d path with
  | some (.bytes t) => t
  | some (.identityJSON i) => env.marshalText i
  | _ => ""

/-- `Server.createDefaultIdentity`: the default identity made of the persona
files of the workspace. -/
def Server.createDefaultIdentity (env : IdentityEnv) (s : Server) (d : Disk) : BotIdentity :=
  let workspace := s.config.WorkspacePath
  { ID := "default"
    Name := "Personal Assistant"
    Description := "Default PicoClaw personal AI assistant"
    Icon := "🦞"
    Category := "personal"
    IsActive := true
    IsDefault := true
    CreatedAt := env.now
    UpdatedAt := env.now
    AgentMD := fileText env d (Join [workspace, "AGENT.md"])
    IdentityMD := fileText env d (Join [workspace, "IDENTITY.md"])
    SoulMD := fileText env d (Join [workspace, "SOUL.md"])
    UserMD := fileText env d (Join [workspace, "USER.md"]) }

/-- The body of the loop of `apiListIdentities` for one directory entry: a
`.json` file that can be read and decoded is appended to the list. -/
def listStep (env : IdentityEnv) (d : Disk) (identitiesDir : String)
    (identities : List BotIdentity) (name : String) : List BotIdentity :=
  if Ext name = ".json" then
    match diskRead d (Join [identitiesDir, name]) with
    | none => identities
    | some data =>
      match Unmarshal env.toDiskEnv data with
      | .error _ => identities
      | .ok identity => identities ++ [identity]
  else identities

/-- `Server.apiListIdentities`. -/
def Server.apiListIdentities (env : IdentityEnv) (s : Server) (d : Disk) : IdentityResponse :=
  let workspace := s.config.WorkspacePath
  let identitiesDir := Join [workspace, "identities"]
  match env.mkdirErr identitiesDir with
  | some e => .plain (statusError e)
  | none =>
    if env.readDirFails identitiesDir then .identities []
    else
      let identities := (ReadDir d identitiesDir).foldl (listStep env d identitiesDir) []
      if identities.length = 0 then .identities [s.createDefaultIdentity env d]
      else .identities identities

/-- `os.Remove` of a regular file that succeeds. -/
def diskRemove (d : Disk) (path : String) : Disk := d.filter (fun e => e.1 != path)

/-- The answer `ok` of `apiDeleteIdentity`. -/
def deletedOk : Response :=
  { Status := 200, Body := .json [("status", "ok"), ("message", "Identity deleted successfully")] }

/-- `Server.apiDeleteIdentity`: the answer and the disk afterwards. -/
def Server.apiDeleteIdentity (env : IdentityEnv) (s : Server) (d : Disk)
    (r : Request IDRequest) : Response × Disk :=
  if r.Method ≠ "POST" then (methodNotAllowed, d)
  else
    match r.Body with
    | .error _ => (statusError "Invalid request", d)
    | .ok req =>
      let workspace := s.config.WorkspacePath
      let identitiesDir := Join [workspace, "identities"]
      let identityPath := Join [identitiesDir, req.ID ++ ".json"]
      match diskRead d identityPath with
      | none => (statusError "Identity not found", d)
      | some data =>
        match Unmarshal env.toDiskEnv data with
        | .error e => (statusError e, d)
        | .ok identity =>
          if identity.IsDefault then (statusError "Cannot delete default identity", d)
          else if identity.IsActive then
            (statusError "Cannot delete active identity. Activate another identity first.", d)
          else
            match env.removeErr identityPath with
            | some e => (statusError e, d)
            | none => (deletedOk, diskRemove d identityPath)

/-- The directory `filepath.Join(workspace, "identities")` of the identity
handlers. -/
def Server.identitiesDir (s : Server) : String := Join [s.config.WorkspacePath, "identities"]

/-- The path `filepath.Join(identitiesDir, id+".json")` the identity handlers
compute for an id. -/
def Server.identityPath (s : Server) (id : String) : String :=
  Join [Join [s.config.WorkspacePath, "identities"], id ++ ".json"]

/-- The identity `apiSaveIdentity` stores for the identity of a request: with
a generated id and the creation time when the request has no id, and with the
time of the update. -/
def savedAs (env : IdentityEnv) (identity : BotIdentity) : BotIdentity :=
  { (if identity.ID = "" then
      { identity with ID := "identity_" ++ sprintfD env.unixNow, CreatedAt := env.now }
    else identity) with UpdatedAt := env.now }

/-- At most one stored identity has `is_active = true`: two `.json` files of
the directory that hold an active identity are the same file. -/
def AtMostOneActive (d : Disk) (dir : String) : Prop :=
  ∀ n m i j, n.data ≠ [] → '/' ∉ n.data → Ext n = ".json" →
    m.data ≠ [] → '/' ∉ m.data → Ext m = ".json" →
    storedIdentity d dir n = some i → storedIdentity d dir m = some j →
    i.IsActive = true → j.IsActive = true → n = m

/-! ## The web admin server: skills and restart -/

/-- The skill installer of `skills.NewSkillInstaller(workspace)`, whose code is
outside the two files: what `InstallFromGitHub` and `Uninstall` do to the disk
and the error they return (`none` is nil). -/
structure SkillInstaller where
  InstallFromGitHub : String → String → Disk → Option String × Disk
  Uninstall : String → String → Disk → Option String × Disk

/-- The JSON body of `POST /api/skills/install`. -/
structure InstallRequest where
  Repository : String
deriving DecidableEq, Repr

/-- The JSON body of `POST /api/skills/remove`. -/
structure RemoveRequest where
  Name : String
deriving DecidableEq, Repr

/-- `Server.apiInstallSkill`: the answer and the disk afterwards. -/
def Server.apiInstallSkill (installer : SkillInstaller) (s : Server) (d : Disk)
    (r : Request InstallRequest) : Response × Disk :=
  if r.Method ≠ "POST" then (methodNotAllowed, d)
  else
    match r.Body with
    | .error e => ({ Status := 400, Body := .text e }, d)
    | .ok req =>
      let workspace := s.config.WorkspacePath
      match installer.InstallFromGitHub workspace req.Repository d with
      | (some e, d1) => ({ Status := 500, Body := .text e }, d1)
      | (none, d1) => (statusOk, d1)

/-- `Server.apiRemoveSkill`: the answer and the disk afterwards. -/
def Server.apiRemoveSkill (installer : SkillInstaller) (s : Server) (d : Disk)
    (r : Request RemoveRequest) : Response × Disk :=
  if r.Method ≠ "POST" then (methodNotAllowed, d)
  else
    match r.Body with
    | .error e => ({ Status := 400, Body := .text e }, d)
    | .ok req =>
      let workspace := s.config.WorkspacePath
      match installer.Uninstall workspace req.Name d with
      | (some e, d1) => ({ Status := 500, Body := .text e }, d1)
      | (none, d1) => (statusOk, d1)

/-- `Server.apiRestart`: the handler reads the method only and touches neither
the server nor the disk. -/
def Server.apiRestart (_s : Server) (method : String) : Response :=
  if method ≠ "POST" then methodNotAllowed
  else
    { Status := 200,
      Body := .json [("status", "ok"),
        ("message",
          "Restart request received. Please restart manually with: docker compose restart")] }

/-! ## The web admin server: chat -/

/-- The struct `providers.Message` as far as the chat handler fills it. -/
structure ChatMessage where
  Role : String
  Content : String
deriving DecidableEq, Repr

/-- A decoded JSON value of type `interface{}`: a string, or a value of another
kind given by its JSON text. -/
inductive JSONValue where
  | str (s : String)
  | other (raw : String)
deriving DecidableEq, Repr

/-- The JSON body of `POST /api/chat/send`. -/
structure SendRequest where
  Message : String
  History : List (List (String × JSONValue))
deriving DecidableEq, Repr

/-- The type assertion `v, _ := h[key].(string)`: the string, or the empty
string for a missing key and for a value of another kind. -/
def stringField (h : List (String × JSONValue)) (key : String) : String :=
  match mapGet h key with
  | some (.str v) => v
  | _ => ""

/-- The loop of `apiSendMessage` that converts the history of the request. -/
def convertHistory (reqHistory : List (List (String × JSONValue))) : List ChatMessage :=
  reqHistory.foldl (fun history h =>
    let role := stringField h "role"
    let content := stringField h "content"
    if role ≠ "" ∧ content ≠ "" then history ++ [{ Role := role, Content := content }]
    else history) []

/-- The arguments of one call of `ContextBuilder.BuildMessages`. -/
structure BuildArgs where
  history : List ChatMessage
  summary : String
  currentMessage : String
  media : List String
  channel : String
  chatID : String
deriving DecidableEq, Repr

/-- The session store `agent.Sessions`: the history of each session by key. -/
abbrev Sessions := List (String × List ChatMessage)

/-- The agent of the server, whose code is outside the two files. Its context
builder is handed the arguments of the call and, as a part of the agent, can
read the session store and the files of the workspace: `BuildMessages` is what
it returns for a session store, a disk and its arguments. `Complete` is what
the provider returns for a message list under the model, temperature and token
limit of the agent (the content of the response, or the text of the error). -/
structure Agent where
  BuildMessages : Sessions → Disk → BuildArgs → List ChatMessage
  Complete : List ChatMessage → Except String String

/-- Modelled from the spec: `Sessions.GetOrCreate` ("sessions are created on
first inbound message for their key"): a key without session gets one with an
empty history. -/
def Sessions.GetOrCreate (st : Sessions) (key : String) : Sessions :=
  match mapGet st key with
  | some _ => st
  | none => mapSet st key []

/-- Modelled from the spec: `AddMessage` on the session with the given key
("history: ordered sequence of turns", to which a turn is appended). -/
def Sessions.AddMessage (st : Sessions) (key : String) (m : ChatMessage) : Sessions :=
  mapSet st key ((mapGet st key).getD [] ++ [m])

/-- The history of the session with the given key; empty without session. -/
def Sessions.history (st : Sessions) (key : String) : List ChatMessage :=
  (mapGet st key).getD []

/-- What `apiSendMessage` did: its response, the session store afterwards, the
arguments of its calls of the context builder, the message lists of its calls
of the provider, and its log lines. -/
structure ChatResult where
  resp : Response
  sessions : Sessions
  builderCalls : List BuildArgs
  providerCalls : List (List ChatMessage)
  logs : List LogLine
deriving DecidableEq, Repr

/-- `Server.apiSendMessage`. Of the server the handler uses the agent only
(`s.agent`), which is passed with its session store and the disk its context
builder can read. The handler has no check of the method. The field `length`
of the last log line is the byte length of the response. -/
def Server.apiSendMessage (agent : Agent) (sessions : Sessions) (d : Disk)
    (r : Request SendRequest) : ChatResult :=
  match r.Body with
  | .error _ =>
    { resp := statusError "Invalid request", sessions := sessions, builderCalls := [],
      providerCalls := [], logs := [] }
  | .ok req =>
    if req.Message = "" then
      { resp := statusError "Message cannot be empty", sessions := sessions, builderCalls := [],
        providerCalls := [], logs := [] }
    else
      let log1 := InfoCF "webui" "Chat message received" [("message", req.Message)]
      let sessionKey := "webui-chat"
      let sessions1 := sessions.GetOrCreate sessionKey
      let history := convertHistory req.History
      let args : BuildArgs :=
        { history := history, summary := "", currentMessage := req.Message, media := [],
          channel := "webui", chatID := sessionKey }
      let messages := agent.BuildMessages sessions1 d args
      match agent.Complete messages with
      | .error err =>
        { resp := statusError ("Failed to get response: " ++ err), sessions := sessions1,
          builderCalls := [args], providerCalls := [messages],
          logs := [log1, ErrorCF "webui" "Chat completion error" [("error", err)]] }
      | .ok content =>
        let sessions2 := sessions1.AddMessage sessionKey { Role := "user", Content := req.Message }
        let sessions3 := sessions2.AddMessage sessionKey { Role := "assistant", Content := content }
        { resp := { Status := 200, Body := .json [("status", "ok"), ("response", content)] },
          sessions := sessions3, builderCalls := [args], providerCalls := [messages],
          logs := [log1, InfoCF "webui" "Chat response generated"
            [("length", toString content.utf8ByteSize)]] }

/-- The text of a persona file; empty when the file is missing or cannot be
read. -/
def personaText (d : Disk) (path : String) : String :=
  match diskRead d path with
  | some (.bytes t) => t
  | _ => ""

/-- Modelled from the spec: `ContextBuilder.BuildMessages` of an agent with an
empty tool registry and a token budget that is not reached ("Produces the
message list sent to the LLM in this order: (1) the active persona/system block
(composition of AGENT.md, IDENTITY.md, SOUL.md, USER.md), (2) the tool
descriptors available in the registry, (3) the session's retained history, (4)
the new user turn"; "the context builder re-reads them on each turn"). The
persona block is one system turn with the four texts; the retained history is
the stored history of the session whose key the builder is handed, followed by
the turns the caller hands over. -/
def specBuildMessages (workspace : String) (sessions : Sessions) (d : Disk) (a : BuildArgs) :
    List ChatMessage :=
  { Role := "system",
    Content := personaText d (Join [workspace, "AGENT.md"]) ++ "\n\n" ++
      personaText d (Join [workspace, "IDENTITY.md"]) ++ "\n\n" ++
      personaText d (Join [workspace, "SOUL.md"]) ++ "\n\n" ++
      personaText d (Join [workspace, "USER.md"]) } ::
    (sessions.history a.chatID ++ a.history ++ [{ Role := "user", Content := a.currentMessage }])

/-- The history as the specification words it: the entries of the request whose
role and content are both non-empty strings, in the order of the request. -/
def keptEntries (reqHistory : List (List (String × JSONValue))) : List ChatMessage :=
  reqHistory.filterMap (fun (h : List (String × JSONValue)) =>
    match mapGet h "role", mapGet h "content" with
    | some (.str role), some (.str content) =>
      if role ≠ "" ∧ content ≠ "" then some { Role := role, Content := content } else none
    | _, _ => none)

/-- The arguments for the context builder as the specification words them: made
of the message of the request and the kept entries of its history. -/
def chatArgs (req : SendRequest) : BuildArgs :=
  { history := keptEntries req.History, summary := "", currentMessage := req.Message,
    media := [], channel := "webui", chatID := "webui-chat" }

/-! ## Sample inputs -/

/-- A library behaviour to evaluate the model on: contents are cut to their
first characters, a JID is written `user@server`, a chat id parses when it has
the form `user@s.whatsapp.net`, and a code renders unless it is empty. -/
def sampleLib : Lib :=
  { Truncate := fun s n => String.mk (s.data.take n)
    jidString := fun j => j.User ++ "@" ++ j.Server
    ParseJID := fun s =>
      if s.data.dropWhile (fun ch => ch != '@') = "@s.whatsapp.net".data then
        .ok { User := String.mk (s.data.takeWhile (fun ch => ch != '@')),
              Server := "s.whatsapp.net", Device := 0 }
      else .error "unknown server"
    qrSmallString := fun code =>
      if code = "" then .error "no data to encode" else .ok ("▄▀" ++ code) }

/-- A contact. -/
def alice : JID := { User := "491700000001", Server := "s.whatsapp.net", Device := 0 }

/-- The header of a message sent by `alice` in her direct chat. -/
def sampleInfo : MessageInfo :=
  { ID := "3EB0A1", Sender := alice, Chat := alice, IsFromMe := false, PushName := "Alice",
    Timestamp := 1700000000 }

/-- A plain text message from `alice`. -/
def sampleEvent : MessageEvent :=
  { Info := sampleInfo, Message := { Conversation := some "hi", ExtendedTextMessage := none } }

/-- A message whose conversation field is present and empty while its extended
text carries a text. -/
def emptyConversationEvent : MessageEvent :=
  { Info := sampleInfo
    Message := { Conversation := some "", ExtendedTextMessage := some { Text := some "hello" } } }

/-- A configuration with every channel enabled, an empty WhatsApp allow-list
and the workspace `/home/claw/workspace`. -/
def sampleConfig : Config :=
  { Channels :=
      { Telegram := { Enabled := true, AllowFrom := [] }
        Discord := { Enabled := true, AllowFrom := [] }
        WhatsApp := { Enabled := true, AllowFrom := [] }
        Feishu := { Enabled := true, AllowFrom := [] }
        Slack := { Enabled := true, AllowFrom := [] } }
    WorkspacePath := "/home/claw/workspace" }

/-- The adapter as the gateway creates it, with an empty workspace and bus. -/
def sampleWorld : World :=
  { chan := NewWhatsAppChannel sampleConfig, files := [], bus := [] }

/-- A start on a paired device: every call succeeds and the store has an id. -/
def pairedEnv : StartEnv :=
  { mkdirAllErr := none, sqlstoreNewErr := none, getFirstDeviceErr := none,
    deviceID := some { User := "491700000009", Server := "s.whatsapp.net", Device := 3 },
    getQRChannelErr := none, connectErr := none, qrItems := [], writable := fun _ => true }

/-- A first start on which nobody scans the code: the QR channel delivers one
code, then a timeout, and is closed. -/
def timeoutEnv : StartEnv :=
  { mkdirAllErr := none, sqlstoreNewErr := none, getFirstDeviceErr := none, deviceID := none,
    getQRChannelErr := none, connectErr := none,
    qrItems := [{ Event := "code", Code := "2@AbCd" }, { Event := "timeout", Code := "" }],
    writable := fun _ => true }

/-- A first start whose QR channel delivers a code that go-qrcode refuses. -/
def badCodeEnv : StartEnv :=
  { timeoutEnv with qrItems := [{ Event := "code", Code := "" }] }

/-- A first start during which `whatsapp_qr.txt` cannot be written. -/
def readOnlyEnv : StartEnv :=
  { timeoutEnv with
    qrItems := [{ Event := "code", Code := "2@AbCd" }]
    writable := fun path => path != "/home/claw/workspace/whatsapp_qr.txt" }

/-- A start that fails to open the device store. -/
def brokenStoreEnv : StartEnv :=
  { pairedEnv with sqlstoreNewErr := some "unable to open database file" }

/-- A transport that accepts every message. -/
def okTransport : Transport := fun _ _ => none

/-- A transport that refuses every message. -/
def downTransport : Transport := fun _ _ => some "websocket not connected"

/-- A reply to `alice`. -/
def sampleReply : OutboundMessage :=
  { Channel := "whatsapp", ChatID := "491700000001@s.whatsapp.net", Content := "hello" }

/-- The sender id of `alice`. -/
def aliceID : String := "491700000001@s.whatsapp.net"

/-- The sender id of another contact. -/
def bobID : String := "491700000002@s.whatsapp.net"

/-- A server whose WhatsApp allow-list holds the given ids. -/
def serverAllowing (ids : List String) : Server :=
  { config :=
      { sampleConfig with
        Channels :=
          { sampleConfig.Channels with WhatsApp := { Enabled := true, AllowFrom := ids } } }
    configPath := "/home/claw/config.json"
    logBuffer := []
    maxLogBuffer := 100 }

/-- A gateway whose adapter was built from the configuration of
`serverAllowing ids` and started on a paired device. -/
def runningGateway (ids : List String) : Gateway :=
  (Gateway.boot (serverAllowing ids) []).act sampleLib (.start pairedEnv)

/-- An allow-list request for the WhatsApp channel. -/
def whitelistRequest (action userID : String) : Request WhitelistRequest :=
  { Method := "POST", Body := .ok { Channel := "whatsapp", Action := action, UserID := userID } }

/-- A `config.SaveConfig` that always succeeds. -/
def saveOk : String → Config → Option String := fun _ _ => none

/-- A `config.SaveConfig` that always fails. -/
def saveFails : String → Config → Option String :=
  fun _ _ => some "open /home/claw/config.json: permission denied"

/-- A toggle request. -/
def toggleRequest (channel : String) (enabled : Bool) : Request ToggleRequest :=
  { Method := "POST", Body := .ok { Channel := channel, Enabled := enabled } }

/-- An allow-list request for any channel. -/
def whitelistRequestFor (channel action userID : String) : Request WhitelistRequest :=
  { Method := "POST", Body := .ok { Channel := channel, Action := action, UserID := userID } }

/-- A log entry with the given time and message. -/
def logAt (now : Nat) (message : String) : LogEntry :=
  { Timestamp := now, Level := "INFO", Component := "gateway", Message := message }

/-- An identity with the given id, active flag and agent text. -/
def identityOf (id : String) (active : Bool) (agent : String) : BotIdentity :=
  { ID := id, Name := id, Description := "", Icon := "", Category := "custom",
    IsActive := active, IsDefault := false, CreatedAt := 1700000000, UpdatedAt := 1700000000,
    AgentMD := agent, IdentityMD := "I am " ++ id, SoulMD := "calm", UserMD := "the user" }

/-- A workspace with the identities `coder` (active) and `poet`, and the persona
files of `coder`. -/
def sampleDisk : Disk :=
  [("/home/claw/workspace/identities/coder.json", .identityJSON (identityOf "coder" true "code")),
   ("/home/claw/workspace/identities/poet.json", .identityJSON (identityOf "poet" false "rhyme")),
   ("/home/claw/workspace/AGENT.md", .bytes "code"),
   ("/home/claw/workspace/IDENTITY.md", .bytes "I am coder"),
   ("/home/claw/workspace/SOUL.md", .bytes "calm"),
   ("/home/claw/workspace/USER.md", .bytes "the user")]

/-- The workspace of `sampleDisk` with a hand-made copy of the active identity
`coder` under another file name. -/
def copiedDisk : Disk :=
  sampleDisk ++
    [("/home/claw/workspace/identities/backup.json",
      .identityJSON (identityOf "coder" true "code"))]

/-- The workspace of `sampleDisk` with an identity stored outside the
directory of the identities, where the id `../guest` resolves to. -/
def outsideDisk : Disk :=
  sampleDisk ++
    [("/home/claw/workspace/guest.json", .identityJSON (identityOf "../guest" false "hello"))]

/-- An operating system on which every write succeeds. -/
def okDisk : DiskEnv :=
  { writeErr := fun _ => none, readDirFails := fun _ => false,
    jsonErr := fun _ => "invalid character" }

/-- An operating system on which `IDENTITY.md` of the workspace cannot be written. -/
def personaReadOnly : DiskEnv :=
  { okDisk with
    writeErr := fun path =>
      if path = "/home/claw/workspace/IDENTITY.md" then some "permission denied" else none }

/-- An activation request. -/
def activateRequest (id : String) : Request IDRequest :=
  { Method := "POST", Body := .ok { ID := id } }

/-- An operating system and a clock for the identity handlers: every call
succeeds, and the time is 1700000123. -/
def okEnv : IdentityEnv :=
  { okDisk with
    mkdirErr := fun _ => none, removeErr := fun _ => none, unixNow := 1700000123,
    now := 1700000123, marshalText := fun i => "\x7b\"id\":\"" ++ i.ID ++ "\"\x7d" }

/-- The operating system of `okEnv` with the identity files protected against
removal. -/
def removeDenied : IdentityEnv :=
  { okEnv with removeErr := fun _ => some "permission denied" }

/-- A request that saves an identity. -/
def saveRequest (identity : BotIdentity) : Request BotIdentity :=
  { Method := "POST", Body := .ok identity }

/-- A request that deletes an identity. -/
def deleteRequest (id : String) : Request IDRequest :=
  { Method := "POST", Body := .ok { ID := id } }

/-- A skill installer that writes a file of the skill into the workspace and
removes it again. -/
def sampleInstaller : SkillInstaller :=
  { InstallFromGitHub := fun workspace repo d =>
      (none, mapSet d (Join [workspace, "skills", repo, "SKILL.md"]) (.bytes repo))
    Uninstall := fun workspace name d =>
      (none, diskRemove d (Join [workspace, "skills", name, "SKILL.md"])) }

/-- An agent whose context builder puts a system turn before the history and the
new user turn, and whose provider answers with the number of turns. -/
def echoAgent : Agent :=
  { BuildMessages := fun _ _ a =>
      { Role := "system", Content := "You are PicoClaw." } :: a.history ++
        [{ Role := "user", Content := a.currentMessage }]
    Complete := fun messages => .ok ("turns: " ++ toString messages.length) }

/-- The agent of `echoAgent` with a provider that is down. -/
def failingAgent : Agent :=
  { echoAgent with Complete := fun _ => .error "connection refused" }

/-- An agent whose context builder is the one of the specification, for the
workspace of the sample server. -/
def specAgent : Agent :=
  { echoAgent with BuildMessages := specBuildMessages "/home/claw/workspace" }

/-- A chat request. -/
def chatRequest (message : String) (history : List (List (String × JSONValue))) :
    Request SendRequest :=
  { Method := "POST", Body := .ok { Message := message, History := history } }

/-- A request history with a valid entry, an entry whose content is a number, an
entry without role, an entry with an empty content, and a second valid entry. -/
def sampleHistory : List (List (String × JSONValue)) :=
  [[("role", .str "user"), ("content", .str "hello")],
   [("role", .str "assistant"), ("content", .other "42")],
   [("content", .str "lost")],
   [("role", .str "user"), ("content", .str "")],
   [("role", .str "assistant"), ("content", .str "hi there")]]

/-- A session store in which the web chat already has two turns. -/
def usedSessions : Sessions :=
  [("webui-chat",
    [{ Role := "user", Content := "earlier" }, { Role := "assistant", Content := "noted" }])]

/-! ## Theorems: inbound path -/

/-- The shape of every call `handleMessage` makes. -/
theorem handleMessage_call (lib : Lib) (evt : MessageEvent) (call : HandleCall)
    (h : (handleMessage lib evt).2 = some call) :
    evt.Info.IsFromMe = false ∧ messageContent evt.Message ≠ "" ∧
      call = { senderID := lib.jidString evt.Info.Sender, chatID := lib.jidString evt.Info.Chat,
               content := messageContent evt.Message, media := [],
               metadata := messageMetadata evt.Info } := by
  by_cases h1 : evt.Info.IsFromMe = true
  · simp [handleMessage, h1] at h
  · by_cases h2 : messageContent evt.Message = ""
    · simp [handleMessage, h1, h2] at h
    · simp [handleMessage, h1, h2] at h
      exact ⟨by simpa using h1, h2, h.symm⟩

/-- C1: a message event whose `IsFromMe` flag is set makes `handleMessage` return
before it calls the base channel, whatever its text, sender and chat, so the
delivery of such an event publishes nothing on the bus. -/
theorem handleMessage_ignores_own_messages (lib : Lib) (evt : MessageEvent) (w : World)
    (h : evt.Info.IsFromMe = true) :
    (handleMessage lib evt).2 = none ∧ (step lib w (.deliver (.Message evt))).1.bus = w.bus := by
  have h1 : handleMessage lib evt = ([], none) := by simp [handleMessage, h]
  simp [step, handleEvent, h1]

/-- Witness of C1: a message of the account itself carrying a text. -/
theorem handleMessage_ignores_own_messages_witness :
    ({ sampleEvent with Info := { sampleInfo with IsFromMe := true } } : MessageEvent).Info.IsFromMe
        = true ∧
      (handleMessage sampleLib { sampleEvent with Info := { sampleInfo with IsFromMe := true } }).2
        = none :=
  ⟨rfl, (handleMessage_ignores_own_messages sampleLib
    { sampleEvent with Info := { sampleInfo with IsFromMe := true } }
    sampleWorld rfl).1⟩

/-- Counterexample to C2 as stated: the extended-text field carries the
non-empty text `hello`, the message is not from the account itself, and nothing
is forwarded, because the conversation pointer is set (to the empty string) and
is therefore the field that is read. -/
theorem handleMessage_drops_extended_text_behind_empty_conversation :
    emptyConversationEvent.Info.IsFromMe = false ∧
      emptyConversationEvent.Message.ExtendedTextMessage = some { Text := some "hello" } ∧
      (handleMessage sampleLib emptyConversationEvent).2 = none := by
  refine ⟨rfl, rfl, ?_⟩
  decide

/-- C2 (amended): for a message event not from the account itself, let `t` be
the text of the conversation field when that field is present, otherwise the
text of the extended-text field. When `t` is not empty, `handleMessage` forwards
the message with content `t` in full; the cut to 50 characters is applied to the
log line only. -/
theorem handleMessage_forwards_selected_text (lib : Lib) (evt : MessageEvent) (t : String)
    (hself : evt.Info.IsFromMe = false) (ht : t ≠ "")
    (hsel : evt.Message.Conversation = some t ∨
      (evt.Message.Conversation = none ∧
        ∃ e, evt.Message.ExtendedTextMessage = some e ∧ e.Text = some t)) :
    ∃ call, (handleMessage lib evt).2 = some call ∧ call.content = t ∧
      (handleMessage lib evt).1 =
        [InfoCF "whatsapp" "Message received"
          [("sender", lib.jidString evt.Info.Sender), ("content", lib.Truncate t 50)]] := by
  have hc : messageContent evt.Message = t := by
    rcases hsel with h | ⟨h, e, he, hte⟩
    · simp [messageContent, h]
    · simp [messageContent, h, he, hte]
  simp [handleMessage, hself, hc, ht]

/-- Witness of C2 (amended): a text of 60 characters is forwarded whole while
the log line holds its first 50 characters. -/
theorem handleMessage_forwards_selected_text_witness :
    ∃ call,
      (handleMessage sampleLib
        { sampleEvent with
          Message :=
            { Conversation := none
              ExtendedTextMessage := some
                { Text := some "0123456789012345678901234567890123456789012345678901234567890" } } }).2
        = some call ∧
      call.content = "0123456789012345678901234567890123456789012345678901234567890" ∧
      (handleMessage sampleLib
        { sampleEvent with
          Message :=
            { Conversation := none
              ExtendedTextMessage := some
                { Text := some "0123456789012345678901234567890123456789012345678901234567890" } } }).1
        = [InfoCF "whatsapp" "Message received"
            [("sender", sampleLib.jidString sampleEvent.Info.Sender),
             ("content",
               sampleLib.Truncate "0123456789012345678901234567890123456789012345678901234567890"
                 50)]] :=
  handleMessage_forwards_selected_text sampleLib _
    "0123456789012345678901234567890123456789012345678901234567890" rfl (by decide)
    (Or.inr ⟨rfl, _, rfl, rfl⟩)

/-- C3: when the conversation field and the extended-text field of a message
event are both absent or empty, `handleMessage` forwards nothing; and every call
it does make to the base channel has non-empty content and no attachments. -/
theorem handleMessage_drops_empty_content (lib : Lib) (evt : MessageEvent) :
    ((evt.Message.Conversation = none ∨ evt.Message.Conversation = some "") →
      (evt.Message.ExtendedTextMessage = none ∨
        (∃ e, evt.Message.ExtendedTextMessage = some e ∧ (e.Text = none ∨ e.Text = some ""))) →
      (handleMessage lib evt).2 = none) ∧
    (∀ call, (handleMessage lib evt).2 = some call → call.content ≠ "" ∧ call.media = []) := by
  constructor
  · intro hc he
    have hcont : messageContent evt.Message = "" := by
      rcases hc with hc | hc
      · rcases he with he | ⟨e, he, ht | ht⟩
        · simp [messageContent, hc, he]
        · simp [messageContent, hc, he, ht]
        · simp [messageContent, hc, he, ht]
      · simp [messageContent, hc]
    simp [handleMessage, hcont]
  · intro call h
    obtain ⟨-, hne, rfl⟩ := handleMessage_call lib evt call h
    exact ⟨hne, rfl⟩

/-- Witness of C3: a message with neither field set is dropped, and the call
made for a plain text message has content and no attachments. -/
theorem handleMessage_drops_empty_content_witness :
    (handleMessage sampleLib
        { sampleEvent with Message := { Conversation := none, ExtendedTextMessage := none } }).2
      = none ∧
    (∀ call, (handleMessage sampleLib sampleEvent).2 = some call →
      call.content ≠ "" ∧ call.media = []) :=
  ⟨(handleMessage_drops_empty_content sampleLib
      { sampleEvent with Message := { Conversation := none, ExtendedTextMessage := none } }).1
      (Or.inl rfl) (Or.inl rfl),
   (handleMessage_drops_empty_content sampleLib sampleEvent).2⟩

/-- C4: every call `handleMessage` makes to the base channel carries the string
forms of the event's sender and chat JIDs and a metadata map in which
`message_id` is the event's id, `timestamp` is the decimal rendering of the
event's Unix seconds (the digits `toString` gives for the integer, with a
leading `-` for a negative one), `user_name` is present exactly when the push
name is not empty and then equals it, and no other key is present. -/
theorem handleMessage_metadata (lib : Lib) (evt : MessageEvent) (call : HandleCall)
    (h : (handleMessage lib evt).2 = some call) :
    call.senderID = lib.jidString evt.Info.Sender ∧
    call.chatID = lib.jidString evt.Info.Chat ∧
    mapGet call.metadata "message_id" = some evt.Info.ID ∧
    mapGet call.metadata "timestamp" = some (toString evt.Info.Timestamp) ∧
    (evt.Info.PushName ≠ "" → mapGet call.metadata "user_name" = some evt.Info.PushName) ∧
    (evt.Info.PushName = "" → mapGet call.metadata "user_name" = none) ∧
    (∀ k, mapGet call.metadata k ≠ none →
      k = "message_id" ∨ k = "timestamp" ∨ k = "user_name") ∧
    (call.metadata.map Prod.fst).Nodup := by
  obtain ⟨-, -, rfl⟩ := handleMessage_call lib evt call h
  by_cases hp : evt.Info.PushName = ""
  · refine ⟨rfl, rfl, ?_, ?_, ?_, ?_, ?_, ?_⟩ <;>
      simp [messageMetadata, sprintfD, mapSet, mapGet, hp, List.find?]
    intro k hk
    by_cases h1 : k = "message_id"
    · exact Or.inl h1
    · by_cases h2 : k = "timestamp"
      · exact Or.inr (Or.inl h2)
      · have e1 : ("message_id" == k) = false := beq_eq_false_iff_ne.mpr (Ne.symm h1)
        have e2 : ("timestamp" == k) = false := beq_eq_false_iff_ne.mpr (Ne.symm h2)
        simp [e1, e2] at hk
  · refine ⟨rfl, rfl, ?_, ?_, ?_, ?_, ?_, ?_⟩ <;>
      simp [messageMetadata, sprintfD, mapSet, mapGet, hp, List.find?]
    intro k hk
    by_cases h1 : k = "message_id"
    · exact Or.inl h1
    · by_cases h2 : k = "timestamp"
      · exact Or.inr (Or.inl h2)
      · by_cases h3 : k = "user_name"
        · exact Or.inr (Or.inr h3)
        · have e1 : ("message_id" == k) = false := beq_eq_false_iff_ne.mpr (Ne.symm h1)
          have e2 : ("timestamp" == k) = false := beq_eq_false_iff_ne.mpr (Ne.symm h2)
          have e3 : ("user_name" == k) = false := beq_eq_false_iff_ne.mpr (Ne.symm h3)
          simp [e1, e2, e3] at hk

/-- Witness of C4: the call made for a message of `alice`, sent at the Unix time
1700000000. -/
theorem handleMessage_metadata_witness :
    sampleEvent.Info.Timestamp = 1700000000 ∧
    (handleMessage sampleLib sampleEvent).2 =
        some { senderID := "491700000001@s.whatsapp.net", chatID := "491700000001@s.whatsapp.net",
               content := "hi", media := [],
               metadata := [("message_id", "3EB0A1"), ("timestamp", "1700000000"),
                            ("user_name", "Alice")] } ∧
      mapGet [("message_id", "3EB0A1"), ("timestamp", "1700000000"), ("user_name", "Alice")]
        "timestamp" = some (toString sampleEvent.Info.Timestamp) :=
  ⟨by decide, by decide,
   (handleMessage_metadata sampleLib sampleEvent
      { senderID := "491700000001@s.whatsapp.net", chatID := "491700000001@s.whatsapp.net",
        content := "hi", media := [],
        metadata := [("message_id", "3EB0A1"), ("timestamp", "1700000000"),
                     ("user_name", "Alice")] } (by decide)).2.2.2.1⟩

/-! ## Theorems: lifecycle of the adapter -/

/-- `Start` sets the running flag exactly when it returns nil. -/
theorem Start_running (lib : Lib) (env : StartEnv) (c : WhatsAppChannel) (fs : Files) :
    (c.Start lib env fs).chan.base.running = (c.base.running || (c.Start lib env fs).err.isNone) := by
  obtain ⟨e1, e2, e3, d, e4, e5, items, wr⟩ := env
  cases e1 <;> cases e2 <;> cases e3 <;> cases d <;> cases e4 <;> cases e5 <;>
    simp [WhatsAppChannel.Start, BaseChannel.setRunning]

/-- `Stop` clears the running flag. -/
theorem Stop_running (closeErr : Option String) (c : WhatsAppChannel) :
    (c.Stop closeErr).1.base.running = false := by
  simp [WhatsAppChannel.Stop, BaseChannel.setRunning]

/-- A delivered event and a `Send` leave the adapter as it is. -/
theorem step_chan_of_send_deliver (lib : Lib) (w : World) :
    (∀ tr msg, (step lib w (.send tr msg)).1.chan = w.chan) ∧
      (∀ evt, (step lib w (.deliver evt)).1.chan = w.chan) := by
  refine ⟨fun tr msg => rfl, fun evt => ?_⟩
  simp only [step]
  split
  · rfl
  · split <;> rfl

/-- The running flag along a run, for any flag `b` that covers it at the start. -/
theorem run_running (lib : Lib) (acts : List Action) :
    ∀ (w : World) (b : Bool), (w.chan.base.running = true → b = true) →
      (run lib w acts).1.chan.base.running = true →
      (run lib w acts).2.foldl
        (fun acc p =>
          match p.1 with
          | .start _ => acc || p.2
          | .stop _ => false
          | _ => acc)
        b = true := by
  induction acts with
  | nil => intro w b hb h; exact hb h
  | cons a rest ih =>
    intro w b hb h
    simp only [run, List.foldl_cons] at h ⊢
    refine ih _ _ ?_ h
    cases a with
    | start env =>
      intro hr
      simp only [step] at hr ⊢
      rw [Start_running] at hr
      cases hrun : w.chan.base.running
      · rw [hrun] at hr
        simp only [Bool.false_or] at hr
        simp [hr]
      · simp [hb hrun]
    | stop closeErr =>
      intro hr
      simp only [step] at hr
      rw [Stop_running] at hr
      exact absurd hr (by simp)
    | send tr msg =>
      intro hr
      rw [(step_chan_of_send_deliver lib w).1 tr msg] at hr
      exact hb hr
    | deliver evt =>
      intro hr
      rw [(step_chan_of_send_deliver lib w).2 evt] at hr
      exact hb hr

/-- C5: in every state the adapter reaches from its construction by a sequence
of `Start`, `Stop`, `Send` and event deliveries, `running()` is true only if some
`Start` returned success and no `Stop` was called after it. A `Start` that
returns an error leaves the running flag as it was, and `Stop` always leaves it
false. -/
theorem running_implies_started (lib : Lib) (cfg : Config) (fs : Files) (acts : List Action) :
    ((run lib { chan := NewWhatsAppChannel cfg, files := fs, bus := [] } acts).1.chan.base.IsRunning
        = true →
      startedSinceStop
        (run lib { chan := NewWhatsAppChannel cfg, files := fs, bus := [] } acts).2 = true) ∧
    (∀ (env : StartEnv) (c : WhatsAppChannel) (fs0 : Files),
      (c.Start lib env fs0).err ≠ none →
        (c.Start lib env fs0).chan.base.IsRunning = c.base.IsRunning) ∧
    (∀ (closeErr : Option String) (c : WhatsAppChannel),
      (c.Stop closeErr).1.base.IsRunning = false) := by
  refine ⟨?_, ?_, ?_⟩
  · intro h
    exact run_running lib acts _ false
      (by simp [NewWhatsAppChannel, NewBaseChannel]) h
  · intro env c fs0 herr
    have h := Start_running lib env c fs0
    cases he : (c.Start lib env fs0).err with
    | none => exact absurd he herr
    | some e => simpa [BaseChannel.IsRunning, he] using h
  · intro closeErr c
    exact Stop_running closeErr c

/-- Witness of C5: after a failed start, a successful start, a send and a
logged-out event the adapter is running and the history holds the successful
start; after a further stop it is not running. -/
theorem running_implies_started_witness :
    (run sampleLib sampleWorld
        [.start brokenStoreEnv, .start pairedEnv, .send okTransport sampleReply,
         .deliver .LoggedOut]).1.chan.base.IsRunning = true ∧
      startedSinceStop
        (run sampleLib sampleWorld
          [.start brokenStoreEnv, .start pairedEnv, .send okTransport sampleReply,
           .deliver .LoggedOut]).2 = true ∧
      (run sampleLib sampleWorld
        [.start brokenStoreEnv, .start pairedEnv, .stop none]).1.chan.base.IsRunning = false :=
  ⟨by decide,
   (running_implies_started sampleLib sampleConfig []
      [.start brokenStoreEnv, .start pairedEnv, .send okTransport sampleReply,
       .deliver .LoggedOut]).1 (by decide),
   by decide⟩

/-- Counterexample to C6 as stated: an adapter that was started on a paired
device and then receives a `LoggedOut` event still reports `running() = true`. -/
theorem running_after_logged_out :
    (run sampleLib sampleWorld [.start pairedEnv, .deliver .LoggedOut]).1.chan.base.IsRunning
      = true := by
  decide

/-- C6 (amended): on a `LoggedOut` event the adapter writes the log line
`Logged out from WhatsApp` and does nothing else: no call reaches the base
channel, and the adapter, its running flag included, the files and the bus are
what they were before the event. -/
theorem logged_out_only_logs (lib : Lib) (w : World) :
    handleEvent lib .LoggedOut = ([InfoC "whatsapp" "Logged out from WhatsApp"], none) ∧
      (step lib w (.deliver .LoggedOut)).1 = w ∧
      (step lib w (.deliver .LoggedOut)).1.chan.base.IsRunning = w.chan.base.IsRunning := by
  refine ⟨rfl, rfl, rfl⟩

/-- C7, the code at the failing input: on a first start whose QR channel
delivers a code and then a timeout before it is closed (no item reports a
successful pairing), `Start` returns nil, sets the running flag and logs
`WhatsApp connected successfully`. -/
theorem Start_running_after_qr_timeout :
    timeoutEnv.deviceID = none ∧
      (∀ it ∈ timeoutEnv.qrItems, it.Event ≠ "success") ∧
      (sampleWorld.chan.Start sampleLib timeoutEnv sampleWorld.files).err = none ∧
      (sampleWorld.chan.Start sampleLib timeoutEnv sampleWorld.files).chan.base.IsRunning = true ∧
      (sampleWorld.chan.Start sampleLib timeoutEnv sampleWorld.files).logs.getLast? =
        some (InfoC "whatsapp" "WhatsApp connected successfully") := by
  refine ⟨rfl, by decide, by decide, by decide, by decide⟩

/-! ## Theorems: outbound path -/

/-- C9: `Send` returns an error and hands nothing to the transport when the
adapter has no client or when the chat id does not parse as a JID; it returns an
error when the transport's send fails; and when it returns nil, the transport
was handed exactly one message, to the parsed JID, with the outbound content as
its conversation text, and sent it. -/
theorem Send_returns_failures (lib : Lib) (tr : Transport) (c : WhatsAppChannel)
    (msg : OutboundMessage) :
    (c.client = none →
      (c.Send lib tr msg).err = some "whatsapp client not connected" ∧
        (c.Send lib tr msg).handed = []) ∧
    (∀ e, c.client ≠ none → lib.ParseJID msg.ChatID = .error e →
      (c.Send lib tr msg).err = some ("invalid chat ID: " ++ e) ∧
        (c.Send lib tr msg).handed = []) ∧
    (∀ jid e, c.client ≠ none → lib.ParseJID msg.ChatID = .ok jid →
      tr jid { Conversation := some msg.Content, ExtendedTextMessage := none } = some e →
      (c.Send lib tr msg).err = some ("failed to send message: " ++ e)) ∧
    ((c.Send lib tr msg).err = none →
      ∃ jid, c.client ≠ none ∧ lib.ParseJID msg.ChatID = .ok jid ∧
        tr jid { Conversation := some msg.Content, ExtendedTextMessage := none } = none ∧
        (c.Send lib tr msg).handed =
          [(jid, { Conversation := some msg.Content, ExtendedTextMessage := none })]) := by
  cases hc : c.client with
  | none => simp [WhatsAppChannel.Send, hc]
  | some cl =>
    cases hp : lib.ParseJID msg.ChatID with
    | error e => simp [WhatsAppChannel.Send, hc, hp]
    | ok jid =>
      cases ht : tr jid { Conversation := some msg.Content, ExtendedTextMessage := none } with
      | some e =>
        simp only [WhatsAppChannel.Send, hc, hp, ht]
        refine ⟨by simp, by simp, ?_, by simp⟩
        intro jid1 e1 _ h1 h2
        cases h1
        rw [ht] at h2
        cases h2
        rfl
      | none =>
        simp only [WhatsAppChannel.Send, hc, hp, ht]
        refine ⟨by simp, by simp, ?_, ?_⟩
        · intro jid1 e1 _ h1 h2
          cases h1
          rw [ht] at h2
          cases h2
        · intro _
          exact ⟨jid, by simp, rfl, ht, rfl⟩

/-- Witness of C9: before `Start` a send fails without reaching the transport;
after a successful start a send over a transport that is down fails, and a send
that returns nil handed the reply to the transport. -/
theorem Send_returns_failures_witness :
    (sampleWorld.chan.Send sampleLib okTransport sampleReply).err =
        some "whatsapp client not connected" ∧
      (sampleWorld.chan.Send sampleLib okTransport sampleReply).handed = [] ∧
      ((run sampleLib sampleWorld [.start pairedEnv]).1.chan.Send sampleLib downTransport
          sampleReply).err = some "failed to send message: websocket not connected" ∧
      ∃ jid, (run sampleLib sampleWorld [.start pairedEnv]).1.chan.client ≠ none ∧
        sampleLib.ParseJID sampleReply.ChatID = .ok jid ∧
        okTransport jid { Conversation := some sampleReply.Content, ExtendedTextMessage := none }
          = none ∧
        ((run sampleLib sampleWorld [.start pairedEnv]).1.chan.Send sampleLib okTransport
            sampleReply).handed =
          [(jid, { Conversation := some sampleReply.Content, ExtendedTextMessage := none })] :=
  ⟨((Send_returns_failures sampleLib okTransport sampleWorld.chan sampleReply).1 rfl).1,
   ((Send_returns_failures sampleLib okTransport sampleWorld.chan sampleReply).1 rfl).2,
   by decide,
   (Send_returns_failures sampleLib okTransport
      (run sampleLib sampleWorld [.start pairedEnv]).1.chan sampleReply).2.2.2 (by decide)⟩

/-! ## Theorems: allow-list edits and the running adapter -/

/-- A successful allow-list request for the WhatsApp channel leaves in the
configuration the edited list. -/
theorem apiManageWhitelist_whatsapp (saveErr : String → Config → Option String) (s : Server)
    (action u : String)
    (hok : (s.apiManageWhitelist saveErr (whitelistRequest action u)).resp = statusOk) :
    (s.apiManageWhitelist saveErr (whitelistRequest action u)).server.config.Channels.WhatsApp.AllowFrom
      = whitelistEdit action s.config.Channels.WhatsApp.AllowFrom u := by
  simp only [Server.apiManageWhitelist, whitelistRequest, editAllowFrom] at hok ⊢
  simp only [show ¬ ("POST" ≠ "POST") by decide, show ¬ ("whatsapp" = "telegram") by decide,
    show ¬ ("whatsapp" = "discord") by decide, if_false, if_true] at hok ⊢
  split at hok
  · simp [statusOk] at hok
  · rename_i hs
    simp [hs]

/-- Counterexample to C10 as stated. A running adapter was built with the
allow-list `[alice, bob]`; the request to remove `alice` succeeds and leaves the
non-empty list `[bob]` in the configuration, yet the next message from `alice`
is published. And a running adapter built with `[bob]` still drops the next
message from `alice` after the request to add her has succeeded. -/
theorem whitelist_edit_missed_by_running_adapter :
    (runningGateway [aliceID, bobID]).world.chan.base.IsRunning = true ∧
    ((runningGateway [aliceID, bobID]).manageWhitelist saveOk
        (whitelistRequest "remove" aliceID)).2 = statusOk ∧
    ((runningGateway [aliceID, bobID]).manageWhitelist saveOk
        (whitelistRequest "remove" aliceID)).1.server.config.Channels.WhatsApp.AllowFrom
      = [bobID] ∧
    (((runningGateway [aliceID, bobID]).manageWhitelist saveOk
        (whitelistRequest "remove" aliceID)).1.world.publishes sampleLib sampleEvent).isSome
      = true ∧
    ((runningGateway [bobID]).manageWhitelist saveOk (whitelistRequest "add" aliceID)).2
      = statusOk ∧
    ((runningGateway [bobID]).manageWhitelist saveOk
        (whitelistRequest "add" aliceID)).1.server.config.Channels.WhatsApp.AllowFrom
      = [bobID, aliceID] ∧
    ((runningGateway [bobID]).manageWhitelist saveOk
        (whitelistRequest "add" aliceID)).1.world.publishes sampleLib sampleEvent = none := by
  refine ⟨by decide, by decide, by decide, by decide, by decide, by decide, by decide⟩

/-- C10 (amended): an allow-list edit made through `apiManageWhitelist` for the
WhatsApp channel changes the configuration only. The adapter that is running
keeps the allow-list it was built with and decides about the next message as it
did before the edit. The edit takes effect in an adapter built from the edited
configuration, that is after a restart: after a successful remove of `u` with a
list still non-empty such an adapter drops the next message from `u`, and after
a successful add of `u` it accepts the next message from `u` that carries a text
and is not from the account itself. -/
theorem whitelist_edit_effective_after_rebuild (lib : Lib)
    (saveErr : String → Config → Option String) (g : Gateway) (action u : String)
    (evt : MessageEvent) (hu : lib.jidString evt.Info.Sender = u)
    (hok : (g.manageWhitelist saveErr (whitelistRequest action u)).2 = statusOk) :
    (g.manageWhitelist saveErr (whitelistRequest action u)).1.world.publishes lib evt
      = g.world.publishes lib evt ∧
    (action = "remove" →
      (g.manageWhitelist saveErr
          (whitelistRequest action u)).1.server.config.Channels.WhatsApp.AllowFrom ≠ [] →
      (g.manageWhitelist saveErr (whitelistRequest action u)).1.rebuild.world.publishes lib evt
        = none) ∧
    (action = "add" → evt.Info.IsFromMe = false → messageContent evt.Message ≠ "" →
      ((g.manageWhitelist saveErr
          (whitelistRequest action u)).1.rebuild.world.publishes lib evt).isSome = true) := by
  have hlist := apiManageWhitelist_whatsapp saveErr g.server action u hok
  refine ⟨rfl, ?_, ?_⟩
  · intro ha hne
    subst ha
    simp only [Gateway.manageWhitelist] at hne ⊢
    rw [hlist] at hne
    simp only [Gateway.rebuild, Gateway.boot, World.publishes, NewWhatsAppChannel, NewBaseChannel]
    cases hm : (handleMessage lib evt).2 with
    | none => rfl
    | some call =>
      obtain ⟨-, -, rfl⟩ := handleMessage_call lib evt call hm
      simp only [hlist]
      have hallow : BaseChannel.IsAllowed
          { name := "whatsapp",
            allowList := whitelistEdit "remove" g.server.config.Channels.WhatsApp.AllowFrom u,
            running := false } (lib.jidString evt.Info.Sender) = false := by
        simp only [BaseChannel.IsAllowed, hu, Bool.or_eq_false_iff]
        constructor
        · cases hl : whitelistEdit "remove" g.server.config.Channels.WhatsApp.AllowFrom u with
          | nil => exact absurd hl hne
          | cons a l => rfl
        · simp [whitelistEdit, whitelistRemove]
      simp [BaseChannel.HandleMessage, hallow]
  · intro ha hself hcont
    subst ha
    simp only [Gateway.manageWhitelist]
    simp only [Gateway.rebuild, Gateway.boot, World.publishes, NewWhatsAppChannel, NewBaseChannel]
    have hm : (handleMessage lib evt).2 =
        some { senderID := lib.jidString evt.Info.Sender, chatID := lib.jidString evt.Info.Chat,
               content := messageContent evt.Message, media := [],
               metadata := messageMetadata evt.Info } := by
      simp [handleMessage, hself, hcont]
    simp only [hm, hlist]
    have hallow : BaseChannel.IsAllowed
        { name := "whatsapp",
          allowList := whitelistEdit "add" g.server.config.Channels.WhatsApp.AllowFrom u,
          running := false } (lib.jidString evt.Info.Sender) = true := by
      simp only [BaseChannel.IsAllowed, hu, Bool.or_eq_true]
      right
      by_cases hmem : u ∈ g.server.config.Channels.WhatsApp.AllowFrom
      · simp [whitelistEdit, whitelistAdd, hmem]
      · simp [whitelistEdit, whitelistAdd, hmem]
    simp [BaseChannel.HandleMessage, hallow, hcont]

/-- Witness of C10 (amended): after the removal of `alice` from `[alice, bob]`
the running adapter decides as before and a rebuilt adapter drops her message. -/
theorem whitelist_edit_effective_after_rebuild_witness :
    ((runningGateway [aliceID, bobID]).manageWhitelist saveOk
        (whitelistRequest "remove" aliceID)).2 = statusOk ∧
    ((runningGateway [aliceID, bobID]).manageWhitelist saveOk
        (whitelistRequest "remove" aliceID)).1.world.publishes sampleLib sampleEvent
      = (runningGateway [aliceID, bobID]).world.publishes sampleLib sampleEvent ∧
    ((runningGateway [aliceID, bobID]).manageWhitelist saveOk
        (whitelistRequest "remove" aliceID)).1.rebuild.world.publishes sampleLib sampleEvent
      = none :=
  ⟨by decide,
   (whitelist_edit_effective_after_rebuild sampleLib saveOk (runningGateway [aliceID, bobID])
      "remove" aliceID sampleEvent (by decide) (by decide)).1,
   (whitelist_edit_effective_after_rebuild sampleLib saveOk (runningGateway [aliceID, bobID])
      "remove" aliceID sampleEvent (by decide) (by decide)).2.1 rfl (by decide)⟩

/-! ## Theorems: path/filepath -/

theorem splitSlash_ne_nil (p : List Char) : splitSlash p ≠ [] := by
  cases p with
  | nil => simp [splitSlash]
  | cons c cs =>
    simp only [splitSlash]
    split
    · simp
    · split <;> simp

theorem splitSlash_append (a b : List Char) :
    splitSlash (a ++ '/' :: b) = splitSlash a ++ splitSlash b := by
  induction a with
  | nil => simp [splitSlash]
  | cons c cs ih =>
    by_cases hc : c = '/'
    · simp [splitSlash, hc, ih]
    · have e1 : splitSlash (c :: (cs ++ '/' :: b)) =
          match splitSlash (cs ++ '/' :: b) with
          | [] => [[c]]
          | w :: ws => (c :: w) :: ws := by
        simp [splitSlash, hc]
      have e2 : splitSlash (c :: cs) =
          match splitSlash cs with
          | [] => [[c]]
          | w :: ws => (c :: w) :: ws := by
        simp [splitSlash, hc]
      rw [List.cons_append, e1, e2, ih]
      cases h : splitSlash cs with
      | nil => exact absurd h (splitSlash_ne_nil cs)
      | cons w ws => rfl

theorem splitSlash_of_not_mem (x : List Char) (h : '/' ∉ x) : splitSlash x = [x] := by
  induction x with
  | nil => rfl
  | cons c cs ih =>
    have hc : c ≠ '/' := fun e => h (by simp [e])
    have hcs : '/' ∉ cs := fun e => h (by simp [e])
    simp [splitSlash, hc, ih hcs]

theorem joinSlash_cons_cons (w v : List Char) (rest : List (List Char)) :
    joinSlash (w :: v :: rest) = w ++ '/' :: joinSlash (v :: rest) := rfl

theorem joinSlash_snoc (elems : List (List Char)) (x : List Char) (h : elems ≠ []) :
    joinSlash (elems ++ [x]) = joinSlash elems ++ '/' :: x := by
  induction elems with
  | nil => exact absurd rfl h
  | cons w rest ih =>
    cases rest with
    | nil => rfl
    | cons v rest2 =>
      have := ih (by simp)
      simp only [List.cons_append, joinSlash_cons_cons] at this ⊢
      rw [this]
      simp

theorem splitSlash_joinSlash (elems : List (List Char)) (h : elems ≠ [])
    (hs : ∀ x ∈ elems, '/' ∉ x) : splitSlash (joinSlash elems) = elems := by
  induction elems with
  | nil => exact absurd rfl h
  | cons w rest ih =>
    cases rest with
    | nil => exact splitSlash_of_not_mem w (hs w (by simp))
    | cons v rest2 =>
      rw [joinSlash_cons_cons, splitSlash_append, splitSlash_of_not_mem w (hs w (by simp)),
        ih (by simp) (fun x hx => hs x (by simp [hx]))]
      rfl

theorem upToLastSlash_of_not_mem (x : List Char) (h : '/' ∉ x) : upToLastSlash x = [] := by
  cases x with
  | nil => rfl
  | cons c cs => simp [upToLastSlash, h]

theorem upToLastSlash_append (a x : List Char) (h : '/' ∉ x) :
    upToLastSlash (a ++ '/' :: x) = a ++ ['/'] := by
  induction a with
  | nil => simp [upToLastSlash, upToLastSlash_of_not_mem x h]
  | cons c cs ih => simp [upToLastSlash, ih]

theorem isRooted_append (a b : List Char) (h : a ≠ []) : isRooted (a ++ b) = isRooted a := by
  cases a with
  | nil => exact absurd rfl h
  | cons c cs => rfl

theorem isRooted_of_not_mem (x : List Char) (h : '/' ∉ x) : isRooted x = false := by
  cases x with
  | nil => rfl
  | cons c cs =>
    have hc : c ≠ '/' := fun e => h (by simp [e])
    simp [isRooted, hc]

theorem cleanStep_plain (rooted : Bool) (stack : List (List Char)) (x : List Char)
    (h : PlainElem x) : cleanStep rooted stack x = x :: stack := by
  obtain ⟨h1, -, h3, h4⟩ := h
  simp [cleanStep, h1, h3, h4]

theorem foldl_cleanStep_plain (rooted : Bool) (plain : List (List Char))
    (h : ∀ x ∈ plain, PlainElem x) :
    ∀ stack, plain.foldl (cleanStep rooted) stack = plain.reverse ++ stack := by
  induction plain with
  | nil => intro stack; rfl
  | cons x rest ih =>
    intro stack
    rw [List.foldl_cons, cleanStep_plain rooted stack x (h x (by simp)),
      ih (fun y hy => h y (by simp [hy]))]
    simp

theorem foldl_cleanStep_dotdot (n : Nat) :
    ∀ m, (List.replicate n ['.', '.']).foldl (cleanStep false) (List.replicate m ['.', '.'])
      = List.replicate (m + n) ['.', '.'] := by
  induction n with
  | zero => intro m; rfl
  | succ k ih =>
    intro m
    rw [List.replicate_succ, List.foldl_cons]
    have hstep : cleanStep false (List.replicate m ['.', '.']) ['.', '.']
        = List.replicate (m + 1) ['.', '.'] := by
      cases m with
      | zero => simp [cleanStep]
      | succ j => simp [cleanStep, List.replicate_succ]
    rw [hstep, ih (m + 1)]
    congr 1
    omega


theorem splitSlash_not_mem (p : List Char) : ∀ x ∈ splitSlash p, '/' ∉ x := by
  induction p with
  | nil => intro x hx; simp [splitSlash] at hx; simp [hx]
  | cons c cs ih =>
    intro x hx
    by_cases hc : c = '/'
    · simp only [splitSlash, hc, if_true, List.mem_cons] at hx
      rcases hx with rfl | hx
      · simp
      · exact ih x hx
    · have e : splitSlash (c :: cs) =
          match splitSlash cs with
          | [] => [[c]]
          | w :: ws => (c :: w) :: ws := by
        simp [splitSlash, hc]
      rw [e] at hx
      cases h : splitSlash cs with
      | nil => exact absurd h (splitSlash_ne_nil cs)
      | cons w ws =>
        rw [h] at hx ih
        simp only [List.mem_cons] at hx
        rcases hx with rfl | hx
        · have hw := ih w (by simp)
          intro hm
          simp only [List.mem_cons] at hm
          rcases hm with hm | hm
          · exact hc hm.symm
          · exact hw hm
        · exact ih x (by simp [hx])

theorem cleanStep_normal (rooted : Bool) (stack : List (List Char)) (el : List Char)
    (hs : NormalStack rooted stack) (hel : '/' ∉ el) :
    NormalStack rooted (cleanStep rooted stack el) := by
  by_cases h1 : el = [] ∨ el = ['.']
  · simpa [cleanStep, h1] using hs
  · by_cases h2 : el = ['.', '.']
    · subst h2
      obtain ⟨n, plain, rfl, hp, hr⟩ := hs
      cases plain with
      | nil =>
        cases n with
        | zero =>
          cases rooted with
          | false => exact ⟨1, [], by simp [cleanStep], by simp, by simp⟩
          | true => exact ⟨0, [], by simp [cleanStep], by simp, by simp⟩
        | succ k =>
          refine ⟨k + 2, [], ?_, by simp, ?_⟩
          · simp [cleanStep, List.replicate_succ]
          · intro hrt
            have := hr hrt
            omega
      | cons x rest =>
        have hx : x ≠ ['.', '.'] := (hp x (by simp)).2.2.2
        refine ⟨n, rest, ?_, fun y hy => hp y (by simp [hy]), hr⟩
        simp [cleanStep, hx]
    · obtain ⟨n, plain, rfl, hp, hr⟩ := hs
      have hplain : PlainElem el :=
        ⟨fun e => h1 (Or.inl e), hel, fun e => h1 (Or.inr e), h2⟩
      refine ⟨n, el :: plain, ?_, ?_, hr⟩
      · rw [cleanStep_plain rooted _ el hplain]
        rfl
      · intro y hy
        simp only [List.mem_cons] at hy
        rcases hy with rfl | hy
        · exact hplain
        · exact hp y hy

theorem foldl_cleanStep_normal (rooted : Bool) (els : List (List Char))
    (hels : ∀ x ∈ els, '/' ∉ x) :
    ∀ stack, NormalStack rooted stack → NormalStack rooted (els.foldl (cleanStep rooted) stack) := by
  induction els with
  | nil => intro stack h; exact h
  | cons x rest ih =>
    intro stack h
    rw [List.foldl_cons]
    exact ih (fun y hy => hels y (by simp [hy])) _
      (cleanStep_normal rooted stack x h (hels x (by simp)))

theorem cleanElems_normal (rooted : Bool) (p : List Char) :
    NormalElems rooted (cleanElems rooted p) := by
  obtain ⟨n, plain, h, hp, hr⟩ :=
    foldl_cleanStep_normal rooted (splitSlash p) (splitSlash_not_mem p) []
      ⟨0, [], by simp, by simp, by simp⟩
  refine ⟨n, plain.reverse, ?_, ?_, hr⟩
  · simp [cleanElems, h]
  · intro x hx
    exact hp x (by simpa using hx)

theorem foldl_cleanStep_of_normal (rooted : Bool) (elems : List (List Char))
    (h : NormalElems rooted elems) : elems.foldl (cleanStep rooted) [] = elems.reverse := by
  obtain ⟨n, plain, rfl, hp, hr⟩ := h
  rw [List.foldl_append]
  cases rooted with
  | true =>
    have hn : n = 0 := hr rfl
    subst hn
    simp [foldl_cleanStep_plain true plain hp]
  | false =>
    have h0 := foldl_cleanStep_dotdot n 0
    simp only [List.replicate_zero, Nat.zero_add] at h0
    rw [h0, foldl_cleanStep_plain false plain hp]
    simp

theorem normalElems_not_mem (rooted : Bool) (elems : List (List Char))
    (h : NormalElems rooted elems) : ∀ x ∈ elems, x ≠ [] ∧ '/' ∉ x := by
  obtain ⟨n, plain, rfl, hp, -⟩ := h
  intro x hx
  simp only [List.mem_append] at hx
  rcases hx with hx | hx
  · have : x = ['.', '.'] := (List.mem_replicate.mp hx).2
    subst this
    exact ⟨by simp, by decide⟩
  · exact ⟨(hp x hx).1, (hp x hx).2.1⟩

theorem joinSlash_ne_nil (elems : List (List Char)) (h : elems ≠ [])
    (hs : ∀ x ∈ elems, x ≠ [] ∧ '/' ∉ x) :
    joinSlash elems ≠ [] ∧ isRooted (joinSlash elems) = false := by
  cases elems with
  | nil => exact absurd rfl h
  | cons w rest =>
    obtain ⟨hw1, hw2⟩ := hs w (by simp)
    cases rest with
    | nil => exact ⟨hw1, isRooted_of_not_mem w hw2⟩
    | cons v rest2 =>
      rw [joinSlash_cons_cons]
      refine ⟨by simp [hw1], ?_⟩
      rw [isRooted_append _ _ hw1]
      exact isRooted_of_not_mem w hw2

theorem renderPath_true (elems : List (List Char)) :
    renderPath true elems = '/' :: joinSlash elems := by
  simp [renderPath]

theorem renderPath_false (elems : List (List Char)) (h : joinSlash elems ≠ []) :
    renderPath false elems = joinSlash elems := by
  simp [renderPath, h]

theorem cleanElems_append_slash (rooted : Bool) (p x : List Char) (hx : '/' ∉ x) :
    cleanElems rooted (p ++ '/' :: x) =
      (cleanStep rooted ((splitSlash p).foldl (cleanStep rooted) []) x).reverse := by
  simp [cleanElems, splitSlash_append, splitSlash_of_not_mem x hx, List.foldl_append]

/-- `Clean` is the identity on what it returns: the elements it kept are read
back from the path it wrote, and the path is rooted iff the original was. -/
theorem cleanElems_renderPath (rooted : Bool) (elems : List (List Char))
    (h : NormalElems rooted elems) :
    cleanElems rooted (renderPath rooted elems) = elems ∧
      isRooted (renderPath rooted elems) = rooted ∧ renderPath rooted elems ≠ [] := by
  have hs := normalElems_not_mem rooted elems h
  have hfold := foldl_cleanStep_of_normal rooted elems h
  by_cases he : elems = []
  · subst he
    cases rooted with
    | true => exact ⟨by decide, by decide, by decide⟩
    | false => exact ⟨by decide, by decide, by decide⟩
  · have hsplit := splitSlash_joinSlash elems he (fun x hx => (hs x hx).2)
    obtain ⟨hj1, hj2⟩ := joinSlash_ne_nil elems he hs
    cases rooted with
    | true =>
      rw [renderPath_true]
      refine ⟨?_, rfl, by simp⟩
      have : splitSlash ('/' :: joinSlash elems) = [] :: elems := by
        simp [splitSlash, hsplit]
      simp [cleanElems, this, cleanStep, hfold]
    | false =>
      rw [renderPath_false elems hj1]
      refine ⟨?_, hj2, hj1⟩
      simp [cleanElems, hsplit, hfold]

/-- `Join` of a non-empty path and a plain element appends the element to the
elements `Clean` keeps of the path. -/
theorem cleanChars_append_plain (p x : List Char) (hp : p ≠ []) (hx : PlainElem x) :
    cleanChars (p ++ '/' :: x) =
      renderPath (isRooted p) (cleanElems (isRooted p) p ++ [x]) := by
  unfold cleanChars
  rw [isRooted_append p _ hp, cleanElems_append_slash _ p x hx.2.1, cleanStep_plain _ _ x hx]
  simp [cleanElems]

theorem cleanChars_plain (x : List Char) (hx : PlainElem x) :
    cleanChars x = renderPath false [x] := by
  unfold cleanChars
  rw [isRooted_of_not_mem x hx.2.1]
  simp [cleanElems, splitSlash_of_not_mem x hx.2.1, cleanStep_plain _ _ x hx]

/-- `Dir` of a cleaned path that ends in a plain element is the cleaned path
without that element. -/
theorem cleanChars_upToLastSlash_renderPath (rooted : Bool) (elems : List (List Char))
    (x : List Char) (h : NormalElems rooted elems) (hx : PlainElem x) :
    cleanChars (upToLastSlash (renderPath rooted (elems ++ [x]))) = renderPath rooted elems := by
  obtain ⟨hc, hr, hne⟩ := cleanElems_renderPath rooted elems h
  by_cases he : elems = []
  · subst he
    cases rooted with
    | true =>
      have : renderPath true ([] ++ [x]) = [] ++ '/' :: x := by simp [renderPath, joinSlash]
      rw [this, upToLastSlash_append [] x hx.2.1]
      decide
    | false =>
      have : renderPath false ([] ++ [x]) = x := by simp [renderPath, joinSlash, hx.1]
      rw [this, upToLastSlash_of_not_mem x hx.2.1]
      decide
  · have hjoin := joinSlash_snoc elems x he
    have hrender : renderPath rooted (elems ++ [x]) = renderPath rooted elems ++ '/' :: x := by
      obtain ⟨hj1, -⟩ := joinSlash_ne_nil elems he (normalElems_not_mem rooted elems h)
      cases rooted with
      | true => simp [renderPath_true, hjoin]
      | false =>
        rw [renderPath_false elems hj1, renderPath_false (elems ++ [x]) (by simp [hjoin]), hjoin]
    rw [hrender, upToLastSlash_append _ x hx.2.1]
    unfold cleanChars
    rw [isRooted_append _ _ hne, hr]
    have : cleanElems rooted (renderPath rooted elems ++ ['/']) = elems := by
      rw [cleanElems_append_slash rooted _ [] (by simp)]
      simpa [cleanStep, cleanElems] using hc
    rw [this]

theorem joinTwo_eq (dir name : List Char) (hn : PlainElem name) :
    joinTwo dir name = renderPath (isRooted dir) (cleanElems (isRooted dir) dir ++ [name]) := by
  by_cases hd : dir = []
  · subst hd
    simp only [joinTwo, if_true]
    rw [cleanChars_plain name hn]
    rfl
  · simp only [joinTwo, hd, if_false]
    exact cleanChars_append_plain dir name hd hn

/-- The directory of `Join(ws, db)` joined with a plain name is `Join(ws, name)`. -/
theorem joinTwo_dir (ws db name : List Char) (hdb : PlainElem db) (hn : PlainElem name) :
    joinTwo (cleanChars (upToLastSlash (joinTwo ws db))) name = joinTwo ws name := by
  have hnorm := cleanElems_normal (isRooted ws) ws
  rw [joinTwo_eq ws db hdb, cleanChars_upToLastSlash_renderPath _ _ db hnorm hdb,
    joinTwo_eq _ name hn, joinTwo_eq ws name hn]
  obtain ⟨hc, hr, -⟩ := cleanElems_renderPath (isRooted ws) _ hnorm
  rw [hr, hc]

theorem normalElems_snoc (rooted : Bool) (elems : List (List Char)) (x : List Char)
    (h : NormalElems rooted elems) (hx : PlainElem x) : NormalElems rooted (elems ++ [x]) := by
  obtain ⟨n, plain, rfl, hp, hr⟩ := h
  refine ⟨n, plain ++ [x], by simp, ?_, hr⟩
  intro y hy
  simp only [List.mem_append, List.mem_singleton] at hy
  rcases hy with hy | rfl
  · exact hp y hy
  · exact hx

/-- Joining one directory with two different plain names gives two paths. -/
theorem joinTwo_injective (dir a b : List Char) (ha : PlainElem a) (hb : PlainElem b)
    (h : joinTwo dir a = joinTwo dir b) : a = b := by
  rw [joinTwo_eq dir a ha, joinTwo_eq dir b hb] at h
  have hnorm := cleanElems_normal (isRooted dir) dir
  have h1 := (cleanElems_renderPath _ _ (normalElems_snoc _ _ a hnorm ha)).1
  have h2 := (cleanElems_renderPath _ _ (normalElems_snoc _ _ b hnorm hb)).1
  rw [h] at h1
  rw [h1] at h2
  simpa using h2

theorem string_eq_empty_iff (s : String) : s = "" ↔ s.data = [] := by
  constructor
  · intro h; subst h; rfl
  · intro h
    cases s
    simp only at h
    subst h
    rfl

/-- `Join` of a directory and a non-empty name, on characters. -/
theorem Join_pair (dir name : String) (hn : name.data ≠ []) :
    Join [dir, name] = String.mk (joinTwo dir.data name.data) := by
  have hname : name ≠ "" := fun e => hn ((string_eq_empty_iff name).mp e)
  by_cases hd : dir = ""
  · have hd2 := (string_eq_empty_iff dir).mp hd
    simp [Join, hd, hname, joinTwo, Clean, joinSlash]
  · have hd2 : dir.data ≠ [] := fun e => hd ((string_eq_empty_iff dir).mpr e)
    simp [Join, hd, joinTwo, hd2, Clean, joinSlash]

/-- The adapter and the web server name the same file: the directory of the
database path, joined with a plain file name, is the workspace joined with that
name, for every workspace path. -/
theorem Join_Dir_dbPath (ws name : String) (hn : PlainElem name.data) :
    Join [Dir (Join [ws, "whatsapp.db"]), name] = Join [ws, name] := by
  have hdb : PlainElem "whatsapp.db".data := by
    refine ⟨by decide, by decide, by decide, by decide⟩
  rw [Join_pair ws "whatsapp.db" hdb.1, Join_pair ws name hn.1, Join_pair _ name hn.1]
  simp only [Dir, Clean]
  rw [joinTwo_dir ws.data _ name.data hdb hn]

theorem mapGet_mapSet_same {α : Type} (m : List (String × α)) (k : String) (v : α) :
    mapGet (mapSet m k v) k = some v := by
  induction m with
  | nil => simp [mapSet, mapGet]
  | cons p rest ih =>
    by_cases h : p.1 = k
    · simp [mapSet, h, mapGet]
    · have hb : (p.1 == k) = false := beq_eq_false_iff_ne.mpr h
      simp only [mapSet, h, if_false]
      simp only [mapGet, List.find?, hb] at ih ⊢
      exact ih

theorem mapGet_mapSet_other {α : Type} (m : List (String × α)) (k : String) (v : α) (k2 : String)
    (hk : k2 ≠ k) :
    mapGet (mapSet m k v) k2 = mapGet m k2 := by
  induction m with
  | nil =>
    have : (k == k2) = false := beq_eq_false_iff_ne.mpr (Ne.symm hk)
    simp [mapSet, mapGet, List.find?, this]
  | cons p rest ih =>
    by_cases h : p.1 = k
    · have h1 : (k == k2) = false := beq_eq_false_iff_ne.mpr (Ne.symm hk)
      have h2 : (p.1 == k2) = false := by rw [h]; exact h1
      simp [mapSet, h, mapGet, List.find?, h1, h2]
    · simp only [mapSet, h, if_false]
      cases hp : (p.1 == k2) with
      | true => simp [mapGet, List.find?, hp]
      | false =>
        simp only [mapGet, List.find?, hp] at ih ⊢
        exact ih

/-- The files after the QR loop: the two QR files hold the rendering and the raw
string of the last code that could be rendered; without such a code the files
are untouched. -/
theorem qrLoop_files (lib : Lib) (writable : String → Bool) (dbPath : String)
    (hw1 : writable (Join [Dir dbPath, "whatsapp_qr.txt"]) = true)
    (hw2 : writable (Join [Dir dbPath, "whatsapp_qr_code.txt"]) = true)
    (hne : Join [Dir dbPath, "whatsapp_qr.txt"] ≠ Join [Dir dbPath, "whatsapp_qr_code.txt"])
    (items : List QRChannelItem) :
    ∀ fs : Files,
      (lastRendered lib items = none → (qrLoop lib writable dbPath items fs).1 = fs) ∧
      (∀ qrString code, lastRendered lib items = some (qrString, code) →
        ReadFile (qrLoop lib writable dbPath items fs).1 (Join [Dir dbPath, "whatsapp_qr.txt"])
            = some qrString ∧
          ReadFile (qrLoop lib writable dbPath items fs).1
            (Join [Dir dbPath, "whatsapp_qr_code.txt"]) = some code) := by
  induction items with
  | nil =>
    intro fs
    exact ⟨fun _ => rfl, fun q c h => by simp [lastRendered] at h⟩
  | cons it rest ih =>
    intro fs
    by_cases hev : it.Event = "code"
    · cases hq : lib.qrSmallString it.Code with
      | error e =>
        have hl : lastRendered lib (it :: rest) = lastRendered lib rest := by
          simp only [lastRendered, hev, hq]
          cases lastRendered lib rest <;> rfl
        have hloop : (qrLoop lib writable dbPath (it :: rest) fs).1
            = (qrLoop lib writable dbPath rest fs).1 := by
          simp [qrLoop, hev, hq]
        rw [hl, hloop]
        exact ih fs
      | ok qs =>
        have hloop : (qrLoop lib writable dbPath (it :: rest) fs).1
            = (qrLoop lib writable dbPath rest
                (WriteFile writable
                  (WriteFile writable fs (Join [Dir dbPath, "whatsapp_qr.txt"]) qs)
                  (Join [Dir dbPath, "whatsapp_qr_code.txt"]) it.Code)).1 := by
          simp [qrLoop, hev, hq]
        rw [hloop]
        obtain ⟨ih1, ih2⟩ := ih (WriteFile writable
          (WriteFile writable fs (Join [Dir dbPath, "whatsapp_qr.txt"]) qs)
          (Join [Dir dbPath, "whatsapp_qr_code.txt"]) it.Code)
        cases hr : lastRendered lib rest with
        | some r =>
          have hl : lastRendered lib (it :: rest) = some r := by
            simp [lastRendered, hr]
          rw [hl]
          refine ⟨fun h => by simp at h, fun q c h => ?_⟩
          exact ih2 q c (by rw [hr]; exact h)
        | none =>
          have hl : lastRendered lib (it :: rest) = some (qs, it.Code) := by
            simp [lastRendered, hr, hev, hq]
          rw [hl]
          refine ⟨fun h => by simp at h, fun q c h => ?_⟩
          simp only [Option.some.injEq, Prod.mk.injEq] at h
          obtain ⟨rfl, rfl⟩ := h
          rw [ih1 hr]
          simp only [ReadFile, WriteFile, hw1, hw2, if_true]
          exact ⟨by rw [mapGet_mapSet_other _ _ _ _ hne, mapGet_mapSet_same],
            mapGet_mapSet_same _ _ _⟩
    · have hl : lastRendered lib (it :: rest) = lastRendered lib rest := by
        simp only [lastRendered, hev, if_false]
        cases lastRendered lib rest <;> rfl
      have hloop : (qrLoop lib writable dbPath (it :: rest) fs).1
          = (qrLoop lib writable dbPath rest fs).1 := by
        simp [qrLoop, hev]
      rw [hl, hloop]
      exact ih fs

/-- A first start that returns nil leaves the files of its QR loop. -/
theorem Start_files_first_run (lib : Lib) (env : StartEnv) (c : WhatsAppChannel) (fs : Files)
    (hdev : env.deviceID = none) (hok : (c.Start lib env fs).err = none) :
    (c.Start lib env fs).files = (qrLoop lib env.writable c.dbPath env.qrItems fs).1 := by
  obtain ⟨e1, e2, e3, d, e4, e5, items, wr⟩ := env
  simp only at hdev
  subst hdev
  cases e1 <;> cases e2 <;> cases e3 <;> cases e4 <;> cases e5 <;>
    simp [WhatsAppChannel.Start] at hok ⊢


/-! ## Theorems: QR hand-off -/

/-- Counterexample to C8 as stated. A code event whose code go-qrcode refuses
is skipped by the `continue`: `Start` returns nil, no file is written and
`apiWhatsAppQR` answers `pending`. And a code event for which the write of
`whatsapp_qr.txt` fails (the error of `os.WriteFile` is dropped) leaves that
file absent, so `apiWhatsAppQR` answers `pending` with an empty `qr_code`. -/
theorem qr_code_event_not_persisted :
    badCodeEnv.qrItems = [{ Event := "code", Code := "" }] ∧
    (sampleWorld.chan.Start sampleLib badCodeEnv []).err = none ∧
    (sampleWorld.chan.Start sampleLib badCodeEnv []).files = [] ∧
    mapGet ((serverAllowing []).apiWhatsAppQR (sampleWorld.chan.Start sampleLib badCodeEnv []).files)
      "status" = some "pending" ∧
    readOnlyEnv.qrItems = [{ Event := "code", Code := "2@AbCd" }] ∧
    (sampleWorld.chan.Start sampleLib readOnlyEnv []).err = none ∧
    ReadFile (sampleWorld.chan.Start sampleLib readOnlyEnv []).files
      "/home/claw/workspace/whatsapp_qr.txt" = none ∧
    mapGet ((serverAllowing []).apiWhatsAppQR (sampleWorld.chan.Start sampleLib readOnlyEnv []).files)
      "qr_code" = some "" := by
  refine ⟨rfl, by decide, by decide, by decide, rfl, by decide, by decide, by decide⟩

/-- C8 (amended): the adapter built for a workspace and the web server
configured with the same workspace resolve `whatsapp_qr.txt` and
`whatsapp_qr_code.txt` to the same paths, whatever the workspace path. On a first
start that returns nil and can write both files, the files hold afterwards the
ASCII rendering and the raw string of the last code event that go-qrcode could
render (later such codes overwrite earlier ones), and `apiWhatsAppQR` then
answers `waiting` with `qr_code` equal to that rendering and `raw_code` equal to
that raw string. A code event that cannot be rendered is skipped: when no code
could be rendered the files are untouched. -/
theorem qr_handoff_round_trip (lib : Lib) (env : StartEnv) (cfg : Config) (s : Server) (fs : Files)
    (hws : s.config.WorkspacePath = cfg.WorkspacePath)
    (hdev : env.deviceID = none)
    (hok : ((NewWhatsAppChannel cfg).Start lib env fs).err = none)
    (hw1 : env.writable (Join [cfg.WorkspacePath, "whatsapp_qr.txt"]) = true)
    (hw2 : env.writable (Join [cfg.WorkspacePath, "whatsapp_qr_code.txt"]) = true) :
    Join [Dir (NewWhatsAppChannel cfg).dbPath, "whatsapp_qr.txt"]
      = Join [s.config.WorkspacePath, "whatsapp_qr.txt"] ∧
    Join [Dir (NewWhatsAppChannel cfg).dbPath, "whatsapp_qr_code.txt"]
      = Join [s.config.WorkspacePath, "whatsapp_qr_code.txt"] ∧
    (∀ qrString code, lastRendered lib env.qrItems = some (qrString, code) →
      ReadFile ((NewWhatsAppChannel cfg).Start lib env fs).files
          (Join [cfg.WorkspacePath, "whatsapp_qr.txt"]) = some qrString ∧
        ReadFile ((NewWhatsAppChannel cfg).Start lib env fs).files
          (Join [cfg.WorkspacePath, "whatsapp_qr_code.txt"]) = some code ∧
        s.apiWhatsAppQR ((NewWhatsAppChannel cfg).Start lib env fs).files =
          [("status", "waiting"), ("message", "QR code ready - scan with WhatsApp"),
           ("qr_code", qrString), ("raw_code", code)]) ∧
    (lastRendered lib env.qrItems = none →
      ((NewWhatsAppChannel cfg).Start lib env fs).files = fs) := by
  have hn1 : PlainElem "whatsapp_qr.txt".data := ⟨by decide, by decide, by decide, by decide⟩
  have hn2 : PlainElem "whatsapp_qr_code.txt".data := ⟨by decide, by decide, by decide, by decide⟩
  have hp1 : Join [Dir (NewWhatsAppChannel cfg).dbPath, "whatsapp_qr.txt"]
      = Join [cfg.WorkspacePath, "whatsapp_qr.txt"] :=
    Join_Dir_dbPath cfg.WorkspacePath "whatsapp_qr.txt" hn1
  have hp2 : Join [Dir (NewWhatsAppChannel cfg).dbPath, "whatsapp_qr_code.txt"]
      = Join [cfg.WorkspacePath, "whatsapp_qr_code.txt"] :=
    Join_Dir_dbPath cfg.WorkspacePath "whatsapp_qr_code.txt" hn2
  have hne : Join [cfg.WorkspacePath, "whatsapp_qr.txt"]
      ≠ Join [cfg.WorkspacePath, "whatsapp_qr_code.txt"] := by
    rw [Join_pair _ _ hn1.1, Join_pair _ _ hn2.1]
    intro h
    have h2 := joinTwo_injective _ _ _ hn1 hn2 (congrArg String.data h)
    exact absurd h2 (by decide)
  have hfiles := Start_files_first_run lib env (NewWhatsAppChannel cfg) fs hdev hok
  have hloop := qrLoop_files lib env.writable (NewWhatsAppChannel cfg).dbPath
    (by rw [hp1]; exact hw1) (by rw [hp2]; exact hw2) (by rw [hp1, hp2]; exact hne)
    env.qrItems fs
  rw [hp1, hp2] at hloop
  refine ⟨by rw [hp1, hws], by rw [hp2, hws], ?_, ?_⟩
  · intro qrString code hlast
    obtain ⟨hr1, hr2⟩ := hloop.2 qrString code hlast
    rw [← hfiles] at hr1 hr2
    refine ⟨hr1, hr2, ?_⟩
    simp [Server.apiWhatsAppQR, hws, hr1, hr2]
  · intro hlast
    rw [hfiles]
    exact hloop.1 hlast

/-- Witness of C8 (amended): a first start on which the QR channel delivers the
code `2@AbCd` and then a timeout; the web server of the same workspace answers
with the rendering and the raw code. -/
theorem qr_handoff_round_trip_witness :
    lastRendered sampleLib timeoutEnv.qrItems = some ("▄▀2@AbCd", "2@AbCd") ∧
    (serverAllowing []).apiWhatsAppQR
        ((NewWhatsAppChannel sampleConfig).Start sampleLib timeoutEnv []).files =
      [("status", "waiting"), ("message", "QR code ready - scan with WhatsApp"),
       ("qr_code", "▄▀2@AbCd"), ("raw_code", "2@AbCd")] :=
  ⟨by decide,
   ((qr_handoff_round_trip sampleLib timeoutEnv sampleConfig (serverAllowing []) [] rfl rfl
      (by decide) rfl rfl).2.2.1 "▄▀2@AbCd" "2@AbCd" (by decide)).2.2⟩

/-! ## Theorems: log buffer -/

/-- One `AddLogEntry` appends the entry and keeps the last `maxLogBuffer`
entries; the other fields of the server stay. -/
theorem AddLogEntry_logBuffer (s : Server) (e : LogEntry) :
    (s.AddLogEntry e.Timestamp e.Level e.Component e.Message).logBuffer
        = (s.logBuffer ++ [e]).drop ((s.logBuffer ++ [e]).length - s.maxLogBuffer) ∧
      (s.AddLogEntry e.Timestamp e.Level e.Component e.Message).maxLogBuffer = s.maxLogBuffer := by
  unfold Server.AddLogEntry
  by_cases h : (s.logBuffer ++ [e]).length > s.maxLogBuffer
  · simp only [h, if_true, and_self]
  · simp only [h, if_false, and_true]
    have : (s.logBuffer ++ [e]).length - s.maxLogBuffer = 0 := by omega
    rw [this, List.drop_zero]

/-- The buffer after a sequence of `AddLogEntry` calls, from any server whose
buffer is within its cap. -/
theorem addLogEntries_logBuffer (calls : List LogEntry) :
    ∀ s : Server, s.logBuffer.length ≤ s.maxLogBuffer →
      (s.addLogEntries calls).logBuffer
          = (s.logBuffer ++ calls).drop ((s.logBuffer ++ calls).length - s.maxLogBuffer) ∧
        (s.addLogEntries calls).maxLogBuffer = s.maxLogBuffer := by
  induction calls with
  | nil =>
    intro s hlen
    have : (s.logBuffer ++ []).length - s.maxLogBuffer = 0 := by
      simp only [List.append_nil]; omega
    rw [this]
    simp [Server.addLogEntries]
  | cons e rest ih =>
    intro s hlen
    obtain ⟨h1, h2⟩ := AddLogEntry_logBuffer s e
    have hlen1 : (s.AddLogEntry e.Timestamp e.Level e.Component e.Message).logBuffer.length
        ≤ (s.AddLogEntry e.Timestamp e.Level e.Component e.Message).maxLogBuffer := by
      rw [h1, h2, List.length_drop]
      omega
    obtain ⟨h3, h4⟩ := ih (s.AddLogEntry e.Timestamp e.Level e.Component e.Message) hlen1
    have hfold : s.addLogEntries (e :: rest)
        = (s.AddLogEntry e.Timestamp e.Level e.Component e.Message).addLogEntries rest := rfl
    rw [hfold, h4, h2, h3, h1, h2]
    refine ⟨?_, rfl⟩
    have hk : (s.logBuffer ++ [e]).length - s.maxLogBuffer ≤ (s.logBuffer ++ [e]).length := by
      omega
    rw [← List.drop_append_of_le_length hk, List.drop_drop, List.length_drop]
    have happ : s.logBuffer ++ [e] ++ rest = s.logBuffer ++ e :: rest := by simp
    rw [happ]
    congr 1
    simp only [List.length_append, List.length_cons, List.length_nil]
    omega

/-- C11: after any sequence of `AddLogEntry` calls on a server built by
`NewServer` the log buffer holds exactly the last `min n 100` entries added, in
the order they were added: it is the sequence of entries without its first
`n - 100`, so its length is `min n 100`, never above the cap, and the newest
entry is its last. -/
theorem addLogEntries_keeps_last_100 (cfg : Config) (configPath : String)
    (calls : List LogEntry) :
    ((NewServer cfg configPath).addLogEntries calls).logBuffer
        = calls.drop (calls.length - 100) ∧
      ((NewServer cfg configPath).addLogEntries calls).logBuffer.length
        = min calls.length 100 ∧
      ((NewServer cfg configPath).addLogEntries calls).logBuffer.length ≤ 100 ∧
      ((NewServer cfg configPath).addLogEntries calls).logBuffer.getLast? = calls.getLast? := by
  have h := (addLogEntries_logBuffer calls (NewServer cfg configPath)
    (by simp [NewServer])).1
  simp only [NewServer, List.nil_append] at h
  have hbuf : ((NewServer cfg configPath).addLogEntries calls).logBuffer
      = calls.drop (calls.length - 100) := h
  rw [hbuf]
  refine ⟨rfl, ?_, ?_, ?_⟩
  · rw [List.length_drop]; omega
  · rw [List.length_drop]; omega
  · cases hc : calls with
    | nil => rfl
    | cons a l =>
      rw [← hc]
      have hlt : calls.length - 100 < calls.length := by
        rw [hc]; simp only [List.length_cons]; omega
      rw [List.getLast?_drop]
      simp [Nat.not_le.mpr hlt]

/-! ## Theorems: configuration handlers -/

/-- The switch of `apiManageWhitelist`: an unknown name selects nothing; a known
name yields the channels with the edit applied to the allow-list of that channel,
its enabled flag and every other channel as before. -/
theorem editAllowFrom_get (ch : ChannelsConfig) (channel : String)
    (f : List String → List String) :
    (ch.get? channel = none → editAllowFrom ch channel f = none) ∧
    (∀ c, ch.get? channel = some c →
      ∃ ch2, editAllowFrom ch channel f = some ch2 ∧
        ch2.get? channel = some { c with AllowFrom := f c.AllowFrom } ∧
        ∀ name, name ≠ channel → ch2.get? name = ch.get? name) := by
  by_cases h1 : channel = "telegram"
  · subst h1
    refine ⟨by simp [ChannelsConfig.get?], fun c hc => ?_⟩
    simp only [ChannelsConfig.get?, if_false, if_true, Option.some.injEq] at hc
    subst hc
    refine ⟨{ ch with Telegram := { ch.Telegram with AllowFrom := f ch.Telegram.AllowFrom } },
      by simp [editAllowFrom], by simp [ChannelsConfig.get?], fun name hn => ?_⟩
    simp [ChannelsConfig.get?, hn]
  · by_cases h2 : channel = "discord"
    · subst h2
      refine ⟨by simp [ChannelsConfig.get?], fun c hc => ?_⟩
      simp only [ChannelsConfig.get?, h1, if_false, if_true, Option.some.injEq] at hc
      subst hc
      refine ⟨{ ch with Discord := { ch.Discord with AllowFrom := f ch.Discord.AllowFrom } },
        by simp [editAllowFrom], by simp [ChannelsConfig.get?], fun name hn => ?_⟩
      simp [ChannelsConfig.get?, hn]
    · by_cases h3 : channel = "whatsapp"
      · subst h3
        refine ⟨by simp [ChannelsConfig.get?], fun c hc => ?_⟩
        simp only [ChannelsConfig.get?, h1, h2, if_false, if_true, Option.some.injEq] at hc
        subst hc
        refine ⟨{ ch with WhatsApp := { ch.WhatsApp with AllowFrom := f ch.WhatsApp.AllowFrom } },
          by simp [editAllowFrom], by simp [ChannelsConfig.get?], fun name hn => ?_⟩
        simp [ChannelsConfig.get?, hn]
      · by_cases h4 : channel = "feishu"
        · subst h4
          refine ⟨by simp [ChannelsConfig.get?], fun c hc => ?_⟩
          simp only [ChannelsConfig.get?, h1, h2, h3, if_false, if_true, Option.some.injEq] at hc
          subst hc
          refine ⟨{ ch with Feishu := { ch.Feishu with AllowFrom := f ch.Feishu.AllowFrom } },
            by simp [editAllowFrom], by simp [ChannelsConfig.get?], fun name hn => ?_⟩
          simp [ChannelsConfig.get?, hn]
        · by_cases h5 : channel = "slack"
          · subst h5
            refine ⟨by simp [ChannelsConfig.get?], fun c hc => ?_⟩
            simp only [ChannelsConfig.get?, h1, h2, h3, h4, if_false, if_true, Option.some.injEq] at hc
            subst hc
            refine ⟨{ ch with Slack := { ch.Slack with AllowFrom := f ch.Slack.AllowFrom } },
              by simp [editAllowFrom], by simp [ChannelsConfig.get?], fun name hn => ?_⟩
            simp [ChannelsConfig.get?, hn]
          · refine ⟨fun _ => by simp [editAllowFrom, h1, h2, h3, h4, h5], fun c hc => ?_⟩
            simp [ChannelsConfig.get?, h1, h2, h3, h4, h5] at hc

/-- The switch of `apiToggleChannel`, likewise for the enabled flag. -/
theorem setEnabled_get (ch : ChannelsConfig) (channel : String) (enabled : Bool) :
    (ch.get? channel = none → setEnabled ch channel enabled = none) ∧
    (∀ c, ch.get? channel = some c →
      ∃ ch2, setEnabled ch channel enabled = some ch2 ∧
        ch2.get? channel = some { c with Enabled := enabled } ∧
        ∀ name, name ≠ channel → ch2.get? name = ch.get? name) := by
  by_cases h1 : channel = "telegram"
  · subst h1
    refine ⟨by simp [ChannelsConfig.get?], fun c hc => ?_⟩
    simp only [ChannelsConfig.get?, if_false, if_true, Option.some.injEq] at hc
    subst hc
    refine ⟨{ ch with Telegram := { ch.Telegram with Enabled := enabled } },
      by simp [setEnabled], by simp [ChannelsConfig.get?], fun name hn => ?_⟩
    simp [ChannelsConfig.get?, hn]
  · by_cases h2 : channel = "discord"
    · subst h2
      refine ⟨by simp [ChannelsConfig.get?], fun c hc => ?_⟩
      simp only [ChannelsConfig.get?, h1, if_false, if_true, Option.some.injEq] at hc
      subst hc
      refine ⟨{ ch with Discord := { ch.Discord with Enabled := enabled } },
        by simp [setEnabled], by simp [ChannelsConfig.get?], fun name hn => ?_⟩
      simp [ChannelsConfig.get?, hn]
    · by_cases h3 : channel = "whatsapp"
      · subst h3
        refine ⟨by simp [ChannelsConfig.get?], fun c hc => ?_⟩
        simp only [ChannelsConfig.get?, h1, h2, if_false, if_true, Option.some.injEq] at hc
        subst hc
        refine ⟨{ ch with WhatsApp := { ch.WhatsApp with Enabled := enabled } },
          by simp [setEnabled], by simp [ChannelsConfig.get?], fun name hn => ?_⟩
        simp [ChannelsConfig.get?, hn]
      · by_cases h4 : channel = "feishu"
        · subst h4
          refine ⟨by simp [ChannelsConfig.get?], fun c hc => ?_⟩
          simp only [ChannelsConfig.get?, h1, h2, h3, if_false, if_true, Option.some.injEq] at hc
          subst hc
          refine ⟨{ ch with Feishu := { ch.Feishu with Enabled := enabled } },
            by simp [setEnabled], by simp [ChannelsConfig.get?], fun name hn => ?_⟩
          simp [ChannelsConfig.get?, hn]
        · by_cases h5 : channel = "slack"
          · subst h5
            refine ⟨by simp [ChannelsConfig.get?], fun c hc => ?_⟩
            simp only [ChannelsConfig.get?, h1, h2, h3, h4, if_false, if_true, Option.some.injEq] at hc
            subst hc
            refine ⟨{ ch with Slack := { ch.Slack with Enabled := enabled } },
              by simp [setEnabled], by simp [ChannelsConfig.get?], fun name hn => ?_⟩
            simp [ChannelsConfig.get?, hn]
          · refine ⟨fun _ => by simp [setEnabled, h1, h2, h3, h4, h5], fun c hc => ?_⟩
            simp [ChannelsConfig.get?, h1, h2, h3, h4, h5] at hc

/-- What `apiManageWhitelist` does with a decoded POST request: for an unknown
channel it answers 400 and touches nothing; for a known one it stores the edited
channels and passes the new configuration to `SaveConfig`. -/
theorem apiManageWhitelist_post (saveErr : String → Config → Option String) (s : Server)
    (req : WhitelistRequest) :
    (editAllowFrom s.config.Channels req.Channel
        (fun l => whitelistEdit req.Action l req.UserID) = none →
      s.apiManageWhitelist saveErr { Method := "POST", Body := .ok req } =
        { resp := { Status := 400, Body := .text "Unknown channel" }, server := s,
          saveCalls := [] }) ∧
    (∀ ch2, editAllowFrom s.config.Channels req.Channel
        (fun l => whitelistEdit req.Action l req.UserID) = some ch2 →
      (s.apiManageWhitelist saveErr { Method := "POST", Body := .ok req }).server =
        { s with config := { s.config with Channels := ch2 } }) := by
  constructor
  · intro h
    simp [Server.apiManageWhitelist, h]
  · intro ch2 h
    simp only [Server.apiManageWhitelist, h]
    simp only [show ¬ ("POST" ≠ "POST") by decide, if_false]
    split <;> rfl

/-- What `apiToggleChannel` does with a decoded POST request. -/
theorem apiToggleChannel_post (saveErr : String → Config → Option String) (s : Server)
    (req : ToggleRequest) :
    (setEnabled s.config.Channels req.Channel req.Enabled = none →
      s.apiToggleChannel saveErr { Method := "POST", Body := .ok req } =
        { resp := { Status := 400, Body := .text "Unknown channel" }, server := s,
          saveCalls := [] }) ∧
    (∀ ch2, setEnabled s.config.Channels req.Channel req.Enabled = some ch2 →
      (s.apiToggleChannel saveErr { Method := "POST", Body := .ok req }).server =
        { s with config := { s.config with Channels := ch2 } }) := by
  constructor
  · intro h
    simp [Server.apiToggleChannel, h]
  · intro ch2 h
    simp only [Server.apiToggleChannel, h]
    simp only [show ¬ ("POST" ≠ "POST") by decide, if_false]
    split <;> rfl

/-- The allow-list of a known channel after a decoded POST request. -/
theorem apiManageWhitelist_allowFrom (saveErr : String → Config → Option String) (s : Server)
    (req : WhitelistRequest) (l : List String) (hl : s.allowFrom? req.Channel = some l) :
    (s.apiManageWhitelist saveErr { Method := "POST", Body := .ok req }).server.allowFrom?
        req.Channel
      = some (whitelistEdit req.Action l req.UserID) := by
  simp only [Server.allowFrom?, Option.map_eq_some'] at hl
  obtain ⟨c, hc, rfl⟩ := hl
  obtain ⟨ch2, h1, h2, -⟩ := (editAllowFrom_get s.config.Channels req.Channel
    (fun l => whitelistEdit req.Action l req.UserID)).2 c hc
  rw [(apiManageWhitelist_post saveErr s req).2 ch2 h1]
  simp [Server.allowFrom?, h2]

/-- The enabled flag of every channel and the allow-list of every channel other
than the one named in the request, after any allow-list request. -/
theorem apiManageWhitelist_frame (saveErr : String → Config → Option String) (s : Server)
    (r : Request WhitelistRequest) (name : String) :
    (s.apiManageWhitelist saveErr r).server.enabled? name = s.enabled? name ∧
      ((∀ req, r.Body = .ok req → req.Channel ≠ name) →
        (s.apiManageWhitelist saveErr r).server.allowFrom? name = s.allowFrom? name) := by
  obtain ⟨method, body⟩ := r
  by_cases hm : method = "POST"
  · subst hm
    cases body with
    | error e => exact ⟨by simp [Server.apiManageWhitelist], fun _ => by simp [Server.apiManageWhitelist]⟩
    | ok req =>
      cases hc : s.config.Channels.get? req.Channel with
      | none =>
        have h := (editAllowFrom_get s.config.Channels req.Channel
          (fun l => whitelistEdit req.Action l req.UserID)).1 hc
        rw [(apiManageWhitelist_post saveErr s req).1 h]
        exact ⟨rfl, fun _ => rfl⟩
      | some c =>
        obtain ⟨ch2, h1, h2, h3⟩ := (editAllowFrom_get s.config.Channels req.Channel
          (fun l => whitelistEdit req.Action l req.UserID)).2 c hc
        rw [(apiManageWhitelist_post saveErr s req).2 ch2 h1]
        by_cases hn : name = req.Channel
        · subst hn
          refine ⟨by simp [Server.enabled?, h2, hc], fun h => ?_⟩
          exact absurd rfl (h req rfl)
        · refine ⟨by simp [Server.enabled?, h3 name hn], fun _ => ?_⟩
          simp [Server.allowFrom?, h3 name hn]
  · exact ⟨by simp [Server.apiManageWhitelist, hm], fun _ => by simp [Server.apiManageWhitelist, hm]⟩

/-- C12: for a known channel and a user id `u`, after `apiManageWhitelist` with
action `add` the id is a member of that channel's allow-list; the list is
unchanged when `u` was a member and is the old list with `u` appended once
otherwise. A second add of `u` changes nothing, and a list without duplicates
stays without duplicates. -/
theorem whitelist_add_keeps_set (saveErr : String → Config → Option String) (s : Server)
    (channel u : String) (l : List String) (hl : s.allowFrom? channel = some l) :
    ∃ l2, (s.apiManageWhitelist saveErr (whitelistRequestFor channel "add" u)).server.allowFrom?
        channel = some l2 ∧
      u ∈ l2 ∧ (u ∈ l → l2 = l) ∧ (u ∉ l → l2 = l ++ [u]) ∧ (l.Nodup → l2.Nodup) ∧
      ((s.apiManageWhitelist saveErr (whitelistRequestFor channel "add" u)).server.apiManageWhitelist
          saveErr (whitelistRequestFor channel "add" u)).server.allowFrom? channel = some l2 := by
  have h1 : (s.apiManageWhitelist saveErr (whitelistRequestFor channel "add" u)).server.allowFrom?
      channel = some (whitelistEdit "add" l u) :=
    apiManageWhitelist_allowFrom saveErr s
      { Channel := channel, Action := "add", UserID := u } l hl
  have hadd : whitelistEdit "add" l u = if u ∈ l then l else l ++ [u] := by
    simp [whitelistEdit, whitelistAdd]
  refine ⟨whitelistEdit "add" l u, h1, ?_, ?_, ?_, ?_, ?_⟩
  · rw [hadd]; split <;> simp [*]
  · intro hmem; rw [hadd]; simp [hmem]
  · intro hmem; rw [hadd]; simp [hmem]
  · intro hnd
    rw [hadd]
    split
    · exact hnd
    · rename_i hmem
      exact List.Nodup.append hnd (by simp) (by simpa using hmem)
  · have h2 : ((s.apiManageWhitelist saveErr
          (whitelistRequestFor channel "add" u)).server.apiManageWhitelist saveErr
          (whitelistRequestFor channel "add" u)).server.allowFrom? channel
        = some (whitelistEdit "add" (whitelistEdit "add" l u) u) :=
      apiManageWhitelist_allowFrom saveErr
        (s.apiManageWhitelist saveErr (whitelistRequestFor channel "add" u)).server
        { Channel := channel, Action := "add", UserID := u } (whitelistEdit "add" l u) h1
    rw [h2]
    congr 1
    have hmem : u ∈ whitelistEdit "add" l u := by rw [hadd]; split <;> simp [*]
    generalize whitelistEdit "add" l u = l1 at hmem
    simp [whitelistEdit, whitelistAdd, hmem]

/-- Witness of C12: `bob` is added to the WhatsApp allow-list `[alice]`. -/
theorem whitelist_add_keeps_set_witness :
    (serverAllowing [aliceID]).allowFrom? "whatsapp" = some [aliceID] ∧
      ∃ l2, ((serverAllowing [aliceID]).apiManageWhitelist saveOk
          (whitelistRequestFor "whatsapp" "add" bobID)).server.allowFrom? "whatsapp" = some l2 ∧
        bobID ∈ l2 ∧ l2 = [aliceID, bobID] :=
  ⟨by decide,
   match whitelist_add_keeps_set saveOk (serverAllowing [aliceID]) "whatsapp" bobID [aliceID]
      (by decide) with
   | ⟨l2, h1, h2, _, h4, _, _⟩ => ⟨l2, h1, h2, h4 (by decide)⟩⟩

/-- C13: for a known channel and a user id `u`, after `apiManageWhitelist` with
action `remove` the id does not occur in that channel's allow-list, and the list
consists of exactly the old entries different from `u` in their original order;
removing an absent id keeps the list, and remove after add of an id that the
list did not contain restores the list. -/
theorem whitelist_remove_filters (saveErr : String → Config → Option String) (s : Server)
    (channel u : String) (l : List String) (hl : s.allowFrom? channel = some l) :
    (s.apiManageWhitelist saveErr (whitelistRequestFor channel "remove" u)).server.allowFrom?
        channel = some (l.filter (fun id => decide (id ≠ u))) ∧
      u ∉ l.filter (fun id => decide (id ≠ u)) ∧
      (u ∉ l → l.filter (fun id => decide (id ≠ u)) = l) ∧
      (u ∉ l →
        ((s.apiManageWhitelist saveErr (whitelistRequestFor channel "add" u)).server.apiManageWhitelist
          saveErr (whitelistRequestFor channel "remove" u)).server.allowFrom? channel = some l) := by
  have h1 : (s.apiManageWhitelist saveErr
        (whitelistRequestFor channel "remove" u)).server.allowFrom? channel
      = some (whitelistEdit "remove" l u) :=
    apiManageWhitelist_allowFrom saveErr s
      { Channel := channel, Action := "remove", UserID := u } l hl
  have hrem : ∀ l0 : List String,
      whitelistEdit "remove" l0 u = l0.filter (fun id => decide (id ≠ u)) := by
    intro l0
    simp only [whitelistEdit, whitelistRemove, show ¬ ("remove" = "add") by decide, if_false,
      if_true]
    congr 1
    funext id
    cases h : decide (id = u) <;> simp_all [bne]
  have hkeep : ∀ l0 : List String, u ∉ l0 → l0.filter (fun id => decide (id ≠ u)) = l0 := by
    intro l0 hmem
    rw [List.filter_eq_self]
    intro a ha
    have : a ≠ u := fun e => hmem (e ▸ ha)
    simpa using this
  refine ⟨?_, by simp [List.mem_filter], hkeep l, ?_⟩
  · rw [h1, hrem]
  · intro hmem
    have h2 : (s.apiManageWhitelist saveErr
          (whitelistRequestFor channel "add" u)).server.allowFrom? channel
        = some (whitelistEdit "add" l u) :=
      apiManageWhitelist_allowFrom saveErr s
        { Channel := channel, Action := "add", UserID := u } l hl
    have h3 : ((s.apiManageWhitelist saveErr
          (whitelistRequestFor channel "add" u)).server.apiManageWhitelist saveErr
          (whitelistRequestFor channel "remove" u)).server.allowFrom? channel
        = some (whitelistEdit "remove" (whitelistEdit "add" l u) u) :=
      apiManageWhitelist_allowFrom saveErr
        (s.apiManageWhitelist saveErr (whitelistRequestFor channel "add" u)).server
        { Channel := channel, Action := "remove", UserID := u } (whitelistEdit "add" l u) h2
    rw [h3, hrem]
    congr 1
    have hadd : whitelistEdit "add" l u = l ++ [u] := by
      simp [whitelistEdit, whitelistAdd, hmem]
    rw [hadd, List.filter_append, hkeep l hmem]
    simp

/-- Witness of C13: `alice` is removed from the WhatsApp allow-list in which she
occurs twice. -/
theorem whitelist_remove_filters_witness :
    (serverAllowing [aliceID, bobID, aliceID]).allowFrom? "whatsapp"
        = some [aliceID, bobID, aliceID] ∧
      ((serverAllowing [aliceID, bobID, aliceID]).apiManageWhitelist saveOk
          (whitelistRequestFor "whatsapp" "remove" aliceID)).server.allowFrom? "whatsapp"
        = some ([aliceID, bobID, aliceID].filter (fun id => decide (id ≠ aliceID))) ∧
      [aliceID, bobID, aliceID].filter (fun id => decide (id ≠ aliceID)) = [bobID] :=
  ⟨by decide,
   (whitelist_remove_filters saveOk (serverAllowing [aliceID, bobID, aliceID]) "whatsapp" aliceID
      [aliceID, bobID, aliceID] (by decide)).1,
   by decide⟩

/-- A name outside the five channels has no configuration. -/
theorem get?_of_unknown (ch : ChannelsConfig) (name : String)
    (h : name ∉ ["telegram", "discord", "whatsapp", "feishu", "slack"]) : ch.get? name = none := by
  simp only [List.mem_cons, List.mem_singleton, List.not_mem_nil, or_false, not_or] at h
  obtain ⟨h1, h2, h3, h4, h5⟩ := h
  simp [ChannelsConfig.get?, h1, h2, h3, h4, h5]

/-- C14: `apiManageWhitelist` changes only the allow-list of the channel named in
the request. For every request the enabled flag of every channel is as before,
and so is the allow-list of every channel other than the one the request names.
For a channel name outside the five channels it answers 400 `Unknown channel`,
leaves the server as it is and does not call `SaveConfig`. -/
theorem apiManageWhitelist_changes_named_list_only
    (saveErr : String → Config → Option String) (s : Server) (r : Request WhitelistRequest) :
    (∀ name, (s.apiManageWhitelist saveErr r).server.enabled? name = s.enabled? name) ∧
    (∀ name, (∀ req, r.Body = .ok req → req.Channel ≠ name) →
      (s.apiManageWhitelist saveErr r).server.allowFrom? name = s.allowFrom? name) ∧
    (∀ req, r.Method = "POST" → r.Body = .ok req →
      req.Channel ∉ ["telegram", "discord", "whatsapp", "feishu", "slack"] →
      s.apiManageWhitelist saveErr r =
        { resp := { Status := 400, Body := .text "Unknown channel" }, server := s,
          saveCalls := [] }) := by
  refine ⟨fun name => (apiManageWhitelist_frame saveErr s r name).1,
    fun name h => (apiManageWhitelist_frame saveErr s r name).2 h, ?_⟩
  intro req hm hb hch
  obtain ⟨method, body⟩ := r
  simp only at hm hb
  subst hm hb
  exact (apiManageWhitelist_post saveErr s req).1
    ((editAllowFrom_get s.config.Channels req.Channel _).1 (get?_of_unknown _ _ hch))

/-- C15: `apiToggleChannel` with the name of one of the five channels sets that
channel's enabled flag to the requested value and leaves the enabled flags of
the other channels and every allow-list as they were. For any other channel name
it answers 400 `Unknown channel`, leaves the server as it is and does not call
`SaveConfig`. -/
theorem apiToggleChannel_sets_named_flag_only
    (saveErr : String → Config → Option String) (s : Server) (req : ToggleRequest) :
    (∀ c, s.config.Channels.get? req.Channel = some c →
      (s.apiToggleChannel saveErr { Method := "POST", Body := .ok req }).server.enabled?
          req.Channel = some req.Enabled ∧
        (∀ name, name ≠ req.Channel →
          (s.apiToggleChannel saveErr { Method := "POST", Body := .ok req }).server.enabled? name
            = s.enabled? name) ∧
        (∀ name,
          (s.apiToggleChannel saveErr { Method := "POST", Body := .ok req }).server.allowFrom? name
            = s.allowFrom? name)) ∧
    (req.Channel ∉ ["telegram", "discord", "whatsapp", "feishu", "slack"] →
      s.apiToggleChannel saveErr { Method := "POST", Body := .ok req } =
        { resp := { Status := 400, Body := .text "Unknown channel" }, server := s,
          saveCalls := [] }) := by
  constructor
  · intro c hc
    obtain ⟨ch2, h1, h2, h3⟩ := (setEnabled_get s.config.Channels req.Channel req.Enabled).2 c hc
    rw [(apiToggleChannel_post saveErr s req).2 ch2 h1]
    refine ⟨by simp [Server.enabled?, h2], fun name hn => by simp [Server.enabled?, h3 name hn],
      fun name => ?_⟩
    by_cases hn : name = req.Channel
    · subst hn
      simp [Server.allowFrom?, h2, hc]
    · simp [Server.allowFrom?, h3 name hn]
  · intro hch
    exact (apiToggleChannel_post saveErr s req).1
      ((setEnabled_get s.config.Channels req.Channel req.Enabled).1 (get?_of_unknown _ _ hch))

/-- Witness of C15: Telegram is switched off on a server with every channel on. -/
theorem apiToggleChannel_sets_named_flag_only_witness :
    ((serverAllowing []).apiToggleChannel saveOk (toggleRequest "telegram" false)).server.enabled?
        "telegram" = some false ∧
      ((serverAllowing []).apiToggleChannel saveOk (toggleRequest "telegram" false)).server.enabled?
        "slack" = some true ∧
      (serverAllowing []).apiToggleChannel saveOk (toggleRequest "sms" false) =
        { resp := { Status := 400, Body := .text "Unknown channel" }, server := serverAllowing [],
          saveCalls := [] } :=
  ⟨((apiToggleChannel_sets_named_flag_only saveOk (serverAllowing [])
      { Channel := "telegram", Enabled := false }).1 _ rfl).1,
   by decide,
   (apiToggleChannel_sets_named_flag_only saveOk (serverAllowing [])
      { Channel := "sms", Enabled := false }).2 (by decide)⟩

/-- C16: `apiSaveConfig` saves, then swaps. A body that does not decode is
answered with 400 and a failed `SaveConfig` with 500, and the server is then as
it was; when `SaveConfig` succeeds the answer is `ok` and `apiGetConfig` serves
the decoded configuration. So the configuration in memory is replaced by the
decoded one exactly when it was persisted: whenever the configuration in memory
differs from the one before, the request carried it and `SaveConfig` accepted
it. -/
theorem apiSaveConfig_save_then_swap (saveErr : String → Config → Option String) (s : Server)
    (r : Request Config) :
    (∀ e, r.Method = "POST" → r.Body = .error e →
      s.apiSaveConfig saveErr r =
        { resp := { Status := 400, Body := .text e }, server := s, saveCalls := [] }) ∧
    (∀ cfg e, r.Method = "POST" → r.Body = .ok cfg → saveErr s.configPath cfg = some e →
      s.apiSaveConfig saveErr r =
        { resp := { Status := 500, Body := .text e }, server := s, saveCalls := [cfg] }) ∧
    (∀ cfg, r.Method = "POST" → r.Body = .ok cfg → saveErr s.configPath cfg = none →
      (s.apiSaveConfig saveErr r).resp = statusOk ∧
        (s.apiSaveConfig saveErr r).server.apiGetConfig = cfg ∧
        (s.apiSaveConfig saveErr r).saveCalls = [cfg]) ∧
    ((s.apiSaveConfig saveErr r).server.config ≠ s.config →
      ∃ cfg, r.Body = .ok cfg ∧ saveErr s.configPath cfg = none ∧
        (s.apiSaveConfig saveErr r).server.config = cfg) := by
  obtain ⟨method, body⟩ := r
  by_cases hm : method = "POST"
  · subst hm
    cases body with
    | error e0 =>
      refine ⟨?_, ?_, ?_, ?_⟩
      · intro e _ hb
        cases hb
        simp [Server.apiSaveConfig]
      · intro cfg e _ hb
        cases hb
      · intro cfg _ hb
        cases hb
      · intro h
        simp [Server.apiSaveConfig] at h
    | ok cfg0 =>
      cases hs : saveErr s.configPath cfg0 with
      | some e0 =>
        refine ⟨?_, ?_, ?_, ?_⟩
        · intro e _ hb
          cases hb
        · intro cfg e _ hb hse
          cases hb
          rw [hs] at hse
          cases hse
          simp [Server.apiSaveConfig, hs]
        · intro cfg _ hb hse
          cases hb
          rw [hs] at hse
          cases hse
        · intro h
          simp [Server.apiSaveConfig, hs] at h
      | none =>
        refine ⟨?_, ?_, ?_, ?_⟩
        · intro e _ hb
          cases hb
        · intro cfg e _ hb hse
          cases hb
          rw [hs] at hse
          cases hse
        · intro cfg _ hb _
          cases hb
          simp [Server.apiSaveConfig, hs, Server.apiGetConfig]
        · intro _
          exact ⟨cfg0, rfl, hs, by simp [Server.apiSaveConfig, hs]⟩
  · refine ⟨fun e h => absurd h hm, fun cfg e h => absurd h hm, fun cfg h => absurd h hm, ?_⟩
    intro h
    simp [Server.apiSaveConfig, hm] at h

/-- C17, the code at the failing input: on a server with every channel enabled
and an empty WhatsApp allow-list, and with a `SaveConfig` that fails, the toggle
request answers 500 and leaves Telegram disabled in memory, and the allow-list
request answers 500 and leaves `alice` on the list in memory. -/
theorem config_edit_kept_after_failed_save :
    (serverAllowing []).enabled? "telegram" = some true ∧
    ((serverAllowing []).apiToggleChannel saveFails (toggleRequest "telegram" false)).resp.Status
      = 500 ∧
    ((serverAllowing []).apiToggleChannel saveFails (toggleRequest "telegram" false)).server.enabled?
        "telegram" = some false ∧
    (serverAllowing []).allowFrom? "whatsapp" = some [] ∧
    ((serverAllowing []).apiManageWhitelist saveFails
        (whitelistRequestFor "whatsapp" "add" aliceID)).resp.Status = 500 ∧
    ((serverAllowing []).apiManageWhitelist saveFails
        (whitelistRequestFor "whatsapp" "add" aliceID)).server.allowFrom? "whatsapp"
      = some [aliceID] := by
  refine ⟨by decide, by decide, by decide, by decide, by decide, by decide⟩

/-! ## Theorems: paths of the identity files -/

theorem renderPath_snoc (rooted : Bool) (elems : List (List Char)) (x : List Char)
    (h : NormalElems rooted elems) (he : elems ≠ []) :
    renderPath rooted (elems ++ [x]) = renderPath rooted elems ++ '/' :: x := by
  have hjoin := joinSlash_snoc elems x he
  obtain ⟨hj1, -⟩ := joinSlash_ne_nil elems he (normalElems_not_mem rooted elems h)
  cases rooted with
  | true => simp [renderPath_true, hjoin]
  | false =>
    rw [renderPath_false elems hj1, renderPath_false (elems ++ [x]) (by simp [hjoin]), hjoin]

/-- A plain name joined to a directory that is itself the join of a workspace
and a plain name: the directory, a separator, the name. -/
theorem joinTwo_child (ws sub name : List Char) (hs : PlainElem sub) (hn : PlainElem name) :
    joinTwo (joinTwo ws sub) name = joinTwo ws sub ++ '/' :: name := by
  have hnorm := normalElems_snoc _ _ sub (cleanElems_normal (isRooted ws) ws) hs
  obtain ⟨hc, hr, -⟩ := cleanElems_renderPath (isRooted ws) _ hnorm
  rw [joinTwo_eq ws sub hs, joinTwo_eq _ name hn, hr, hc]
  exact renderPath_snoc _ _ name hnorm (by simp)

/-- A file directly in the workspace is not a file of a subdirectory. -/
theorem joinTwo_ne_child (ws sub name top : List Char) (hs : PlainElem sub)
    (hn : PlainElem name) (ht : PlainElem top) :
    joinTwo ws top ≠ joinTwo (joinTwo ws sub) name := by
  have hnorm0 := cleanElems_normal (isRooted ws) ws
  have hnorm := normalElems_snoc _ _ sub hnorm0 hs
  obtain ⟨hc, hr, -⟩ := cleanElems_renderPath (isRooted ws) _ hnorm
  intro h
  rw [joinTwo_eq ws sub hs, joinTwo_eq _ name hn, hr, hc, joinTwo_eq ws top ht] at h
  have h1 := (cleanElems_renderPath _ _ (normalElems_snoc _ _ top hnorm0 ht)).1
  have h2 := (cleanElems_renderPath _ _ (normalElems_snoc _ _ name hnorm hn)).1
  rw [h, h2] at h1
  have := congrArg List.length h1
  simp at this

theorem plainElem_of_string (name : String) (h1 : name.data ≠ []) (h2 : '/' ∉ name.data)
    (h3 : name ≠ ".") (h4 : name ≠ "..") : PlainElem name.data := by
  refine ⟨h1, h2, fun e => h3 ?_, fun e => h4 ?_⟩
  · cases name; simp only at e; subst e; rfl
  · cases name; simp only at e; subst e; rfl

/-- The identity file `name` of the workspace `ws`: its path is the directory of
the identities, a separator and the name. -/
theorem Join_identities (ws name : String) (hn : PlainElem name.data) :
    Join [Join [ws, "identities"], name]
      = String.mk ((Join [ws, "identities"]).data ++ '/' :: name.data) := by
  have hs : PlainElem "identities".data := ⟨by decide, by decide, by decide, by decide⟩
  rw [Join_pair _ name hn.1, Join_pair ws "identities" hs.1]
  simp only
  rw [joinTwo_child ws.data _ name.data hs hn]

/-- Two identity files with the same path have the same name. -/
theorem Join_identities_injective (ws n m : String) (hn : PlainElem n.data)
    (hm : PlainElem m.data)
    (h : Join [Join [ws, "identities"], n] = Join [Join [ws, "identities"], m]) : n = m := by
  rw [Join_identities ws n hn, Join_identities ws m hm] at h
  have h2 := congrArg String.data h
  simp only [List.append_cancel_left_eq, List.cons.injEq, true_and] at h2
  cases n; cases m; simp only at h2; subst h2; rfl

/-- A persona file of the workspace is no identity file. -/
theorem Join_persona_ne_identity (ws top name : String) (ht : PlainElem top.data)
    (hn : PlainElem name.data) :
    Join [ws, top] ≠ Join [Join [ws, "identities"], name] := by
  have hs : PlainElem "identities".data := ⟨by decide, by decide, by decide, by decide⟩
  rw [Join_pair ws top ht.1, Join_pair _ name hn.1, Join_pair ws "identities" hs.1]
  intro h
  exact joinTwo_ne_child ws.data _ name.data top.data hs hn ht (congrArg String.data h)

/-- Two persona files with different names have different paths. -/
theorem Join_persona_ne (ws a b : String) (ha : PlainElem a.data) (hb : PlainElem b.data)
    (hab : a ≠ b) : Join [ws, a] ≠ Join [ws, b] := by
  rw [Join_pair ws a ha.1, Join_pair ws b hb.1]
  intro h
  have h2 := joinTwo_injective _ _ _ ha hb (congrArg String.data h)
  apply hab
  cases a; cases b; simp only at h2; subst h2; rfl

/-- The elements of a path that ends in `tail`, a text without separator: the
elements of the path before it, with `tail` added to the last one. -/
theorem splitSlash_append_tail (a tail : List Char) (ht : '/' ∉ tail) :
    ∃ init last, splitSlash a = init ++ [last] ∧ splitSlash (a ++ tail) = init ++ [last ++ tail] := by
  induction a with
  | nil => exact ⟨[], [], rfl, by simpa using splitSlash_of_not_mem tail ht⟩
  | cons c cs ih =>
    obtain ⟨init, last, h1, h2⟩ := ih
    by_cases hc : c = '/'
    · refine ⟨[] :: init, last, ?_, ?_⟩
      · simp [splitSlash, hc, h1]
      · simp [splitSlash, hc, h2]
    · have e1 : splitSlash (c :: cs) =
          match splitSlash cs with
          | [] => [[c]]
          | w :: ws => (c :: w) :: ws := by
        simp [splitSlash, hc]
      have e2 : splitSlash (c :: cs ++ tail) =
          match splitSlash (cs ++ tail) with
          | [] => [[c]]
          | w :: ws => (c :: w) :: ws := by
        simp [splitSlash, hc]
      rw [e1, e2, h1, h2]
      cases init with
      | nil => exact ⟨[], c :: last, rfl, rfl⟩
      | cons w ws => exact ⟨(c :: w) :: ws, last, rfl, rfl⟩

/-- The cleaned form of a path that ends in a text of three or more characters
without separator: its last element ends in that text. -/
theorem cleanChars_tail (a tail : List Char) (ht : '/' ∉ tail) (hlen : 3 ≤ tail.length) :
    ∃ rooted elems last, cleanChars (a ++ tail) = renderPath rooted (elems ++ [last ++ tail]) ∧
      NormalElems rooted (elems ++ [last ++ tail]) := by
  obtain ⟨init, last, h1, h2⟩ := splitSlash_append_tail a tail ht
  have hlast : '/' ∉ last := by
    have hmem : last ∈ splitSlash a := by rw [h1]; simp
    exact splitSlash_not_mem a last hmem
  have hplain : PlainElem (last ++ tail) := by
    refine ⟨?_, ?_, ?_, ?_⟩
    · intro e
      have := congrArg List.length e
      simp only [List.length_append, List.length_nil] at this
      omega
    · simp only [List.mem_append, not_or]
      exact ⟨hlast, ht⟩
    · intro e
      have := congrArg List.length e
      simp only [List.length_append, List.length_cons, List.length_nil] at this
      omega
    · intro e
      have := congrArg List.length e
      simp only [List.length_append, List.length_cons, List.length_nil] at this
      omega
  have helems : cleanElems (isRooted (a ++ tail)) (a ++ tail)
      = (init.foldl (cleanStep (isRooted (a ++ tail))) []).reverse ++ [last ++ tail] := by
    simp only [cleanElems, h2, List.foldl_append, List.foldl_cons, List.foldl_nil]
    rw [cleanStep_plain _ _ _ hplain]
    simp
  refine ⟨isRooted (a ++ tail), (init.foldl (cleanStep (isRooted (a ++ tail))) []).reverse,
    last, ?_, ?_⟩
  · unfold cleanChars
    rw [helems]
  · rw [← helems]
    exact cleanElems_normal _ _

/-- Two cleaned paths whose last elements differ are different. -/
theorem renderPath_ne (r1 r2 : Bool) (e1 e2 : List (List Char)) (x1 x2 : List Char)
    (h1 : NormalElems r1 (e1 ++ [x1])) (h2 : NormalElems r2 (e2 ++ [x2])) (hx : x1 ≠ x2) :
    renderPath r1 (e1 ++ [x1]) ≠ renderPath r2 (e2 ++ [x2]) := by
  intro h
  obtain ⟨hc1, hr1, -⟩ := cleanElems_renderPath r1 _ h1
  obtain ⟨hc2, hr2, -⟩ := cleanElems_renderPath r2 _ h2
  have hr : r1 = r2 := by rw [← hr1, ← hr2, h]
  subst hr
  rw [h, hc2] at hc1
  have hlast := (List.append_inj' hc1 rfl).2
  simp only [List.cons.injEq, and_true] at hlast
  exact hx hlast.symm

/-- The file of an identity, whatever its id, is none of the persona files. -/
theorem Join_identity_ne_persona (ws id top : String) (ht : PlainElem top.data)
    (hd : top.data.reverse.head? ≠ some 'n') :
    Join [Join [ws, "identities"], id ++ ".json"] ≠ Join [ws, top] := by
  have hx : (id ++ ".json").data ≠ [] := by simp
  rw [Join_pair _ _ hx, Join_pair ws top ht.1]
  intro h
  have h2 := congrArg String.data h
  simp only at h2
  rw [joinTwo_eq ws.data top.data ht] at h2
  have hnorm := normalElems_snoc _ _ top.data (cleanElems_normal (isRooted ws.data) ws.data) ht
  have hjson : '/' ∉ ".json".data := by decide
  have hdiff : ∀ last : List Char, last ++ ".json".data ≠ top.data := by
    intro last e
    apply hd
    rw [← e]
    simp only [List.reverse_append]
    rfl
  unfold joinTwo at h2
  split at h2
  · have hsplit : (id ++ ".json").data = id.data ++ ".json".data := by simp
    rw [hsplit] at h2
    obtain ⟨rooted, elems, last, hc, hn⟩ := cleanChars_tail id.data _ hjson (by decide)
    rw [hc] at h2
    exact renderPath_ne _ _ _ _ _ _ hn hnorm (hdiff last) h2
  · rename_i hdir
    have hsplit : (Join [ws, "identities"]).data ++ '/' :: (id ++ ".json").data
        = ((Join [ws, "identities"]).data ++ '/' :: id.data) ++ ".json".data := by simp
    rw [hsplit] at h2
    obtain ⟨rooted, elems, last, hc, hn⟩ := cleanChars_tail
      ((Join [ws, "identities"]).data ++ '/' :: id.data) _ hjson (by decide)
    rw [hc] at h2
    exact renderPath_ne _ _ _ _ _ _ hn hnorm (hdiff last) h2

theorem stripLead_append (lead rest : List Char) : stripLead lead (lead ++ rest) = some rest := by
  induction lead with
  | nil => cases rest <;> rfl
  | cons a l ih => simp [stripLead, ih]

theorem mapGet_mem {α : Type} (m : List (String × α)) (k : String) (v : α)
    (h : mapGet m k = some v) : (k, v) ∈ m := by
  simp only [mapGet, Option.map_eq_some'] at h
  obtain ⟨p, hp, rfl⟩ := h
  have h1 := List.find?_some hp
  have h2 := List.mem_of_find?_eq_some hp
  simp only [beq_iff_eq] at h1
  rw [← h1]
  exact h2

/-- Every file that exists directly in a directory is listed by `ReadDir`. -/
theorem mem_ReadDir (d : Disk) (dir name : List Char) (x : FileData)
    (h : mapGet d (String.mk (dir ++ '/' :: name)) = some x) (h1 : name ≠ [])
    (h2 : '/' ∉ name) : String.mk name ∈ ReadDir d (String.mk dir) := by
  have hm := mapGet_mem d _ x h
  simp only [ReadDir, List.mem_dedup, List.mem_filterMap]
  refine ⟨_, hm, ?_⟩
  have hsplit : dir ++ '/' :: name = (dir ++ ['/']) ++ name := by simp
  simp only [childName]
  rw [hsplit, stripLead_append]
  simp [h1, h2]

/-- The names `ReadDir` lists are file names. -/
theorem ReadDir_names (d : Disk) (dir name : String) (h : name ∈ ReadDir d dir) :
    name.data ≠ [] ∧ '/' ∉ name.data := by
  simp only [ReadDir, List.mem_dedup, List.mem_filterMap, Option.map_eq_some'] at h
  obtain ⟨e, -, n, hn, rfl⟩ := h
  simp only [childName] at hn
  split at hn
  · split at hn
    · rename_i hcond
      simp only [Option.some.injEq] at hn
      subst hn
      exact hcond
    · simp at hn
  · simp at hn

theorem Ext_json (id : String) : Ext (id ++ ".json") = ".json" := by
  simp only [Ext, String.data_append, List.reverse_append]
  rfl

theorem plainElem_of_Ext_json (name : String) (h1 : name.data ≠ []) (h2 : '/' ∉ name.data)
    (h : Ext name = ".json") : PlainElem name.data := by
  refine plainElem_of_string name h1 h2 ?_ ?_
  · intro e; subst e; exact absurd h (by decide)
  · intro e; subst e; exact absurd h (by decide)

theorem plainElem_id_json (id : String) (h : '/' ∉ id.data) :
    PlainElem (id ++ ".json").data := by
  refine plainElem_of_Ext_json _ ?_ ?_ (Ext_json id)
  · simp
  · simp only [String.data_append, List.mem_append, not_or]
    exact ⟨h, by decide⟩

/-! ## Theorems: activation of an identity -/

theorem storedIdentity_iff (d : Disk) (dir name : String) (i : BotIdentity) :
    storedIdentity d dir name = some i ↔ mapGet d (Join [dir, name]) = some (.identityJSON i) := by
  unfold storedIdentity diskRead
  cases h : mapGet d (Join [dir, name]) with
  | none => simp
  | some x => cases x <;> simp

theorem deactivated_idem (reqID : String) (x : Option FileData) :
    deactivated reqID (deactivated reqID x) = deactivated reqID x := by
  cases x with
  | none => rfl
  | some data =>
    cases data with
    | bytes b => rfl
    | unreadable => rfl
    | identityJSON i =>
      by_cases h : i.ID ≠ reqID ∧ i.IsActive = true
      · simp [deactivated, h]
      · simp [deactivated, h]

/-- An identity document that comes out of the loop is inactive unless it holds
the requested id. -/
theorem deactivated_identity (reqID : String) (x : Option FileData) (i : BotIdentity)
    (h : deactivated reqID x = some (.identityJSON i)) :
    ∃ i0, x = some (.identityJSON i0) ∧ i.ID = i0.ID ∧ i.AgentMD = i0.AgentMD ∧
      i.IdentityMD = i0.IdentityMD ∧ i.SoulMD = i0.SoulMD ∧ i.UserMD = i0.UserMD ∧
      (i0.ID ≠ reqID → i.IsActive = false) := by
  cases x with
  | none => simp [deactivated] at h
  | some data =>
    cases data with
    | bytes b => simp [deactivated] at h
    | unreadable => simp [deactivated] at h
    | identityJSON i0 =>
      refine ⟨i0, rfl, ?_⟩
      by_cases hc : i0.ID ≠ reqID ∧ i0.IsActive = true
      · have h2 : some (FileData.identityJSON { i0 with IsActive := false })
            = some (FileData.identityJSON i) := by
          rw [← h]; simp [deactivated, hc]
        simp only [Option.some.injEq, FileData.identityJSON.injEq] at h2
        subst h2
        simp
      · have h2 : some (FileData.identityJSON i0) = some (FileData.identityJSON i) := by
          rw [← h]; simp [deactivated, hc]
        simp only [Option.some.injEq, FileData.identityJSON.injEq] at h2
        subst h2
        refine ⟨rfl, rfl, rfl, rfl, rfl, fun hne => ?_⟩
        simp only [not_and] at hc
        simpa using hc hne

/-- One pass of the loop body over a file that can be written. -/
theorem deactivateFile_get (env : DiskEnv) (reqID q : String) (d : Disk)
    (hw : env.writeErr q = none) (p : String) :
    mapGet (deactivateFile env reqID q d) p
      = if p = q then deactivated reqID (mapGet d q) else mapGet d p := by
  unfold deactivateFile diskRead
  cases hg : mapGet d q with
  | none =>
    by_cases hp : p = q
    · simp [hp, hg, deactivated]
    · simp [hp]
  | some data =>
    cases data with
    | bytes b =>
      by_cases hp : p = q
      · simp [hp, hg, deactivated, Unmarshal]
      · simp [hp, Unmarshal]
    | unreadable =>
      by_cases hp : p = q
      · simp [hp, hg, deactivated]
      · simp [hp]
    | identityJSON i =>
      by_cases hc : i.ID ≠ reqID ∧ i.IsActive = true
      · by_cases hp : p = q
        · subst hp
          simp [Unmarshal, hc, diskWrite, hw, deactivated, mapGet_mapSet_same]
        · simp [Unmarshal, hc, diskWrite, hw, hp, mapGet_mapSet_other _ _ _ _ hp]
      · by_cases hp : p = q
        · subst hp
          simp [Unmarshal, hc, deactivated, hg]
        · simp [Unmarshal, hc, hp]

/-- The loop over the names of the directory, when the files it visits can be
written: each visited file is what `deactivated` makes of it, the others are
untouched. -/
theorem deactivateOthers_get (env : DiskEnv) (dir reqID : String) (names : List String)
    (hw : ∀ n ∈ names, Ext n = ".json" → env.writeErr (Join [dir, n]) = none) :
    ∀ (d : Disk) (p : String),
      ((∃ n ∈ names, Ext n = ".json" ∧ Join [dir, n] = p) →
        mapGet (deactivateOthers env dir reqID names d) p = deactivated reqID (mapGet d p)) ∧
      ((¬ ∃ n ∈ names, Ext n = ".json" ∧ Join [dir, n] = p) →
        mapGet (deactivateOthers env dir reqID names d) p = mapGet d p) := by
  induction names with
  | nil =>
    intro d p
    exact ⟨fun h => by simp at h, fun _ => rfl⟩
  | cons n rest ih =>
    intro d p
    have hw2 : ∀ m ∈ rest, Ext m = ".json" → env.writeErr (Join [dir, m]) = none :=
      fun m hm => hw m (by simp [hm])
    by_cases hext : Ext n = ".json"
    · have hstep := deactivateFile_get env reqID (Join [dir, n]) d (hw n (by simp) hext) p
      obtain ⟨ih1, ih2⟩ := ih hw2 (deactivateFile env reqID (Join [dir, n]) d) p
      simp only [deactivateOthers, hext, if_true]
      by_cases hrest : ∃ m ∈ rest, Ext m = ".json" ∧ Join [dir, m] = p
      · refine ⟨fun _ => ?_, fun hno => ?_⟩
        · rw [ih1 hrest, hstep]
          by_cases hp : p = Join [dir, n]
          · simp only [hp, if_true]
            exact deactivated_idem _ _
          · simp only [hp, if_false]
        · obtain ⟨m, hm, hm2⟩ := hrest
          exact absurd ⟨m, by simp [hm], hm2⟩ hno
      · refine ⟨fun hex => ?_, fun hno => ?_⟩
        · rw [ih2 hrest, hstep]
          obtain ⟨m, hm, hme, hmp⟩ := hex
          simp only [List.mem_cons] at hm
          rcases hm with rfl | hm
          · simp [hmp]
          · exact absurd ⟨m, hm, hme, hmp⟩ hrest
        · rw [ih2 hrest, hstep]
          have hp : p ≠ Join [dir, n] := fun e => hno ⟨n, by simp, hext, e.symm⟩
          simp [hp]
    · obtain ⟨ih1, ih2⟩ := ih hw2 d p
      simp only [deactivateOthers, hext, if_false]
      refine ⟨fun hex => ?_, fun hno => ?_⟩
      · apply ih1
        obtain ⟨m, hm, hme, hmp⟩ := hex
        simp only [List.mem_cons] at hm
        rcases hm with rfl | hm
        · exact absurd hme hext
        · exact ⟨m, hm, hme, hmp⟩
      · apply ih2
        intro ⟨m, hm, hm2⟩
        exact hno ⟨m, by simp [hm], hm2⟩

/-- One pass of the loop body, whether or not its write succeeds: the content of
a file is as before or what `deactivated` makes of it. -/
theorem deactivateFile_get_weak (env : DiskEnv) (reqID q : String) (d : Disk) (p : String) :
    mapGet (deactivateFile env reqID q d) p = mapGet d p ∨
      mapGet (deactivateFile env reqID q d) p = deactivated reqID (mapGet d p) := by
  cases hw : env.writeErr q with
  | none =>
    rw [deactivateFile_get env reqID q d hw p]
    by_cases hp : p = q
    · subst hp; simp
    · simp [hp]
  | some e =>
    left
    have hsame : deactivateFile env reqID q d = d := by
      unfold deactivateFile
      split
      · rfl
      · split
        · rfl
        · simp [diskWrite, hw]
    rw [hsame]

/-- The loop, whether or not its writes succeed. -/
theorem deactivateOthers_get_weak (env : DiskEnv) (dir reqID : String) (names : List String) :
    ∀ (d : Disk) (p : String),
      mapGet (deactivateOthers env dir reqID names d) p = mapGet d p ∨
        mapGet (deactivateOthers env dir reqID names d) p = deactivated reqID (mapGet d p) := by
  induction names with
  | nil => intro d p; exact Or.inl rfl
  | cons n rest ih =>
    intro d p
    by_cases hext : Ext n = ".json"
    · simp only [deactivateOthers, hext, if_true]
      rcases ih (deactivateFile env reqID (Join [dir, n]) d) p with h | h
      · rw [h]
        exact deactivateFile_get_weak env reqID _ d p
      · rw [h]
        rcases deactivateFile_get_weak env reqID (Join [dir, n]) d p with h2 | h2
        · rw [h2]; exact Or.inr rfl
        · rw [h2, deactivated_idem]; exact Or.inr rfl
    · simp only [deactivateOthers, hext, if_false]
      exact ih d p

/-- What `deactivated` makes of an identity document is an identity document
with the same id and the same four texts. -/
theorem deactivated_texts (reqID : String) (i : BotIdentity) :
    ∃ j, deactivated reqID (some (.identityJSON i)) = some (.identityJSON j) ∧
      j.AgentMD = i.AgentMD ∧ j.IdentityMD = i.IdentityMD ∧ j.SoulMD = i.SoulMD ∧
      j.UserMD = i.UserMD := by
  by_cases hc : i.ID ≠ reqID ∧ i.IsActive = true
  · exact ⟨{ i with IsActive := false }, by simp [deactivated, hc], rfl, rfl, rfl, rfl⟩
  · exact ⟨i, by simp [deactivated, hc], rfl, rfl, rfl, rfl⟩

theorem statusError_ne_activatedOk (e : String) : statusError e ≠ activatedOk := by
  simp [statusError, activatedOk]

/-- The persona writes touch the four persona files only. -/
theorem writePersona_other (env : DiskEnv) (ws : String) (identity : BotIdentity) (d : Disk)
    (p : String) (h1 : p ≠ Join [ws, "AGENT.md"]) (h2 : p ≠ Join [ws, "IDENTITY.md"])
    (h3 : p ≠ Join [ws, "SOUL.md"]) (h4 : p ≠ Join [ws, "USER.md"]) :
    mapGet (writePersona env ws identity d).2 p = mapGet d p := by
  unfold writePersona
  cases env.writeErr (Join [ws, "AGENT.md"]) with
  | some e => rfl
  | none =>
    cases env.writeErr (Join [ws, "IDENTITY.md"]) with
    | some e => simp [mapGet_mapSet_other _ _ _ _ h1]
    | none =>
      cases env.writeErr (Join [ws, "SOUL.md"]) with
      | some e => simp [mapGet_mapSet_other _ _ _ _ h1, mapGet_mapSet_other _ _ _ _ h2]
      | none =>
        cases env.writeErr (Join [ws, "USER.md"]) with
        | some e =>
          simp [mapGet_mapSet_other _ _ _ _ h1, mapGet_mapSet_other _ _ _ _ h2,
            mapGet_mapSet_other _ _ _ _ h3]
        | none =>
          simp [mapGet_mapSet_other _ _ _ _ h1, mapGet_mapSet_other _ _ _ _ h2,
            mapGet_mapSet_other _ _ _ _ h3, mapGet_mapSet_other _ _ _ _ h4]

theorem plainElem_persona :
    PlainElem "AGENT.md".data ∧ PlainElem "IDENTITY.md".data ∧ PlainElem "SOUL.md".data ∧
      PlainElem "USER.md".data :=
  ⟨⟨by decide, by decide, by decide, by decide⟩, ⟨by decide, by decide, by decide, by decide⟩,
   ⟨by decide, by decide, by decide, by decide⟩, ⟨by decide, by decide, by decide, by decide⟩⟩

/-- When the persona writes answer `ok`, the four files hold the four texts. -/
theorem writePersona_ok (env : DiskEnv) (ws : String) (identity : BotIdentity) (d : Disk)
    (h : (writePersona env ws identity d).1 = activatedOk) :
    mapGet (writePersona env ws identity d).2 (Join [ws, "AGENT.md"])
        = some (.bytes identity.AgentMD) ∧
      mapGet (writePersona env ws identity d).2 (Join [ws, "IDENTITY.md"])
        = some (.bytes identity.IdentityMD) ∧
      mapGet (writePersona env ws identity d).2 (Join [ws, "SOUL.md"])
        = some (.bytes identity.SoulMD) ∧
      mapGet (writePersona env ws identity d).2 (Join [ws, "USER.md"])
        = some (.bytes identity.UserMD) := by
  obtain ⟨pa, pi, ps, pu⟩ := plainElem_persona
  have hai := Join_persona_ne ws "AGENT.md" "IDENTITY.md" pa pi (by decide)
  have has := Join_persona_ne ws "AGENT.md" "SOUL.md" pa ps (by decide)
  have hau := Join_persona_ne ws "AGENT.md" "USER.md" pa pu (by decide)
  have his := Join_persona_ne ws "IDENTITY.md" "SOUL.md" pi ps (by decide)
  have hiu := Join_persona_ne ws "IDENTITY.md" "USER.md" pi pu (by decide)
  have hsu := Join_persona_ne ws "SOUL.md" "USER.md" ps pu (by decide)
  unfold writePersona at h ⊢
  cases h1 : env.writeErr (Join [ws, "AGENT.md"]) with
  | some e => simp [h1, statusError_ne_activatedOk] at h
  | none =>
    cases h2 : env.writeErr (Join [ws, "IDENTITY.md"]) with
    | some e => simp [h1, h2, statusError_ne_activatedOk] at h
    | none =>
      cases h3 : env.writeErr (Join [ws, "SOUL.md"]) with
      | some e => simp [h1, h2, h3, statusError_ne_activatedOk] at h
      | none =>
        cases h4 : env.writeErr (Join [ws, "USER.md"]) with
        | some e => simp [h1, h2, h3, h4, statusError_ne_activatedOk] at h
        | none =>
          simp only
          refine ⟨?_, ?_, ?_, ?_⟩
          · rw [mapGet_mapSet_other _ _ _ _ hau, mapGet_mapSet_other _ _ _ _ has,
              mapGet_mapSet_other _ _ _ _ hai, mapGet_mapSet_same]
          · rw [mapGet_mapSet_other _ _ _ _ hiu, mapGet_mapSet_other _ _ _ _ his,
              mapGet_mapSet_same]
          · rw [mapGet_mapSet_other _ _ _ _ hsu, mapGet_mapSet_same]
          · rw [mapGet_mapSet_same]

/-- An activation that answers `ok` found an identity document at the path of
the requested id and ran the loop, the write of the identity and the persona
writes. -/
theorem apiActivateIdentity_ok (env : DiskEnv) (s : Server) (d : Disk) (r : Request IDRequest)
    (h : (s.apiActivateIdentity env d r).1 = activatedOk) :
    ∃ req identity, r.Method = "POST" ∧ r.Body = .ok req ∧
      mapGet d (Join [Join [s.config.WorkspacePath, "identities"], req.ID ++ ".json"])
        = some (.identityJSON identity) ∧
      s.apiActivateIdentity env d r =
        writePersona env s.config.WorkspacePath { identity with IsActive := true }
          (diskWrite env
            (deactivateOthers env (Join [s.config.WorkspacePath, "identities"]) req.ID
              (if env.readDirFails (Join [s.config.WorkspacePath, "identities"]) then []
               else ReadDir d (Join [s.config.WorkspacePath, "identities"])) d)
            (Join [Join [s.config.WorkspacePath, "identities"], req.ID ++ ".json"])
            (.identityJSON { identity with IsActive := true })) := by
  obtain ⟨method, body⟩ := r
  by_cases hm : method = "POST"
  · subst hm
    cases body with
    | error e => simp [Server.apiActivateIdentity, statusError_ne_activatedOk] at h
    | ok req =>
      refine ⟨req, ?_⟩
      simp only [Server.apiActivateIdentity] at h ⊢
      simp only [show ¬ ("POST" ≠ "POST") by decide, if_false] at h ⊢
      unfold diskRead at h ⊢
      cases hg : mapGet d (Join [Join [s.config.WorkspacePath, "identities"], req.ID ++ ".json"])
        with
      | none => simp [hg, statusError_ne_activatedOk] at h
      | some data =>
        cases data with
        | unreadable => simp [hg, statusError_ne_activatedOk] at h
        | bytes b => simp [hg, Unmarshal, statusError_ne_activatedOk] at h
        | identityJSON identity =>
          refine ⟨identity, trivial, trivial, rfl, ?_⟩
          simp [Unmarshal]
  · simp [Server.apiActivateIdentity, hm, activatedOk] at h

theorem string_append_right_cancel (a b c : String) (h : a ++ c = b ++ c) : a = b := by
  have h2 := congrArg String.data h
  simp only [String.data_append, List.append_cancel_right_eq] at h2
  cases a; cases b; simp only at h2; subst h2; rfl

/-- Counterexample to C18 as stated, on two workspace states. In the first a
hand-made copy of the active identity `coder` lies next to it as `backup.json`:
activating `coder` answers `ok` and leaves two stored identities active. In the
second the id `../guest` resolves to a file outside the directory of the
identities: activating it answers `ok` and leaves no identity stored under
`identities/` active. -/
theorem activate_ok_without_one_active :
    ((serverAllowing []).apiActivateIdentity okDisk copiedDisk (activateRequest "coder")).1
      = activatedOk ∧
    (storedIdentity
        ((serverAllowing []).apiActivateIdentity okDisk copiedDisk (activateRequest "coder")).2
        "/home/claw/workspace/identities" "coder.json").map (fun i => i.IsActive) = some true ∧
    (storedIdentity
        ((serverAllowing []).apiActivateIdentity okDisk copiedDisk (activateRequest "coder")).2
        "/home/claw/workspace/identities" "backup.json").map (fun i => i.IsActive) = some true ∧
    ((serverAllowing []).apiActivateIdentity okDisk outsideDisk (activateRequest "../guest")).1
      = activatedOk ∧
    ReadDir
        ((serverAllowing []).apiActivateIdentity okDisk outsideDisk (activateRequest "../guest")).2
        "/home/claw/workspace/identities" = ["coder.json", "poet.json"] ∧
    (storedIdentity
        ((serverAllowing []).apiActivateIdentity okDisk outsideDisk (activateRequest "../guest")).2
        "/home/claw/workspace/identities" "coder.json").map (fun i => i.IsActive) = some false ∧
    (storedIdentity
        ((serverAllowing []).apiActivateIdentity okDisk outsideDisk (activateRequest "../guest")).2
        "/home/claw/workspace/identities" "poet.json").map (fun i => i.IsActive) = some false := by
  refine ⟨by decide, by decide, by decide, by decide, by decide, by decide, by decide⟩

/-- C18 (amended): let the stored identities be named after their ids (the
identity with id `x` is the file `x.json` of `identities/`), let the requested
id be a file name (no separator in it), and let the listing of the directory and
the writes of its `.json` files succeed. Then for every id for which
`apiActivateIdentity` answers `ok`, afterwards the identity stored in `id.json`
has the requested id and is active, and every other stored identity is
inactive: exactly one stored identity is active. -/
theorem activate_leaves_one_active (env : DiskEnv) (s : Server) (d : Disk) (id : String)
    (hid : '/' ∉ id.data)
    (hnames : NamedById d (Join [s.config.WorkspacePath, "identities"]))
    (hwrite : IdentityFilesWritable env (Join [s.config.WorkspacePath, "identities"]))
    (hdir : env.readDirFails (Join [s.config.WorkspacePath, "identities"]) = false)
    (hok : (s.apiActivateIdentity env d (activateRequest id)).1 = activatedOk) :
    (∃ i, storedIdentity (s.apiActivateIdentity env d (activateRequest id)).2
        (Join [s.config.WorkspacePath, "identities"]) (id ++ ".json") = some i ∧
      i.IsActive = true ∧ i.ID = id) ∧
    (∀ name i, name.data ≠ [] → '/' ∉ name.data → Ext name = ".json" →
      storedIdentity (s.apiActivateIdentity env d (activateRequest id)).2
        (Join [s.config.WorkspacePath, "identities"]) name = some i →
      (i.IsActive = true ↔ name = id ++ ".json")) := by
  obtain ⟨req, identity, -, hb, hget, hres⟩ := apiActivateIdentity_ok env s d _ hok
  have hreq : req = { ID := id } := by
    simp only [activateRequest, Except.ok.injEq] at hb
    exact hb.symm
  subst hreq
  simp only at hget hres
  rw [hres, hdir]
  simp only [Bool.false_eq_true, if_false]
  have hidp : PlainElem (id ++ ".json").data := plainElem_id_json id hid
  have hwT : env.writeErr (Join [Join [s.config.WorkspacePath, "identities"], id ++ ".json"])
      = none := hwrite _ hidp.1 hidp.2.1 (Ext_json id)
  obtain ⟨pa, pi, ps, pu⟩ := plainElem_persona
  -- the content of an identity file after the call, in terms of the loop
  have hafter : ∀ name : String, PlainElem name.data →
      mapGet (writePersona env s.config.WorkspacePath { identity with IsActive := true }
          (diskWrite env
            (deactivateOthers env (Join [s.config.WorkspacePath, "identities"]) id
              (ReadDir d (Join [s.config.WorkspacePath, "identities"])) d)
            (Join [Join [s.config.WorkspacePath, "identities"], id ++ ".json"])
            (.identityJSON { identity with IsActive := true }))).2
          (Join [Join [s.config.WorkspacePath, "identities"], name])
        = if name = id ++ ".json" then some (.identityJSON { identity with IsActive := true })
          else mapGet (deactivateOthers env (Join [s.config.WorkspacePath, "identities"]) id
              (ReadDir d (Join [s.config.WorkspacePath, "identities"])) d)
            (Join [Join [s.config.WorkspacePath, "identities"], name]) := by
    intro name hn
    rw [writePersona_other _ _ _ _ _
      (Join_persona_ne_identity _ "AGENT.md" name pa hn).symm
      (Join_persona_ne_identity _ "IDENTITY.md" name pi hn).symm
      (Join_persona_ne_identity _ "SOUL.md" name ps hn).symm
      (Join_persona_ne_identity _ "USER.md" name pu hn).symm]
    simp only [diskWrite, hwT]
    by_cases hname : name = id ++ ".json"
    · subst hname
      simp [mapGet_mapSet_same]
    · have hp : Join [Join [s.config.WorkspacePath, "identities"], name]
          ≠ Join [Join [s.config.WorkspacePath, "identities"], id ++ ".json"] :=
        fun e => hname (Join_identities_injective _ _ _ hn hidp e)
      simp [hname, mapGet_mapSet_other _ _ _ _ hp]
  have hidentity : identity.ID = id := by
    have h1 := hnames (id ++ ".json") identity hidp.1 hidp.2.1 (Ext_json id)
      ((storedIdentity_iff _ _ _ _).mpr hget)
    exact (string_append_right_cancel _ _ _ h1).symm
  constructor
  · refine ⟨{ identity with IsActive := true }, ?_, rfl, hidentity⟩
    rw [storedIdentity_iff, hafter _ hidp]
    simp
  · intro name i hn1 hn2 hext hst
    have hn : PlainElem name.data := plainElem_of_Ext_json name hn1 hn2 hext
    rw [storedIdentity_iff, hafter name hn] at hst
    by_cases hname : name = id ++ ".json"
    · simp only [hname, if_true, Option.some.injEq, FileData.identityJSON.injEq] at hst
      subst hst
      simp [hname]
    · simp only [hname, if_false] at hst
      have hloop := deactivateOthers_get env (Join [s.config.WorkspacePath, "identities"]) id
        (ReadDir d (Join [s.config.WorkspacePath, "identities"]))
        (fun n hnmem he =>
          hwrite n (ReadDir_names _ _ _ hnmem).1 (ReadDir_names _ _ _ hnmem).2 he)
        d (Join [Join [s.config.WorkspacePath, "identities"], name])
      have hinactive : i.IsActive = false := by
        by_cases hex : ∃ n ∈ ReadDir d (Join [s.config.WorkspacePath, "identities"]),
            Ext n = ".json" ∧ Join [Join [s.config.WorkspacePath, "identities"], n]
              = Join [Join [s.config.WorkspacePath, "identities"], name]
        · rw [hloop.1 hex] at hst
          obtain ⟨i0, h0, -, -, -, -, -, hact⟩ := deactivated_identity _ _ _ hst
          apply hact
          intro hid0
          have h1 := hnames name i0 hn1 hn2 hext ((storedIdentity_iff _ _ _ _).mpr h0)
          exact hname (by rw [h1, hid0])
        · exfalso
          rw [hloop.2 hex] at hst
          apply hex
          refine ⟨name, ?_, hext, rfl⟩
          rw [Join_identities _ name hn] at hst
          exact mem_ReadDir d _ name.data _ hst hn1 hn2
      simp [hinactive, hname]

/-- The stored identities of `sampleDisk` are named after their ids. -/
theorem sampleDisk_namedById :
    NamedById sampleDisk (Join [(serverAllowing []).config.WorkspacePath, "identities"]) := by
  intro name i h1 h2 hext hst
  have hn := plainElem_of_Ext_json name h1 h2 hext
  rw [storedIdentity_iff] at hst
  have hm := mapGet_mem _ _ _ hst
  have hc : Join [Join [(serverAllowing []).config.WorkspacePath, "identities"], "coder.json"]
      = "/home/claw/workspace/identities/coder.json" := by decide
  have hp : Join [Join [(serverAllowing []).config.WorkspacePath, "identities"], "poet.json"]
      = "/home/claw/workspace/identities/poet.json" := by decide
  simp only [sampleDisk, List.mem_cons, Prod.mk.injEq, List.mem_singleton, List.not_mem_nil,
    or_false, reduceCtorEq, and_false, false_or, FileData.identityJSON.injEq] at hm
  rcases hm with ⟨hpath, rfl⟩ | ⟨hpath, rfl⟩
  · rw [← hc] at hpath
    rw [Join_identities_injective _ _ _ hn
      ⟨by decide, by decide, by decide, by decide⟩ hpath]
    decide
  · rw [← hp] at hpath
    rw [Join_identities_injective _ _ _ hn
      ⟨by decide, by decide, by decide, by decide⟩ hpath]
    decide

/-- Witness of C18 (amended): `poet` is activated in the workspace in which
`coder` was active. -/
theorem activate_leaves_one_active_witness :
    ((serverAllowing []).apiActivateIdentity okDisk sampleDisk (activateRequest "poet")).1
      = activatedOk ∧
    (∃ i, storedIdentity
        ((serverAllowing []).apiActivateIdentity okDisk sampleDisk (activateRequest "poet")).2
        (Join [(serverAllowing []).config.WorkspacePath, "identities"]) ("poet" ++ ".json")
          = some i ∧ i.IsActive = true ∧ i.ID = "poet") ∧
    (storedIdentity
        ((serverAllowing []).apiActivateIdentity okDisk sampleDisk (activateRequest "poet")).2
        (Join [(serverAllowing []).config.WorkspacePath, "identities"]) "coder.json").map
      (fun i => i.IsActive) = some false :=
  ⟨by decide,
   (activate_leaves_one_active okDisk (serverAllowing []) sampleDisk "poet" (by decide)
      sampleDisk_namedById (fun _ _ _ _ => rfl) rfl (by decide)).1,
   by decide⟩

/-- C19: for every request that `apiActivateIdentity` answers with `ok`, the
request carried an id, an identity document was stored at the path of that id,
and afterwards `AGENT.md`, `IDENTITY.md`, `SOUL.md` and `USER.md` of the
workspace root hold exactly the `agent_md`, `identity_md`, `soul_md` and
`user_md` texts of that identity; the identity stored at that path after the
call carries the same four texts. -/
theorem activate_writes_persona (env : DiskEnv) (s : Server) (d : Disk) (r : Request IDRequest)
    (hok : (s.apiActivateIdentity env d r).1 = activatedOk) :
    ∃ req identity, r.Body = .ok req ∧
      diskRead d (Join [Join [s.config.WorkspacePath, "identities"], req.ID ++ ".json"])
        = some (.identityJSON identity) ∧
      diskRead (s.apiActivateIdentity env d r).2 (Join [s.config.WorkspacePath, "AGENT.md"])
        = some (.bytes identity.AgentMD) ∧
      diskRead (s.apiActivateIdentity env d r).2 (Join [s.config.WorkspacePath, "IDENTITY.md"])
        = some (.bytes identity.IdentityMD) ∧
      diskRead (s.apiActivateIdentity env d r).2 (Join [s.config.WorkspacePath, "SOUL.md"])
        = some (.bytes identity.SoulMD) ∧
      diskRead (s.apiActivateIdentity env d r).2 (Join [s.config.WorkspacePath, "USER.md"])
        = some (.bytes identity.UserMD) ∧
      ∃ stored,
        diskRead (s.apiActivateIdentity env d r).2
            (Join [Join [s.config.WorkspacePath, "identities"], req.ID ++ ".json"])
          = some (.identityJSON stored) ∧
        stored.AgentMD = identity.AgentMD ∧ stored.IdentityMD = identity.IdentityMD ∧
        stored.SoulMD = identity.SoulMD ∧ stored.UserMD = identity.UserMD := by
  obtain ⟨req, identity, -, hb, hget, hres⟩ := apiActivateIdentity_ok env s d r hok
  have hok2 := hok
  rw [hres] at hok2
  obtain ⟨h1, h2, h3, h4⟩ := writePersona_ok _ _ _ _ hok2
  refine ⟨req, identity, hb, by simp [diskRead, hget], ?_, ?_, ?_, ?_, ?_⟩
  · rw [hres]; simp [diskRead, h1]
  · rw [hres]; simp [diskRead, h2]
  · rw [hres]; simp [diskRead, h3]
  · rw [hres]; simp [diskRead, h4]
  · obtain ⟨pa, pi, ps, pu⟩ := plainElem_persona
    have hafter : ∃ stored,
        mapGet (s.apiActivateIdentity env d r).2
            (Join [Join [s.config.WorkspacePath, "identities"], req.ID ++ ".json"])
          = some (.identityJSON stored) ∧
        stored.AgentMD = identity.AgentMD ∧ stored.IdentityMD = identity.IdentityMD ∧
        stored.SoulMD = identity.SoulMD ∧ stored.UserMD = identity.UserMD := by
      rw [hres, writePersona_other _ _ _ _ _
        (Join_identity_ne_persona _ req.ID "AGENT.md" pa (by decide))
        (Join_identity_ne_persona _ req.ID "IDENTITY.md" pi (by decide))
        (Join_identity_ne_persona _ req.ID "SOUL.md" ps (by decide))
        (Join_identity_ne_persona _ req.ID "USER.md" pu (by decide))]
      unfold diskWrite
      cases env.writeErr (Join [Join [s.config.WorkspacePath, "identities"], req.ID ++ ".json"])
        with
      | none =>
        exact ⟨{ identity with IsActive := true }, mapGet_mapSet_same _ _ _, rfl, rfl, rfl, rfl⟩
      | some e =>
        simp only
        rcases deactivateOthers_get_weak env (Join [s.config.WorkspacePath, "identities"]) req.ID
          (if env.readDirFails (Join [s.config.WorkspacePath, "identities"]) then []
           else ReadDir d (Join [s.config.WorkspacePath, "identities"])) d
          (Join [Join [s.config.WorkspacePath, "identities"], req.ID ++ ".json"]) with h | h
        · exact ⟨identity, by rw [h, hget], rfl, rfl, rfl, rfl⟩
        · obtain ⟨j, hj, t1, t2, t3, t4⟩ := deactivated_texts req.ID identity
          exact ⟨j, by rw [h, hget, hj], t1, t2, t3, t4⟩
    obtain ⟨stored, hst, t⟩ := hafter
    exact ⟨stored, by simp [diskRead, hst], t⟩

/-- Witness of C19: after the activation of `poet` the persona files hold the
texts of `poet`. -/
theorem activate_writes_persona_witness :
    ((serverAllowing []).apiActivateIdentity okDisk sampleDisk (activateRequest "poet")).1
      = activatedOk ∧
    ∃ req identity, (activateRequest "poet").Body = .ok req ∧
      diskRead sampleDisk
        (Join [Join [(serverAllowing []).config.WorkspacePath, "identities"], req.ID ++ ".json"])
        = some (.identityJSON identity) ∧
      diskRead
        ((serverAllowing []).apiActivateIdentity okDisk sampleDisk (activateRequest "poet")).2
        (Join [(serverAllowing []).config.WorkspacePath, "AGENT.md"])
        = some (.bytes identity.AgentMD) :=
  ⟨by decide,
   match activate_writes_persona okDisk (serverAllowing []) sampleDisk (activateRequest "poet")
      (by decide) with
   | ⟨req, identity, h1, h2, h3, _⟩ => ⟨req, identity, h1, h2, h3⟩⟩

/-- Counterexample to C20 as stated: `IDENTITY.md` cannot be written. The
activation of `poet` answers with status `error`, yet `coder` has become
inactive, `poet` active, and `AGENT.md` holds the text of `poet`. -/
theorem activate_error_after_changes :
    ((serverAllowing []).apiActivateIdentity personaReadOnly sampleDisk
        (activateRequest "poet")).1
      = statusError "Failed to write IDENTITY.md: permission denied" ∧
    (storedIdentity sampleDisk "/home/claw/workspace/identities" "coder.json").map
      (fun i => i.IsActive) = some true ∧
    (storedIdentity
        ((serverAllowing []).apiActivateIdentity personaReadOnly sampleDisk
          (activateRequest "poet")).2
        "/home/claw/workspace/identities" "coder.json").map (fun i => i.IsActive) = some false ∧
    (storedIdentity
        ((serverAllowing []).apiActivateIdentity personaReadOnly sampleDisk
          (activateRequest "poet")).2
        "/home/claw/workspace/identities" "poet.json").map (fun i => i.IsActive) = some true ∧
    diskRead sampleDisk "/home/claw/workspace/AGENT.md" = some (.bytes "code") ∧
    diskRead
        ((serverAllowing []).apiActivateIdentity personaReadOnly sampleDisk
          (activateRequest "poet")).2
        "/home/claw/workspace/AGENT.md" = some (.bytes "rhyme") := by
  refine ⟨by decide, by decide, by decide, by decide, by decide, by decide⟩

/-- C20 (amended): `apiActivateIdentity` changes no file when it answers with an
error for a request that does not decode, for an unknown id or for an identity
that cannot be read or decoded, and no file when the method is not POST. The
disk changes only after the identity has been read and decoded; an error answer
then comes from a failed write of a persona file: when the four persona files
can be written, every answer other than `ok` leaves the disk as it was. -/
theorem activate_early_errors_change_nothing (env : DiskEnv) (s : Server) (d : Disk)
    (r : Request IDRequest) :
    (r.Method ≠ "POST" →
      s.apiActivateIdentity env d r = ({ Status := 405, Body := .text "Method not allowed" }, d)) ∧
    (∀ e, r.Method = "POST" → r.Body = .error e →
      s.apiActivateIdentity env d r = (statusError "Invalid request", d)) ∧
    (∀ req, r.Method = "POST" → r.Body = .ok req →
      diskRead d (Join [Join [s.config.WorkspacePath, "identities"], req.ID ++ ".json"]) = none →
      s.apiActivateIdentity env d r = (statusError "Identity not found", d)) ∧
    (∀ req data e, r.Method = "POST" → r.Body = .ok req →
      diskRead d (Join [Join [s.config.WorkspacePath, "identities"], req.ID ++ ".json"])
        = some data →
      Unmarshal env data = .error e →
      s.apiActivateIdentity env d r = (statusError e, d)) ∧
    ((s.apiActivateIdentity env d r).2 ≠ d →
      ∃ req identity, r.Body = .ok req ∧
        diskRead d (Join [Join [s.config.WorkspacePath, "identities"], req.ID ++ ".json"])
          = some (.identityJSON identity)) ∧
    (env.writeErr (Join [s.config.WorkspacePath, "AGENT.md"]) = none →
      env.writeErr (Join [s.config.WorkspacePath, "IDENTITY.md"]) = none →
      env.writeErr (Join [s.config.WorkspacePath, "SOUL.md"]) = none →
      env.writeErr (Join [s.config.WorkspacePath, "USER.md"]) = none →
      (s.apiActivateIdentity env d r).1 ≠ activatedOk →
      (s.apiActivateIdentity env d r).2 = d) := by
  obtain ⟨method, body⟩ := r
  by_cases hm : method = "POST"
  · subst hm
    cases body with
    | error e0 =>
      have hres : s.apiActivateIdentity env d { Method := "POST", Body := .error e0 }
          = (statusError "Invalid request", d) := by
        simp [Server.apiActivateIdentity]
      refine ⟨fun h => absurd rfl h, fun e _ _ => hres, ?_, ?_, ?_, ?_⟩
      · intro req _ hb; cases hb
      · intro req data e _ hb; cases hb
      · intro h; rw [hres] at h; exact absurd rfl h
      · intro _ _ _ _ _; rw [hres]
    | ok req0 =>
      cases hr : diskRead d
          (Join [Join [s.config.WorkspacePath, "identities"], req0.ID ++ ".json"]) with
      | none =>
        have hres : s.apiActivateIdentity env d { Method := "POST", Body := .ok req0 }
            = (statusError "Identity not found", d) := by
          simp [Server.apiActivateIdentity, hr]
        refine ⟨fun h => absurd rfl h, ?_, ?_, ?_, ?_, ?_⟩
        · intro e _ hb; cases hb
        · intro req _ hb _; cases hb; exact hres
        · intro req data e _ hb hrd; cases hb; rw [hr] at hrd; cases hrd
        · intro h; rw [hres] at h; exact absurd rfl h
        · intro _ _ _ _ _; rw [hres]
      | some data0 =>
        cases hu : Unmarshal env data0 with
        | error e0 =>
          have hres : s.apiActivateIdentity env d { Method := "POST", Body := .ok req0 }
              = (statusError e0, d) := by
            simp [Server.apiActivateIdentity, hr, hu]
          refine ⟨fun h => absurd rfl h, ?_, ?_, ?_, ?_, ?_⟩
          · intro e _ hb; cases hb
          · intro req _ hb hrd; cases hb; rw [hr] at hrd; cases hrd
          · intro req data e _ hb hrd hue
            cases hb
            rw [hr] at hrd
            cases hrd
            rw [hu] at hue
            cases hue
            exact hres
          · intro h; rw [hres] at h; exact absurd rfl h
          · intro _ _ _ _ _; rw [hres]
        | ok identity =>
          have hdata : data0 = .identityJSON identity := by
            cases data0 <;> simp [Unmarshal] at hu
            exact congrArg _ hu
          subst hdata
          refine ⟨fun h => absurd rfl h, ?_, ?_, ?_, ?_, ?_⟩
          · intro e _ hb; cases hb
          · intro req _ hb hrd; cases hb; rw [hr] at hrd; cases hrd
          · intro req data e _ hb hrd hue
            cases hb
            rw [hr] at hrd
            cases hrd
            rw [hu] at hue
            cases hue
          · intro _
            exact ⟨req0, identity, rfl, hr⟩
          · intro h1 h2 h3 h4 hne
            exfalso
            apply hne
            simp [Server.apiActivateIdentity, hr, hu, writePersona, h1, h2, h3, h4]
  · refine ⟨fun _ => by simp [Server.apiActivateIdentity, hm], fun e h => absurd h hm,
      fun req h => absurd h hm, fun req data e h => absurd h hm, ?_, ?_⟩
    · intro h
      simp [Server.apiActivateIdentity, hm] at h
    · intro _ _ _ _ _
      simp [Server.apiActivateIdentity, hm]

/-! ## Theorems: methods of the POST handlers -/

/-- C24: each of the nine handlers registered for POST answers a request with
another method with `405 Method not allowed`, whatever the body of the request,
and leaves the configuration of the server and the files as they were; it calls
neither `config.SaveConfig` nor the skill installer. -/
theorem non_post_is_rejected (method : String) (hm : method ≠ "POST")
    (saveErr : String → Config → Option String) (env : IdentityEnv) (installer : SkillInstaller)
    (s : Server) (d : Disk) (config : Except String Config) (toggle : Except String ToggleRequest)
    (whitelist : Except String WhitelistRequest) (install : Except String InstallRequest)
    (remove : Except String RemoveRequest) (identity : Except String BotIdentity)
    (id : Except String IDRequest) :
    s.apiSaveConfig saveErr { Method := method, Body := config }
        = { resp := methodNotAllowed, server := s, saveCalls := [] } ∧
      s.apiToggleChannel saveErr { Method := method, Body := toggle }
        = { resp := methodNotAllowed, server := s, saveCalls := [] } ∧
      s.apiManageWhitelist saveErr { Method := method, Body := whitelist }
        = { resp := methodNotAllowed, server := s, saveCalls := [] } ∧
      s.apiInstallSkill installer d { Method := method, Body := install }
        = (methodNotAllowed, d) ∧
      s.apiRemoveSkill installer d { Method := method, Body := remove } = (methodNotAllowed, d) ∧
      s.apiRestart method = methodNotAllowed ∧
      s.apiSaveIdentity env d { Method := method, Body := identity }
        = (.plain methodNotAllowed, d) ∧
      s.apiActivateIdentity env.toDiskEnv d { Method := method, Body := id }
        = (methodNotAllowed, d) ∧
      s.apiDeleteIdentity env d { Method := method, Body := id } = (methodNotAllowed, d) := by
  refine ⟨?_, ?_, ?_, ?_, ?_, ?_, ?_, ?_, ?_⟩
  · simp [Server.apiSaveConfig, hm, methodNotAllowed]
  · simp [Server.apiToggleChannel, hm, methodNotAllowed]
  · simp [Server.apiManageWhitelist, hm, methodNotAllowed]
  · simp [Server.apiInstallSkill, hm]
  · simp [Server.apiRemoveSkill, hm]
  · simp [Server.apiRestart, hm]
  · simp [Server.apiSaveIdentity, hm]
  · simp [Server.apiActivateIdentity, hm, methodNotAllowed]
  · simp [Server.apiDeleteIdentity, hm]

/-- Witness of C24: a GET request with a body that would delete the active
identity, save a configuration and install a skill. -/
theorem non_post_is_rejected_witness :
    "GET" ≠ "POST" ∧
    (serverAllowing []).apiSaveConfig saveOk { Method := "GET", Body := .ok sampleConfig }
        = { resp := methodNotAllowed, server := serverAllowing [], saveCalls := [] } ∧
      (serverAllowing []).apiInstallSkill sampleInstaller sampleDisk
          { Method := "GET", Body := .ok { Repository := "sipeed/weather" } }
        = (methodNotAllowed, sampleDisk) ∧
      (serverAllowing []).apiDeleteIdentity okEnv sampleDisk
          { Method := "GET", Body := .ok { ID := "poet" } }
        = (methodNotAllowed, sampleDisk) :=
  have h := non_post_is_rejected "GET" (by decide) saveOk okEnv sampleInstaller (serverAllowing [])
    sampleDisk (.ok sampleConfig) (.error "EOF") (.error "EOF")
    (.ok { Repository := "sipeed/weather" }) (.error "EOF") (.error "EOF") (.ok { ID := "poet" })
  ⟨by decide, h.1, h.2.2.2.1, h.2.2.2.2.2.2.2.2⟩

/-! ## Theorems: web chat -/

/-- The type assertions of the loop of `apiSendMessage` on one entry. -/
theorem keptEntry_eq (h : List (String × JSONValue)) :
    (match mapGet h "role", mapGet h "content" with
      | some (.str role), some (.str content) =>
        if role ≠ "" ∧ content ≠ "" then some ({ Role := role, Content := content } : ChatMessage)
        else none
      | _, _ => none)
      = if stringField h "role" ≠ "" ∧ stringField h "content" ≠ "" then
          some { Role := stringField h "role", Content := stringField h "content" }
        else none := by
  unfold stringField
  cases h1 : mapGet h "role" with
  | none => simp
  | some v1 =>
    cases v1 with
    | other raw => simp
    | str role =>
      cases h2 : mapGet h "content" with
      | none => simp
      | some v2 =>
        cases v2 with
        | other raw => simp
        | str content => simp

/-- The loop of `apiSendMessage` appends the kept entries to what it has. -/
theorem convertHistory_fold (reqHistory : List (List (String × JSONValue))) :
    ∀ acc : List ChatMessage,
      reqHistory.foldl (fun history h =>
        if stringField h "role" ≠ "" ∧ stringField h "content" ≠ "" then
          history ++ [{ Role := stringField h "role", Content := stringField h "content" }]
        else history) acc = acc ++ keptEntries reqHistory := by
  induction reqHistory with
  | nil => intro acc; simp [keptEntries]
  | cons h rest ih =>
    intro acc
    have hk : keptEntries (h :: rest)
        = (if stringField h "role" ≠ "" ∧ stringField h "content" ≠ "" then
            [({ Role := stringField h "role", Content := stringField h "content" } : ChatMessage)]
          else []) ++ keptEntries rest := by
      by_cases hc : stringField h "role" ≠ "" ∧ stringField h "content" ≠ ""
      · simp only [keptEntries, List.filterMap_cons, keptEntry_eq]
        rw [if_pos hc, if_pos hc]
        rfl
      · simp only [keptEntries, List.filterMap_cons, keptEntry_eq]
        rw [if_neg hc, if_neg hc]
        rfl
    rw [List.foldl_cons, ih, hk]
    by_cases hc : stringField h "role" ≠ "" ∧ stringField h "content" ≠ ""
    · rw [if_pos hc, if_pos hc, List.append_assoc]
    · rw [if_neg hc, if_neg hc, List.nil_append]

/-- The loop of `apiSendMessage` keeps the entries the specification names. -/
theorem convertHistory_eq (reqHistory : List (List (String × JSONValue))) :
    convertHistory reqHistory = keptEntries reqHistory := by
  have h := convertHistory_fold reqHistory []
  simpa [convertHistory] using h

/-- The history of a session after `GetOrCreate`. -/
theorem history_GetOrCreate (st : Sessions) (key : String) :
    (st.GetOrCreate key).history key = st.history key := by
  unfold Sessions.GetOrCreate Sessions.history
  cases h : mapGet st key with
  | none => simp [mapGet_mapSet_same]
  | some v => simp [h]

/-- The history of a session after `AddMessage`. -/
theorem history_AddMessage (st : Sessions) (key : String) (m : ChatMessage) :
    (st.AddMessage key m).history key = st.history key ++ [m] := by
  simp [Sessions.AddMessage, Sessions.history, mapGet_mapSet_same]

/-- C25, counterexample: an agent whose context builder is the one of the
specification gets the same arguments from the same request, but its provider
gets another message list after another identity has been activated (the
persona block is re-read), and another one when the session `webui-chat` has
stored turns (the retained history of the session is emitted). -/
theorem provider_input_depends_on_agent_state :
    (Server.apiSendMessage specAgent [] sampleDisk (chatRequest "hello" [])).builderCalls
        = (Server.apiSendMessage specAgent usedSessions
            ((serverAllowing []).apiActivateIdentity okDisk sampleDisk (activateRequest "poet")).2
            (chatRequest "hello" [])).builderCalls ∧
      (Server.apiSendMessage specAgent [] sampleDisk (chatRequest "hello" [])).providerCalls
        = [[{ Role := "system", Content := "code\n\nI am coder\n\ncalm\n\nthe user" },
            { Role := "user", Content := "hello" }]] ∧
      (Server.apiSendMessage specAgent []
          ((serverAllowing []).apiActivateIdentity okDisk sampleDisk (activateRequest "poet")).2
          (chatRequest "hello" [])).providerCalls
        = [[{ Role := "system", Content := "rhyme\n\nI am poet\n\ncalm\n\nthe user" },
            { Role := "user", Content := "hello" }]] ∧
      (Server.apiSendMessage specAgent usedSessions sampleDisk
          (chatRequest "hello" [])).providerCalls
        = [[{ Role := "system", Content := "code\n\nI am coder\n\ncalm\n\nthe user" },
            { Role := "user", Content := "earlier" }, { Role := "assistant", Content := "noted" },
            { Role := "user", Content := "hello" }]] := by
  decide

/-- C25, amended: the arguments `apiSendMessage` gives to the context builder
are the same for any two session stores and disks and the same request; for a
request with a message they are made of that message and of the entries of the
request history whose role and content are both non-empty strings, in order,
with an empty summary, no media, the channel `webui` and the key `webui-chat`.
The provider gets what the context builder returns for these arguments, the
session store and the disk; when the context builder does not read the session
store, the provider gets the same message list for any two session stores. -/
theorem builder_arguments_from_request_alone (agent : Agent) (st1 st2 : Sessions)
    (d1 d2 : Disk) (r : Request SendRequest) (method : String) (req : SendRequest) :
    (Server.apiSendMessage agent st1 d1 r).builderCalls
        = (Server.apiSendMessage agent st2 d2 r).builderCalls ∧
      (Server.apiSendMessage agent st1 d1 { Method := method, Body := .ok req }).builderCalls
        = (if req.Message = "" then [] else [chatArgs req]) ∧
      (Server.apiSendMessage agent st1 d1 { Method := method, Body := .ok req }).providerCalls
        = (if req.Message = "" then []
          else [agent.BuildMessages (st1.GetOrCreate "webui-chat") d1 (chatArgs req)]) ∧
      ((∀ s1 s2 d a, agent.BuildMessages s1 d a = agent.BuildMessages s2 d a) →
        (Server.apiSendMessage agent st1 d1 r).providerCalls
          = (Server.apiSendMessage agent st2 d1 r).providerCalls) := by
  refine ⟨?_, ?_, ?_, ?_⟩
  · unfold Server.apiSendMessage
    cases r.Body with
    | error e => rfl
    | ok q =>
      by_cases hq : q.Message = ""
      · simp [hq]
      · simp only [hq, if_false]
        cases agent.Complete (agent.BuildMessages (st1.GetOrCreate "webui-chat") d1 _) <;>
          cases agent.Complete (agent.BuildMessages (st2.GetOrCreate "webui-chat") d2 _) <;> rfl
  · unfold Server.apiSendMessage
    by_cases hq : req.Message = ""
    · simp [hq]
    · simp only [hq, if_false, convertHistory_eq]
      cases agent.Complete _ <;> rfl
  · unfold Server.apiSendMessage
    by_cases hq : req.Message = ""
    · simp [hq]
    · simp only [hq, if_false, convertHistory_eq]
      cases agent.Complete _ <;> rfl
  · intro hb
    unfold Server.apiSendMessage
    cases r.Body with
    | error e => rfl
    | ok q =>
      by_cases hq : q.Message = ""
      · simp [hq]
      · simp only [hq, if_false]
        rw [hb (st1.GetOrCreate "webui-chat") (st2.GetOrCreate "webui-chat")]
        cases agent.Complete _ <;> rfl

/-- Witness of C25 (amended): an agent whose context builder reads neither the
session store nor the disk. -/
theorem builder_arguments_from_request_alone_witness :
    (∀ s1 s2 d a, echoAgent.BuildMessages s1 d a = echoAgent.BuildMessages s2 d a) ∧
      (Server.apiSendMessage echoAgent [] sampleDisk
          (chatRequest "hello" sampleHistory)).builderCalls
        = [{ history := [{ Role := "user", Content := "hello" },
                         { Role := "assistant", Content := "hi there" }],
             summary := "", currentMessage := "hello", media := [], channel := "webui",
             chatID := "webui-chat" }] ∧
      (Server.apiSendMessage echoAgent [] sampleDisk
          (chatRequest "hello" sampleHistory)).providerCalls
        = (Server.apiSendMessage echoAgent usedSessions sampleDisk
            (chatRequest "hello" sampleHistory)).providerCalls :=
  ⟨fun _ _ _ _ => rfl, by decide,
    (builder_arguments_from_request_alone echoAgent [] usedSessions sampleDisk sampleDisk
      (chatRequest "hello" sampleHistory) "POST"
      { Message := "hello", History := sampleHistory }).2.2.2 (fun _ _ _ _ => rfl)⟩

/-- C23, counterexample: the provider is down. The handler answers with the
error and returns before it adds a turn: the history of a new web chat session
stays empty, and the history of a used one still ends in the assistant turn of
the turn before; the user turn `hello` is in neither. -/
theorem chat_failure_adds_no_user_turn :
    (Server.apiSendMessage failingAgent [] sampleDisk (chatRequest "hello" [])).resp
        = statusError "Failed to get response: connection refused" ∧
      (Server.apiSendMessage failingAgent [] sampleDisk (chatRequest "hello" [])).sessions.history
          "webui-chat" = [] ∧
      (Server.apiSendMessage failingAgent usedSessions sampleDisk
          (chatRequest "hello" [])).sessions.history "webui-chat"
        = [{ Role := "user", Content := "earlier" }, { Role := "assistant", Content := "noted" }] := by
  decide

/-- C23, amended: for a request with a message, when the provider returns a
response the history of the session `webui-chat` is the history before the call
followed by the user turn with the message of the request and the assistant
turn with the content of the response; when the provider fails the handler
answers `Failed to get response: ...` and the history is the history before the
call, with no turn added. -/
theorem chat_turn_history (agent : Agent) (st : Sessions) (d : Disk) (method : String)
    (req : SendRequest) (hmsg : req.Message ≠ "") :
    (∀ content,
      agent.Complete (agent.BuildMessages (st.GetOrCreate "webui-chat") d (chatArgs req))
        = .ok content →
      (Server.apiSendMessage agent st d { Method := method, Body := .ok req }).sessions.history
          "webui-chat"
        = st.history "webui-chat" ++
          [{ Role := "user", Content := req.Message }, { Role := "assistant", Content := content }]) ∧
    (∀ err,
      agent.Complete (agent.BuildMessages (st.GetOrCreate "webui-chat") d (chatArgs req))
        = .error err →
      (Server.apiSendMessage agent st d { Method := method, Body := .ok req }).resp
          = statusError ("Failed to get response: " ++ err) ∧
        (Server.apiSendMessage agent st d { Method := method, Body := .ok req }).sessions.history
          "webui-chat" = st.history "webui-chat") := by
  constructor
  · intro content hc
    unfold Server.apiSendMessage
    simp only [hmsg, if_false, convertHistory_eq]
    have hc1 : agent.Complete (agent.BuildMessages (st.GetOrCreate "webui-chat") d
        { history := keptEntries req.History, summary := "", currentMessage := req.Message,
          media := [], channel := "webui", chatID := "webui-chat" }) = .ok content := hc
    rw [hc1]
    simp only [history_AddMessage, history_GetOrCreate, List.append_assoc, List.singleton_append]
  · intro err hc
    unfold Server.apiSendMessage
    simp only [hmsg, if_false, convertHistory_eq]
    have hc1 : agent.Complete (agent.BuildMessages (st.GetOrCreate "webui-chat") d
        { history := keptEntries req.History, summary := "", currentMessage := req.Message,
          media := [], channel := "webui", chatID := "webui-chat" }) = .error err := hc
    rw [hc1]
    exact ⟨rfl, history_GetOrCreate st "webui-chat"⟩

/-- Witness of C23 (amended): a turn in the used web chat session with a
provider that answers. -/
theorem chat_turn_history_witness :
    ("hello" : String) ≠ "" ∧
      echoAgent.Complete (echoAgent.BuildMessages (usedSessions.GetOrCreate "webui-chat")
        sampleDisk (chatArgs { Message := "hello", History := sampleHistory })) = .ok "turns: 4" ∧
      (Server.apiSendMessage echoAgent usedSessions sampleDisk
          (chatRequest "hello" sampleHistory)).sessions.history "webui-chat"
        = usedSessions.history "webui-chat" ++
          [{ Role := "user", Content := "hello" }, { Role := "assistant", Content := "turns: 4" }] :=
  ⟨by decide, rfl,
    (chat_turn_history echoAgent usedSessions sampleDisk "POST"
      { Message := "hello", History := sampleHistory } (by decide)).1 "turns: 4" rfl⟩

/-! ## Theorems: deleting an identity -/

/-- Reading the disk after `os.Remove`. -/
theorem mapGet_diskRemove (d : Disk) (p q : String) :
    mapGet (diskRemove d p) q = if q = p then none else mapGet d q := by
  induction d with
  | nil => simp [diskRemove, mapGet]
  | cons e rest ih =>
    by_cases he : e.1 = p
    · have h1 : diskRemove (e :: rest) p = diskRemove rest p := by
        simp [diskRemove, List.filter, he]
      rw [h1, ih]
      by_cases hq : q = p
      · simp [hq]
      · have hb : (e.1 == q) = false := beq_eq_false_iff_ne.mpr (by rw [he]; exact Ne.symm hq)
        simp only [hq, if_false, mapGet, List.find?, hb]
    · have h1 : diskRemove (e :: rest) p = e :: diskRemove rest p := by
        have hne : (e.1 != p) = true := by simp [he]
        simp only [diskRemove, List.filter, hne]
      rw [h1]
      by_cases hb : e.1 = q
      · have hqp : q ≠ p := by rw [← hb]; exact he
        simp [mapGet, List.find?, hb, hqp]
      · have hb2 : (e.1 == q) = false := beq_eq_false_iff_ne.mpr hb
        simp only [mapGet, List.find?, hb2] at ih ⊢
        exact ih

theorem statusError_ne_deletedOk (e : String) : statusError e ≠ deletedOk := by
  simp [statusError, deletedOk]

/-- What `apiDeleteIdentity` does with a POST request that carries an id, by the
content of the file of that id. -/
theorem apiDeleteIdentity_cases (env : IdentityEnv) (s : Server) (d : Disk) (id : String) :
    s.apiDeleteIdentity env d { Method := "POST", Body := .ok { ID := id } } =
      match diskRead d (s.identityPath id) with
      | none => (statusError "Identity not found", d)
      | some (.identityJSON i) =>
        if i.IsDefault then (statusError "Cannot delete default identity", d)
        else if i.IsActive then
          (statusError "Cannot delete active identity. Activate another identity first.", d)
        else
          match env.removeErr (s.identityPath id) with
          | some e => (statusError e, d)
          | none => (deletedOk, diskRemove d (s.identityPath id))
      | some (.bytes t) => (statusError (env.jsonErr t), d)
      | some .unreadable => (statusError (env.jsonErr ""), d) := by
  simp only [Server.apiDeleteIdentity, Server.identityPath, ne_eq, not_true_eq_false, if_false]
  cases diskRead d (Join [Join [s.config.WorkspacePath, "identities"], id ++ ".json"]) with
  | none => rfl
  | some data => cases data <;> rfl

/-- C22, counterexample: `poet` exists, parses and is neither default nor
active, but `os.Remove` fails. The handler answers with the error of
`os.Remove` and the file stays. -/
theorem delete_fails_when_remove_fails :
    diskRead sampleDisk ((serverAllowing []).identityPath "poet")
        = some (.identityJSON (identityOf "poet" false "rhyme")) ∧
      (identityOf "poet" false "rhyme").IsDefault = false ∧
      (identityOf "poet" false "rhyme").IsActive = false ∧
      (serverAllowing []).apiDeleteIdentity removeDenied sampleDisk (deleteRequest "poet")
        = (statusError "permission denied", sampleDisk) := by
  decide

/-- C22, amended: for a POST request with an id, `apiDeleteIdentity` answers
`Identity deleted successfully` if and only if the file of the id can be read,
holds an identity that is neither default nor active, and `os.Remove` succeeds.
After that answer the file of the id is gone and every other file is as before;
after any other answer the disk is unchanged. A file that cannot be read gives
`Identity not found`, a default identity `Cannot delete default identity`, an
active one `Cannot delete active identity. Activate another identity first.`,
and a failing `os.Remove` its error. -/
theorem delete_removes_deletable_only (env : IdentityEnv) (s : Server) (d : Disk) (id : String) :
    ((s.apiDeleteIdentity env d (deleteRequest id)).1 = deletedOk ↔
        ∃ i, diskRead d (s.identityPath id) = some (.identityJSON i) ∧ i.IsDefault = false ∧
          i.IsActive = false ∧ env.removeErr (s.identityPath id) = none) ∧
      ((s.apiDeleteIdentity env d (deleteRequest id)).1 = deletedOk →
        ∀ q, mapGet (s.apiDeleteIdentity env d (deleteRequest id)).2 q
          = if q = s.identityPath id then none else mapGet d q) ∧
      ((s.apiDeleteIdentity env d (deleteRequest id)).1 ≠ deletedOk →
        (s.apiDeleteIdentity env d (deleteRequest id)).2 = d) ∧
      (diskRead d (s.identityPath id) = none →
        (s.apiDeleteIdentity env d (deleteRequest id)).1 = statusError "Identity not found") ∧
      (∀ i, diskRead d (s.identityPath id) = some (.identityJSON i) → i.IsDefault = true →
        (s.apiDeleteIdentity env d (deleteRequest id)).1
          = statusError "Cannot delete default identity") ∧
      (∀ i, diskRead d (s.identityPath id) = some (.identityJSON i) → i.IsDefault = false →
        i.IsActive = true →
        (s.apiDeleteIdentity env d (deleteRequest id)).1
          = statusError "Cannot delete active identity. Activate another identity first.") ∧
      (∀ i e, diskRead d (s.identityPath id) = some (.identityJSON i) → i.IsDefault = false →
        i.IsActive = false → env.removeErr (s.identityPath id) = some e →
        (s.apiDeleteIdentity env d (deleteRequest id)).1 = statusError e) := by
  have hc : s.apiDeleteIdentity env d (deleteRequest id) = _ := apiDeleteIdentity_cases env s d id
  rw [hc]
  cases hr : diskRead d (s.identityPath id) with
  | none => simp [statusError_ne_deletedOk]
  | some data =>
    cases data with
    | bytes t => simp [statusError_ne_deletedOk]
    | unreadable => simp [statusError_ne_deletedOk]
    | identityJSON i =>
      by_cases hd : i.IsDefault = true
      · simp [hd, statusError_ne_deletedOk]
        intro j e hj h1
        rw [← hj, hd] at h1
        cases h1
      · by_cases ha : i.IsActive = true
        · simp [hd, ha, statusError_ne_deletedOk]
          intro j e hj _ h2
          rw [← hj, ha] at h2
          cases h2
        · cases he : env.removeErr (s.identityPath id) with
          | some e =>
            simp [hd, ha, statusError_ne_deletedOk]
            intro _ e1 _ _ _ h4
            rw [h4]
          | none => simp [hd, ha, mapGet_diskRemove]

/-- Witness of C22 (amended): `poet` is deleted; its file is gone and the file
of `coder` is as before. -/
theorem delete_removes_deletable_only_witness :
    (serverAllowing []).apiDeleteIdentity okEnv sampleDisk (deleteRequest "poet")
        = (deletedOk, diskRemove sampleDisk "/home/claw/workspace/identities/poet.json") ∧
      mapGet ((serverAllowing []).apiDeleteIdentity okEnv sampleDisk (deleteRequest "poet")).2
          "/home/claw/workspace/identities/coder.json"
        = (if "/home/claw/workspace/identities/coder.json" = (serverAllowing []).identityPath "poet"
            then none else mapGet sampleDisk "/home/claw/workspace/identities/coder.json") :=
  ⟨by decide,
    (delete_removes_deletable_only okEnv (serverAllowing []) sampleDisk "poet").2.1 (by decide)
      "/home/claw/workspace/identities/coder.json"⟩

/-! ## Theorems: the active flags of the stored identities -/

/-- The identity files after the loop of `apiActivateIdentity` and the write of
the activated identity: the file of the request holds the activated identity,
and an identity in another file is inactive and has the id it had. -/
theorem activation_flags (env : DiskEnv) (ws : String) (d : Disk) (id : String)
    (identity : BotIdentity)
    (hnames : NamedById d (Join [ws, "identities"]))
    (hwrite : IdentityFilesWritable env (Join [ws, "identities"]))
    (name : String) (i : BotIdentity) (hn1 : name.data ≠ []) (hn2 : '/' ∉ name.data)
    (hext : Ext name = ".json")
    (hst : storedIdentity
      (diskWrite env
        (deactivateOthers env (Join [ws, "identities"]) id (ReadDir d (Join [ws, "identities"])) d)
        (Join [Join [ws, "identities"], id ++ ".json"])
        (.identityJSON { identity with IsActive := true }))
      (Join [ws, "identities"]) name = some i) :
    (Join [Join [ws, "identities"], name] = Join [Join [ws, "identities"], id ++ ".json"] ∧
        i = { identity with IsActive := true }) ∨
      (Join [Join [ws, "identities"], name] ≠ Join [Join [ws, "identities"], id ++ ".json"] ∧
        i.IsActive = false ∧
        ∃ i0, storedIdentity d (Join [ws, "identities"]) name = some i0 ∧ i.ID = i0.ID) := by
  have hn : PlainElem name.data := plainElem_of_Ext_json name hn1 hn2 hext
  rw [storedIdentity_iff] at hst
  by_cases hp : Join [Join [ws, "identities"], name]
      = Join [Join [ws, "identities"], id ++ ".json"]
  · left
    refine ⟨hp, ?_⟩
    have hw : env.writeErr (Join [Join [ws, "identities"], id ++ ".json"]) = none := by
      rw [← hp]
      exact hwrite name hn1 hn2 hext
    rw [hp] at hst
    simp only [diskWrite, hw, mapGet_mapSet_same, Option.some.injEq,
      FileData.identityJSON.injEq] at hst
    exact hst.symm
  · right
    refine ⟨hp, ?_⟩
    have hst1 : mapGet
        (deactivateOthers env (Join [ws, "identities"]) id (ReadDir d (Join [ws, "identities"])) d)
        (Join [Join [ws, "identities"], name]) = some (.identityJSON i) := by
      unfold diskWrite at hst
      cases hw : env.writeErr (Join [Join [ws, "identities"], id ++ ".json"]) with
      | none =>
        rw [hw] at hst
        simp only at hst
        rw [mapGet_mapSet_other _ _ _ _ hp] at hst
        exact hst
      | some e =>
        rw [hw] at hst
        exact hst
    have hloop := deactivateOthers_get env (Join [ws, "identities"]) id
      (ReadDir d (Join [ws, "identities"]))
      (fun n hnmem he =>
        hwrite n (ReadDir_names _ _ _ hnmem).1 (ReadDir_names _ _ _ hnmem).2 he)
      d (Join [Join [ws, "identities"], name])
    by_cases hex : ∃ n ∈ ReadDir d (Join [ws, "identities"]),
        Ext n = ".json" ∧ Join [Join [ws, "identities"], n] = Join [Join [ws, "identities"], name]
    · rw [hloop.1 hex] at hst1
      obtain ⟨i0, h0, hid0, -, -, -, -, hact⟩ := deactivated_identity _ _ _ hst1
      refine ⟨?_, i0, (storedIdentity_iff _ _ _ _).mpr h0, hid0⟩
      apply hact
      intro hid1
      have h1 := hnames name i0 hn1 hn2 hext ((storedIdentity_iff _ _ _ _).mpr h0)
      exact hp (by rw [h1, hid1])
    · exfalso
      rw [hloop.2 hex] at hst1
      apply hex
      refine ⟨name, ?_, hext, rfl⟩
      rw [Join_identities _ name hn] at hst1
      exact mem_ReadDir d _ name.data _ hst1 hn1 hn2

/-- The persona writes of `apiActivateIdentity` leave the identity files as they
are. -/
theorem writePersona_stored (env : DiskEnv) (ws : String) (identity : BotIdentity) (d : Disk)
    (name : String) (hn1 : name.data ≠ []) (hn2 : '/' ∉ name.data) (hext : Ext name = ".json") :
    storedIdentity (writePersona env ws identity d).2 (Join [ws, "identities"]) name
      = storedIdentity d (Join [ws, "identities"]) name := by
  have hn : PlainElem name.data := plainElem_of_Ext_json name hn1 hn2 hext
  obtain ⟨pa, pi, ps, pu⟩ := plainElem_persona
  have h := writePersona_other env ws identity d (Join [Join [ws, "identities"], name])
    (Join_persona_ne_identity _ "AGENT.md" name pa hn).symm
    (Join_persona_ne_identity _ "IDENTITY.md" name pi hn).symm
    (Join_persona_ne_identity _ "SOUL.md" name ps hn).symm
    (Join_persona_ne_identity _ "USER.md" name pu hn).symm
  simp only [storedIdentity, diskRead, h]

/-- The disk after `apiActivateIdentity` when the directory can be listed: the
disk before, or the disk after the loop, the write of the activated identity and
the persona writes. -/
theorem apiActivateIdentity_disk (env : DiskEnv) (s : Server) (d : Disk) (r : Request IDRequest)
    (hdir : env.readDirFails (Join [s.config.WorkspacePath, "identities"]) = false) :
    (s.apiActivateIdentity env d r).2 = d ∨
      ∃ id identity, r.Body = .ok { ID := id } ∧
        mapGet d (Join [Join [s.config.WorkspacePath, "identities"], id ++ ".json"])
          = some (.identityJSON identity) ∧
        (s.apiActivateIdentity env d r).2 =
          (writePersona env s.config.WorkspacePath { identity with IsActive := true }
            (diskWrite env
              (deactivateOthers env (Join [s.config.WorkspacePath, "identities"]) id
                (ReadDir d (Join [s.config.WorkspacePath, "identities"])) d)
              (Join [Join [s.config.WorkspacePath, "identities"], id ++ ".json"])
              (.identityJSON { identity with IsActive := true }))).2 := by
  obtain ⟨method, body⟩ := r
  by_cases hm : method = "POST"
  · subst hm
    cases body with
    | error e => left; simp [Server.apiActivateIdentity]
    | ok req =>
      simp only [Server.apiActivateIdentity]
      simp only [show ¬ ("POST" ≠ "POST") by decide, if_false, hdir, Bool.false_eq_true]
      unfold diskRead
      cases hg : mapGet d (Join [Join [s.config.WorkspacePath, "identities"], req.ID ++ ".json"])
        with
      | none => left; rfl
      | some data =>
        cases data with
        | unreadable => left; rfl
        | bytes b => left; rfl
        | identityJSON identity =>
          right
          exact ⟨req.ID, identity, rfl, hg, rfl⟩
  · left
    simp [Server.apiActivateIdentity, hm]

/-- The identity files after `apiActivateIdentity`, when the stored identities
are named by id, their files can be written and the directory can be listed:
the disk is unchanged, or every active identity is in the file of the request. -/
theorem apiActivateIdentity_flags (env : DiskEnv) (s : Server) (d : Disk) (r : Request IDRequest)
    (hnames : NamedById d (Join [s.config.WorkspacePath, "identities"]))
    (hwrite : IdentityFilesWritable env (Join [s.config.WorkspacePath, "identities"]))
    (hdir : env.readDirFails (Join [s.config.WorkspacePath, "identities"]) = false) :
    (s.apiActivateIdentity env d r).2 = d ∨
      ∃ id, r.Body = .ok { ID := id } ∧
        ∀ name i, name.data ≠ [] → '/' ∉ name.data → Ext name = ".json" →
          storedIdentity (s.apiActivateIdentity env d r).2
            (Join [s.config.WorkspacePath, "identities"]) name = some i →
          i.IsActive = true →
          Join [Join [s.config.WorkspacePath, "identities"], name]
            = Join [Join [s.config.WorkspacePath, "identities"], id ++ ".json"] := by
  rcases apiActivateIdentity_disk env s d r hdir with h | ⟨id, identity, hb, -, hres⟩
  · exact Or.inl h
  · right
    refine ⟨id, hb, ?_⟩
    intro name i hn1 hn2 hext hst hact
    rw [hres, writePersona_stored _ _ _ _ _ hn1 hn2 hext] at hst
    rcases activation_flags env _ d id identity hnames hwrite name i hn1 hn2 hext hst with
      h | ⟨-, h, -⟩
    · exact h.1
    · rw [h] at hact
      cases hact

/-- What `apiSaveIdentity` does with a POST request that carries an identity. -/
theorem apiSaveIdentity_cases (env : IdentityEnv) (s : Server) (d : Disk)
    (identity : BotIdentity) :
    s.apiSaveIdentity env d { Method := "POST", Body := .ok identity } =
      match env.mkdirErr (Join [s.config.WorkspacePath, "identities"]) with
      | some e => (.plain (statusError e), d)
      | none =>
        match env.writeErr (s.identityPath (savedAs env identity).ID) with
        | some e => (.plain (statusError e), d)
        | none =>
          (.identity (savedAs env identity),
            mapSet d (s.identityPath (savedAs env identity).ID)
              (.identityJSON (savedAs env identity))) := by
  simp only [Server.apiSaveIdentity, Server.identityPath, savedAs, ne_eq, not_true_eq_false,
    if_false]

/-- The disk after `apiSaveIdentity`: the disk before, or the disk before with
the stored identity written to its file. -/
theorem apiSaveIdentity_disk (env : IdentityEnv) (s : Server) (d : Disk)
    (r : Request BotIdentity) :
    (s.apiSaveIdentity env d r).2 = d ∨
      ∃ identity, r.Body = .ok identity ∧
        (s.apiSaveIdentity env d r).2
          = mapSet d (s.identityPath (savedAs env identity).ID)
              (.identityJSON (savedAs env identity)) := by
  obtain ⟨method, body⟩ := r
  by_cases hm : method = "POST"
  · subst hm
    cases body with
    | error e => left; simp [Server.apiSaveIdentity]
    | ok identity =>
      rw [apiSaveIdentity_cases]
      cases env.mkdirErr (Join [s.config.WorkspacePath, "identities"]) with
      | some e => left; rfl
      | none =>
        cases env.writeErr (s.identityPath (savedAs env identity).ID) with
        | some e => left; rfl
        | none => right; exact ⟨identity, rfl, rfl⟩
  · left
    simp [Server.apiSaveIdentity, hm]

/-- The disk after `apiDeleteIdentity`: the disk before, or the disk before
without the file of the request. -/
theorem apiDeleteIdentity_disk (env : IdentityEnv) (s : Server) (d : Disk)
    (r : Request IDRequest) :
    (s.apiDeleteIdentity env d r).2 = d ∨
      ∃ id, r.Body = .ok { ID := id } ∧
        (s.apiDeleteIdentity env d r).2 = diskRemove d (s.identityPath id) := by
  obtain ⟨method, body⟩ := r
  by_cases hm : method = "POST"
  · subst hm
    cases body with
    | error e => left; simp [Server.apiDeleteIdentity]
    | ok req =>
      obtain ⟨id⟩ := req
      rw [apiDeleteIdentity_cases]
      cases diskRead d (s.identityPath id) with
      | none => left; rfl
      | some data =>
        cases data with
        | bytes t => left; rfl
        | unreadable => left; rfl
        | identityJSON i =>
          by_cases hd : i.IsDefault = true
          · left; simp [hd]
          · by_cases ha : i.IsActive = true
            · left; simp [hd, ha]
            · cases he : env.removeErr (s.identityPath id) with
              | some e => left; simp [hd, ha]
              | none => right; exact ⟨id, rfl, by simp [hd, ha]⟩
  · left
    simp [Server.apiDeleteIdentity, hm]

/-- The invariant passes to a disk whose active identities were active before. -/
theorem atMostOneActive_of_before (d d2 : Disk) (dir : String) (h0 : AtMostOneActive d dir)
    (h : ∀ name i, name.data ≠ [] → '/' ∉ name.data → Ext name = ".json" →
      storedIdentity d2 dir name = some i → i.IsActive = true →
      ∃ j, storedIdentity d dir name = some j ∧ j.IsActive = true) :
    AtMostOneActive d2 dir := by
  intro n m i j hn1 hn2 hn3 hm1 hm2 hm3 hi hj hai haj
  obtain ⟨i0, hi0, hai0⟩ := h n i hn1 hn2 hn3 hi hai
  obtain ⟨j0, hj0, haj0⟩ := h m j hm1 hm2 hm3 hj haj
  exact h0 n m i0 j0 hn1 hn2 hn3 hm1 hm2 hm3 hi0 hj0 hai0 haj0

/-- The invariant holds on a disk whose active identities are all in one file. -/
theorem atMostOneActive_of_path (d : Disk) (ws path : String)
    (h : ∀ name i, name.data ≠ [] → '/' ∉ name.data → Ext name = ".json" →
      storedIdentity d (Join [ws, "identities"]) name = some i → i.IsActive = true →
      Join [Join [ws, "identities"], name] = path) :
    AtMostOneActive d (Join [ws, "identities"]) := by
  intro n m i j hn1 hn2 hn3 hm1 hm2 hm3 hi hj hai haj
  have h1 := h n i hn1 hn2 hn3 hi hai
  have h2 := h m j hm1 hm2 hm3 hj haj
  exact Join_identities_injective ws n m (plainElem_of_Ext_json n hn1 hn2 hn3)
    (plainElem_of_Ext_json m hm1 hm2 hm3) (h1.trans h2.symm)

/-- The stored identities of `sampleDisk`. -/
theorem sampleDisk_stored (name : String) (i : BotIdentity) (h1 : name.data ≠ [])
    (h2 : '/' ∉ name.data) (hext : Ext name = ".json")
    (hst : storedIdentity sampleDisk (Join [(serverAllowing []).config.WorkspacePath, "identities"])
      name = some i) :
    (name = "coder.json" ∧ i = identityOf "coder" true "code") ∨
      (name = "poet.json" ∧ i = identityOf "poet" false "rhyme") := by
  have hn := plainElem_of_Ext_json name h1 h2 hext
  rw [storedIdentity_iff] at hst
  have hm := mapGet_mem _ _ _ hst
  have hc : Join [Join [(serverAllowing []).config.WorkspacePath, "identities"], "coder.json"]
      = "/home/claw/workspace/identities/coder.json" := by decide
  have hp : Join [Join [(serverAllowing []).config.WorkspacePath, "identities"], "poet.json"]
      = "/home/claw/workspace/identities/poet.json" := by decide
  simp only [sampleDisk, List.mem_cons, Prod.mk.injEq, List.mem_singleton, List.not_mem_nil,
    or_false, reduceCtorEq, and_false, false_or, FileData.identityJSON.injEq] at hm
  rcases hm with ⟨hpath, rfl⟩ | ⟨hpath, rfl⟩
  · rw [← hc] at hpath
    exact Or.inl ⟨Join_identities_injective _ _ _ hn
      ⟨by decide, by decide, by decide, by decide⟩ hpath, rfl⟩
  · rw [← hp] at hpath
    exact Or.inr ⟨Join_identities_injective _ _ _ hn
      ⟨by decide, by decide, by decide, by decide⟩ hpath, rfl⟩

/-- In `sampleDisk` only `coder` is active. -/
theorem sampleDisk_atMostOneActive :
    AtMostOneActive sampleDisk (Join [(serverAllowing []).config.WorkspacePath, "identities"]) := by
  intro n m i j hn1 hn2 hn3 hm1 hm2 hm3 hi hj hai haj
  rcases sampleDisk_stored n i hn1 hn2 hn3 hi with ⟨h1, -⟩ | ⟨-, h1⟩
  · rcases sampleDisk_stored m j hm1 hm2 hm3 hj with ⟨h2, -⟩ | ⟨-, h2⟩
    · rw [h1, h2]
    · rw [h2] at haj
      exact absurd haj (by decide)
  · rw [h1] at hai
    exact absurd hai (by decide)

/-- C26, counterexample: in a workspace in which only `coder` is active, a save
request for a new identity `bard` with `is_active = true` is accepted and stored
as it is; after the call `coder` and `bard` are both active. -/
theorem save_active_breaks_one_active :
    AtMostOneActive sampleDisk (serverAllowing []).identitiesDir ∧
      ((serverAllowing []).apiSaveIdentity okEnv sampleDisk
          (saveRequest (identityOf "bard" true "sing"))).1
        = .identity { identityOf "bard" true "sing" with UpdatedAt := 1700000123 } ∧
      ¬ AtMostOneActive
        ((serverAllowing []).apiSaveIdentity okEnv sampleDisk
          (saveRequest (identityOf "bard" true "sing"))).2
        (serverAllowing []).identitiesDir := by
  refine ⟨sampleDisk_atMostOneActive, by decide, ?_⟩
  intro h
  have hne := h "coder.json" "bard.json" (identityOf "coder" true "code")
    { identityOf "bard" true "sing" with UpdatedAt := 1700000123 }
    (by decide) (by decide) (by decide) (by decide) (by decide) (by decide) (by decide)
    (by decide) (by decide) (by decide)
  exact absurd hne (by decide)

/-- C26, amended: when at most one stored identity is active before the call, at
most one is active after a call of `apiDeleteIdentity` with any request; after
a call of `apiActivateIdentity` with any request when the stored identities are
named by id, their files can be written and the directory can be listed; and
after a call of `apiSaveIdentity` when the identity of the request is inactive
or every identity active before is in the file the request writes. -/
theorem identity_operations_keep_one_active (env : IdentityEnv) (s : Server) (d : Disk)
    (h0 : AtMostOneActive d s.identitiesDir) :
    (∀ r, AtMostOneActive (s.apiDeleteIdentity env d r).2 s.identitiesDir) ∧
      (∀ r, NamedById d s.identitiesDir → IdentityFilesWritable env.toDiskEnv s.identitiesDir →
        env.readDirFails s.identitiesDir = false →
        AtMostOneActive (s.apiActivateIdentity env.toDiskEnv d r).2 s.identitiesDir) ∧
      (∀ r : Request BotIdentity,
        (∀ identity, r.Body = .ok identity →
          identity.IsActive = false ∨
            ∀ name i, name.data ≠ [] → '/' ∉ name.data → Ext name = ".json" →
              storedIdentity d s.identitiesDir name = some i → i.IsActive = true →
              Join [s.identitiesDir, name] = s.identityPath (savedAs env identity).ID) →
        AtMostOneActive (s.apiSaveIdentity env d r).2 s.identitiesDir) := by
  simp only [Server.identitiesDir] at h0 ⊢
  refine ⟨?_, ?_, ?_⟩
  · intro r
    rcases apiDeleteIdentity_disk env s d r with h | ⟨id, -, h⟩
    · rw [h]; exact h0
    · rw [h]
      apply atMostOneActive_of_before d _ _ h0
      intro name i _ _ _ hst hai
      refine ⟨i, ?_, hai⟩
      rw [storedIdentity_iff] at hst ⊢
      rw [mapGet_diskRemove] at hst
      split at hst
      · cases hst
      · exact hst
  · intro r hnames hwrite hdir
    rcases apiActivateIdentity_flags env.toDiskEnv s d r hnames hwrite hdir with h | ⟨id, -, h⟩
    · rw [h]; exact h0
    · exact atMostOneActive_of_path _ _ _ h
  · intro r hr
    rcases apiSaveIdentity_disk env s d r with h | ⟨identity, hb, h⟩
    · rw [h]; exact h0
    · rw [h]
      rcases hr identity hb with hin | hpath
      · apply atMostOneActive_of_before d _ _ h0
        intro name i _ _ _ hst hai
        refine ⟨i, ?_, hai⟩
        rw [storedIdentity_iff] at hst ⊢
        by_cases hp : Join [Join [s.config.WorkspacePath, "identities"], name]
            = s.identityPath (savedAs env identity).ID
        · rw [hp, mapGet_mapSet_same] at hst
          simp only [Option.some.injEq, FileData.identityJSON.injEq] at hst
          rw [← hst] at hai
          have hs : (savedAs env identity).IsActive = identity.IsActive := by
            unfold savedAs
            split <;> rfl
          rw [hs, hin] at hai
          cases hai
        · rw [mapGet_mapSet_other _ _ _ _ hp] at hst
          exact hst
      · apply atMostOneActive_of_path _ _ (s.identityPath (savedAs env identity).ID)
        intro name i hn1 hn2 hn3 hst hai
        by_cases hp : Join [Join [s.config.WorkspacePath, "identities"], name]
            = s.identityPath (savedAs env identity).ID
        · exact hp
        · rw [storedIdentity_iff, mapGet_mapSet_other _ _ _ _ hp, ← storedIdentity_iff] at hst
          exact hpath name i hn1 hn2 hn3 hst hai

/-- Witness of C26 (amended): `poet` is activated in the workspace in which only
`coder` is active. -/
theorem identity_operations_keep_one_active_witness :
    AtMostOneActive sampleDisk (serverAllowing []).identitiesDir ∧
      AtMostOneActive
        ((serverAllowing []).apiActivateIdentity okEnv.toDiskEnv sampleDisk
          (activateRequest "poet")).2
        (serverAllowing []).identitiesDir :=
  ⟨sampleDisk_atMostOneActive,
    (identity_operations_keep_one_active okEnv (serverAllowing []) sampleDisk
      sampleDisk_atMostOneActive).2.1 (activateRequest "poet") sampleDisk_namedById
      (fun _ _ _ _ => rfl) rfl⟩

/-! ## Theorems: save, activate, list -/

theorem digitChar_ne_slash (m : Nat) (h : m < 10) : Nat.digitChar m ≠ '/' := by
  interval_cases m <;> decide

theorem toDigitsCore_no_slash (fuel : Nat) : ∀ (n : Nat) (ds : List Char), '/' ∉ ds →
    '/' ∉ Nat.toDigitsCore 10 fuel n ds := by
  induction fuel with
  | zero => intro n ds h; simpa [Nat.toDigitsCore] using h
  | succ f ih =>
    intro n ds h
    have hd : '/' ∉ Nat.digitChar (n % 10) :: ds := by
      simp only [List.mem_cons, not_or]
      exact ⟨(digitChar_ne_slash _ (Nat.mod_lt _ (by decide))).symm, h⟩
    simp only [Nat.toDigitsCore]
    split
    · exact hd
    · exact ih _ _ hd

theorem natToString_no_slash (n : Nat) : '/' ∉ (toString n).data := by
  show '/' ∉ (Nat.repr n).data
  simp only [Nat.repr, Nat.toDigits, List.asString]
  exact toDigitsCore_no_slash _ _ _ (by simp)

/-- The rendering `%d` of an integer has no path separator. -/
theorem sprintfD_no_slash (n : Int) : '/' ∉ (sprintfD n).data := by
  unfold sprintfD
  cases n with
  | ofNat m => exact natToString_no_slash m
  | negSucc m =>
    show '/' ∉ ("-" ++ toString (Nat.succ m)).data
    rw [String.data_append]
    simp only [List.mem_append, not_or]
    exact ⟨by decide, natToString_no_slash _⟩

/-- The id `apiSaveIdentity` stores has no path separator when the id of the
request has none: a generated id never has one. -/
theorem savedAs_no_slash (env : IdentityEnv) (identity : BotIdentity)
    (hid : '/' ∉ identity.ID.data) : '/' ∉ (savedAs env identity).ID.data := by
  unfold savedAs
  split
  · show '/' ∉ ("identity_" ++ sprintfD env.unixNow).data
    rw [String.data_append]
    simp only [List.mem_append, not_or]
    exact ⟨by decide, sprintfD_no_slash _⟩
  · exact hid

/-- The naming by id is kept by a save under an id without path separator. -/
theorem namedById_save (ws : String) (d : Disk) (saved : BotIdentity)
    (hid : '/' ∉ saved.ID.data) (hnames : NamedById d (Join [ws, "identities"])) :
    NamedById
      (mapSet d (Join [Join [ws, "identities"], saved.ID ++ ".json"]) (.identityJSON saved))
      (Join [ws, "identities"]) := by
  intro name i h1 h2 hext hst
  rw [storedIdentity_iff] at hst
  by_cases hp : Join [Join [ws, "identities"], name]
      = Join [Join [ws, "identities"], saved.ID ++ ".json"]
  · rw [hp, mapGet_mapSet_same] at hst
    simp only [Option.some.injEq, FileData.identityJSON.injEq] at hst
    rw [← hst]
    exact Join_identities_injective ws _ _ (plainElem_of_Ext_json name h1 h2 hext)
      (plainElem_id_json _ hid) hp
  · rw [mapGet_mapSet_other _ _ _ _ hp] at hst
    exact hnames name i h1 h2 hext ((storedIdentity_iff _ _ _ _).mpr hst)

/-- The disk after `apiActivateIdentity` for an id whose file holds an identity,
when the directory can be listed. -/
theorem apiActivateIdentity_found (env : DiskEnv) (s : Server) (d : Disk) (id : String)
    (identity : BotIdentity)
    (hdir : env.readDirFails (Join [s.config.WorkspacePath, "identities"]) = false)
    (hget : mapGet d (Join [Join [s.config.WorkspacePath, "identities"], id ++ ".json"])
      = some (.identityJSON identity)) :
    s.apiActivateIdentity env d (activateRequest id) =
      writePersona env s.config.WorkspacePath { identity with IsActive := true }
        (diskWrite env
          (deactivateOthers env (Join [s.config.WorkspacePath, "identities"]) id
            (ReadDir d (Join [s.config.WorkspacePath, "identities"])) d)
          (Join [Join [s.config.WorkspacePath, "identities"], id ++ ".json"])
          (.identityJSON { identity with IsActive := true })) := by
  simp only [Server.apiActivateIdentity, activateRequest, ne_eq, not_true_eq_false, if_false,
    diskRead, hget, Unmarshal, hdir, Bool.false_eq_true]

/-- One step of the loop of `apiListIdentities`. -/
theorem listStep_eq (env : IdentityEnv) (d : Disk) (dir : String) (acc : List BotIdentity)
    (name : String) :
    listStep env d dir acc name
      = acc ++ (if Ext name = ".json" then storedIdentity d dir name else none).toList := by
  unfold listStep storedIdentity
  by_cases hext : Ext name = ".json"
  · simp only [hext, if_true]
    cases diskRead d (Join [dir, name]) with
    | none => simp
    | some data => cases data <;> simp [Unmarshal]
  · simp [hext]

/-- The loop of `apiListIdentities` collects the stored identities of the
`.json` entries in the order of the directory. -/
theorem listStep_fold (env : IdentityEnv) (d : Disk) (dir : String) (names : List String) :
    ∀ acc : List BotIdentity,
      names.foldl (listStep env d dir) acc
        = acc ++ names.filterMap
            (fun name => if Ext name = ".json" then storedIdentity d dir name else none) := by
  induction names with
  | nil => intro acc; simp
  | cons n rest ih =>
    intro acc
    rw [List.foldl_cons, ih, listStep_eq]
    cases hg : (if Ext n = ".json" then storedIdentity d dir n else none) with
    | none => simp [List.filterMap_cons, hg]
    | some x => simp [List.filterMap_cons, hg]

theorem filter_filterMap_nil {α β : Type} (g : α → Option β) (P : β → Bool) (l : List α)
    (h : ∀ n ∈ l, ∀ y, g n = some y → P y = false) : (l.filterMap g).filter P = [] := by
  induction l with
  | nil => rfl
  | cons a rest ih =>
    have ih1 := ih (fun n hn => h n (List.mem_cons_of_mem _ hn))
    cases hg : g a with
    | none => simp only [List.filterMap_cons, hg]; exact ih1
    | some y =>
      have hy := h a (List.mem_cons_self _ _) y hg
      simp only [List.filterMap_cons, hg, List.filter, hy]
      exact ih1

/-- A list without repetition in which one entry yields a value with the
property and every other entry yields none with it. -/
theorem filter_filterMap_one {α β : Type} (g : α → Option β) (P : β → Bool) (l : List α)
    (n0 : α) (x : β) (hnd : l.Nodup) (hmem : n0 ∈ l) (hg : g n0 = some x) (hP : P x = true)
    (hothers : ∀ n ∈ l, n ≠ n0 → ∀ y, g n = some y → P y = false) :
    (l.filterMap g).filter P = [x] := by
  induction l with
  | nil => cases hmem
  | cons a rest ih =>
    rw [List.nodup_cons] at hnd
    by_cases ha : a = n0
    · subst ha
      have hrest : (rest.filterMap g).filter P = [] :=
        filter_filterMap_nil g P rest (fun n hn y hy =>
          hothers n (List.mem_cons_of_mem _ hn) (fun e => hnd.1 (e ▸ hn)) y hy)
      simp only [List.filterMap_cons, hg, List.filter, hP, hrest]
    · have hmem1 : n0 ∈ rest := by
        rcases List.mem_cons.mp hmem with h | h
        · exact absurd h.symm ha
        · exact h
      have ih1 := ih hnd.2 hmem1 (fun n hn => hothers n (List.mem_cons_of_mem _ hn))
      cases hga : g a with
      | none => simp only [List.filterMap_cons, hga]; exact ih1
      | some y =>
        have hy := hothers a (List.mem_cons_self _ _) ha y hga
        simp only [List.filterMap_cons, hga, List.filter, hy]
        exact ih1

/-- An accepted save: the directory exists, the answer carries the stored
identity, and the disk is the disk before with that identity in its file. -/
theorem apiSaveIdentity_accepted (env : IdentityEnv) (s : Server) (d : Disk)
    (identity saved : BotIdentity)
    (hsave : (s.apiSaveIdentity env d (saveRequest identity)).1 = .identity saved) :
    env.mkdirErr (Join [s.config.WorkspacePath, "identities"]) = none ∧
      saved = savedAs env identity ∧
      (s.apiSaveIdentity env d (saveRequest identity)).2
        = mapSet d (Join [Join [s.config.WorkspacePath, "identities"], saved.ID ++ ".json"])
            (.identityJSON saved) := by
  have hcases : s.apiSaveIdentity env d (saveRequest identity) = _ :=
    apiSaveIdentity_cases env s d identity
  rw [hcases] at hsave ⊢
  cases hmk : env.mkdirErr (Join [s.config.WorkspacePath, "identities"]) with
  | some e => rw [hmk] at hsave; simp at hsave
  | none =>
    rw [hmk] at hsave
    cases hwr : env.writeErr (s.identityPath (savedAs env identity).ID) with
    | some e => rw [hwr] at hsave; simp at hsave
    | none =>
      rw [hwr] at hsave
      simp only [IdentityResponse.identity.injEq] at hsave
      subst hsave
      exact ⟨rfl, rfl, rfl⟩

/-- C21, counterexample: an identity with the id `../guest` is accepted by
`apiSaveIdentity`, which writes it outside the directory of the identities;
its activation by the returned id answers ok and deactivates `coder`; the list
of `apiListIdentities` then holds `coder` and `poet`, neither of them active. -/
theorem save_activate_list_none_active :
    ((serverAllowing []).apiSaveIdentity okEnv sampleDisk
        (saveRequest (identityOf "../guest" true "hello"))).1
      = .identity { identityOf "../guest" true "hello" with UpdatedAt := 1700000123 } ∧
    ((serverAllowing []).apiActivateIdentity okEnv.toDiskEnv
        ((serverAllowing []).apiSaveIdentity okEnv sampleDisk
          (saveRequest (identityOf "../guest" true "hello"))).2
        (activateRequest "../guest")).1 = activatedOk ∧
    (serverAllowing []).apiListIdentities okEnv
        ((serverAllowing []).apiActivateIdentity okEnv.toDiskEnv
          ((serverAllowing []).apiSaveIdentity okEnv sampleDisk
            (saveRequest (identityOf "../guest" true "hello"))).2
          (activateRequest "../guest")).2
      = .identities [identityOf "coder" false "code", identityOf "poet" false "rhyme"] := by
  decide

/-- C21, amended: the id of the request has no path separator (an empty id gets
a generated one), the stored identities are named by id, their files can be
written and the directory can be listed. When `apiSaveIdentity` accepts the
identity, whatever its active flag, and `apiActivateIdentity` is called with the
returned id, `apiListIdentities` returns a list in which exactly one identity
is active, and that identity has the returned id. -/
theorem save_activate_list_one_active (env : IdentityEnv) (s : Server) (d : Disk)
    (identity saved : BotIdentity) (hid : '/' ∉ identity.ID.data)
    (hnames : NamedById d s.identitiesDir)
    (hwrite : IdentityFilesWritable env.toDiskEnv s.identitiesDir)
    (hdir : env.readDirFails s.identitiesDir = false)
    (hsave : (s.apiSaveIdentity env d (saveRequest identity)).1 = .identity saved) :
    ∃ l x,
      s.apiListIdentities env
          (s.apiActivateIdentity env.toDiskEnv (s.apiSaveIdentity env d (saveRequest identity)).2
            (activateRequest saved.ID)).2 = .identities l ∧
        l.filter (fun i => i.IsActive) = [x] ∧ x.ID = saved.ID := by
  simp only [Server.identitiesDir] at hnames hwrite hdir
  obtain ⟨hmk, hsaved, hdisk⟩ := apiSaveIdentity_accepted env s d identity saved hsave
  rw [hdisk]
  have hsid : '/' ∉ saved.ID.data := by rw [hsaved]; exact savedAs_no_slash env identity hid
  have hplain : PlainElem (saved.ID ++ ".json").data := plainElem_id_json _ hsid
  have hnames1 := namedById_save s.config.WorkspacePath d saved hsid hnames
  have hget1 := mapGet_mapSet_same d
    (Join [Join [s.config.WorkspacePath, "identities"], saved.ID ++ ".json"])
    (FileData.identityJSON saved)
  -- the activation
  rw [apiActivateIdentity_found env.toDiskEnv s _ saved.ID saved hdir hget1]
  have hwT : env.writeErr (Join [Join [s.config.WorkspacePath, "identities"], saved.ID ++ ".json"])
      = none := hwrite _ hplain.1 hplain.2.1 (Ext_json _)
  have htarget : storedIdentity
      (writePersona env.toDiskEnv s.config.WorkspacePath { saved with IsActive := true }
        (diskWrite env.toDiskEnv
          (deactivateOthers env.toDiskEnv (Join [s.config.WorkspacePath, "identities"]) saved.ID
            (ReadDir
              (mapSet d (Join [Join [s.config.WorkspacePath, "identities"], saved.ID ++ ".json"])
                (FileData.identityJSON saved))
              (Join [s.config.WorkspacePath, "identities"]))
            (mapSet d (Join [Join [s.config.WorkspacePath, "identities"], saved.ID ++ ".json"])
              (FileData.identityJSON saved)))
          (Join [Join [s.config.WorkspacePath, "identities"], saved.ID ++ ".json"])
          (.identityJSON { saved with IsActive := true }))).2
      (Join [s.config.WorkspacePath, "identities"]) (saved.ID ++ ".json")
        = some { saved with IsActive := true } := by
    rw [writePersona_stored _ _ _ _ _ hplain.1 hplain.2.1 (Ext_json _), storedIdentity_iff]
    simp only [diskWrite, hwT, mapGet_mapSet_same]
  have hothers : ∀ name i, name.data ≠ [] → '/' ∉ name.data → Ext name = ".json" →
      storedIdentity
        (writePersona env.toDiskEnv s.config.WorkspacePath { saved with IsActive := true }
          (diskWrite env.toDiskEnv
            (deactivateOthers env.toDiskEnv (Join [s.config.WorkspacePath, "identities"]) saved.ID
              (ReadDir
                (mapSet d (Join [Join [s.config.WorkspacePath, "identities"], saved.ID ++ ".json"])
                  (FileData.identityJSON saved))
                (Join [s.config.WorkspacePath, "identities"]))
              (mapSet d (Join [Join [s.config.WorkspacePath, "identities"], saved.ID ++ ".json"])
                (FileData.identityJSON saved)))
            (Join [Join [s.config.WorkspacePath, "identities"], saved.ID ++ ".json"])
            (.identityJSON { saved with IsActive := true }))).2
        (Join [s.config.WorkspacePath, "identities"]) name = some i →
      name ≠ saved.ID ++ ".json" → i.IsActive = false := by
    intro name i hn1 hn2 hext hst hne
    rw [writePersona_stored _ _ _ _ _ hn1 hn2 hext] at hst
    rcases activation_flags env.toDiskEnv _ _ saved.ID saved hnames1 hwrite name i hn1 hn2 hext hst
      with h | ⟨-, h, -⟩
    · exact absurd (Join_identities_injective _ _ _ (plainElem_of_Ext_json name hn1 hn2 hext)
        hplain h.1) hne
    · exact h
  generalize (writePersona env.toDiskEnv s.config.WorkspacePath { saved with IsActive := true }
    (diskWrite env.toDiskEnv
      (deactivateOthers env.toDiskEnv (Join [s.config.WorkspacePath, "identities"]) saved.ID
        (ReadDir
          (mapSet d (Join [Join [s.config.WorkspacePath, "identities"], saved.ID ++ ".json"])
            (FileData.identityJSON saved))
          (Join [s.config.WorkspacePath, "identities"]))
        (mapSet d (Join [Join [s.config.WorkspacePath, "identities"], saved.ID ++ ".json"])
          (FileData.identityJSON saved)))
      (Join [Join [s.config.WorkspacePath, "identities"], saved.ID ++ ".json"])
      (.identityJSON { saved with IsActive := true }))).2 = d2 at htarget hothers ⊢
  -- the list
  have hmem : saved.ID ++ ".json" ∈ ReadDir d2 (Join [s.config.WorkspacePath, "identities"]) := by
    have h1 := (storedIdentity_iff _ _ _ _).mp htarget
    rw [Join_identities _ _ hplain] at h1
    exact mem_ReadDir d2 _ (saved.ID ++ ".json").data _ h1 hplain.1 hplain.2.1
  have hone := filter_filterMap_one
    (fun name =>
      if Ext name = ".json" then
        storedIdentity d2 (Join [s.config.WorkspacePath, "identities"]) name
      else none)
    (fun i : BotIdentity => i.IsActive)
    (ReadDir d2 (Join [s.config.WorkspacePath, "identities"])) (saved.ID ++ ".json")
    { saved with IsActive := true } (List.nodup_dedup _) hmem
    (by simp only [Ext_json, if_true]; exact htarget) rfl
    (fun n hn hne y hy => by
      by_cases hext : Ext n = ".json"
      · simp only [hext, if_true] at hy
        exact hothers n y (ReadDir_names _ _ _ hn).1 (ReadDir_names _ _ _ hn).2 hext hy hne
      · simp [hext] at hy)
  refine ⟨_, { saved with IsActive := true }, ?_, hone, rfl⟩
  have hfold := listStep_fold env d2 (Join [s.config.WorkspacePath, "identities"])
    (ReadDir d2 (Join [s.config.WorkspacePath, "identities"])) []
  rw [List.nil_append] at hfold
  have hlen : (List.foldl (listStep env d2 (Join [s.config.WorkspacePath, "identities"])) []
      (ReadDir d2 (Join [s.config.WorkspacePath, "identities"]))).length ≠ 0 := by
    rw [hfold]
    intro h0
    rw [List.length_eq_zero] at h0
    rw [h0] at hone
    cases hone
  rw [hfold] at hlen
  simp only [Server.apiListIdentities, hmk, hdir, Bool.false_eq_true, if_false, hfold]
  rw [if_neg hlen]

/-- Witness of C21 (amended): an identity without id and with
`is_active = true` is saved in the workspace in which `coder` is active, gets
the id `identity_1700000123`, and is activated by that id. -/
theorem save_activate_list_one_active_witness :
    ((serverAllowing []).apiSaveIdentity okEnv sampleDisk
        (saveRequest (identityOf "" true "verse"))).1
      = .identity (savedAs okEnv (identityOf "" true "verse")) ∧
    (savedAs okEnv (identityOf "" true "verse")).ID = "identity_1700000123" ∧
    ∃ l x,
      (serverAllowing []).apiListIdentities okEnv
          ((serverAllowing []).apiActivateIdentity okEnv.toDiskEnv
            ((serverAllowing []).apiSaveIdentity okEnv sampleDisk
              (saveRequest (identityOf "" true "verse"))).2
            (activateRequest (savedAs okEnv (identityOf "" true "verse")).ID)).2
          = .identities l ∧
        l.filter (fun i => i.IsActive) = [x] ∧
        x.ID = (savedAs okEnv (identityOf "" true "verse")).ID :=
  ⟨by decide, by decide,
    save_activate_list_one_active okEnv (serverAllowing []) sampleDisk
      (identityOf "" true "verse") (savedAs okEnv (identityOf "" true "verse")) (by decide)
      sampleDisk_namedById (fun _ _ _ _ => rfl) rfl (by decide)⟩

end Picoclaw
